import Mathlib

/-!
# Transfil intervention driver (`Model.cpp`): a shallow embedding

The definitions below follow `src/src/Model.cpp` function by function.

Modelling conventions

* C++ `int` is `Int`; arithmetic is taken in the range where no signed
  overflow occurs (signed overflow is undefined behaviour in C++).
  `/` and `%` on `int` truncate toward zero: `Int.tdiv`, `Int.tmod`.
* C++ `double` is `ℚ`: a value is the rational it stands for, with no NaN
  or infinity.  The quotient that gives the number of burn-in steps is
  rounded to the nearest `double` (`roundToDouble`); sums and products
  are taken without rounding.  Converting a `double` to `int` truncates
  toward zero (`truncToInt`).
* The collaborators `Population`, `Vector`, `Worm`, `Scenario` and `Output`
  are not part of `Model.cpp`.  A call to one of them is recorded as an
  `Event` in a trace; a value one of them returns (a survey outcome, a
  measured prevalence, the event due at a month) is read from an oracle.
  Calls that only name or print values (`saveRandomNames`,
  `saveRandomValues`, the `_DEBUG` printing) and pure getters are not
  recorded.
* `Model::dt` is declared in `Model.hpp`; it is assigned from the `double`
  parameter `timestep` and passed to `Population::evolve`, and is taken as
  a `double`.
  The bookkeeping fields of `Population` that `Model.cpp` reads and writes
  are fields of the record `Population`; the collaborator calls are taken
  not to modify them.
* `exit(1)` is `Except.error 1`.
-/

namespace Transfil

/-! ## Numeric conversions -/

/-- Conversion of a `double` to `int`: truncation toward zero. -/
def truncToInt (x : ℚ) : Int :=
  if 0 ≤ x then ⌊x⌋ else ⌈x⌉

/-- Rounding of a rational to the nearest integer, a tie going to the even
neighbour (the default rounding of IEEE 754). -/
def roundHalfEven (y : ℚ) : Int :=
  if y - (⌊y⌋ : ℚ) < 1 / 2 then ⌊y⌋
  else if 1 / 2 < y - (⌊y⌋ : ℚ) then ⌊y⌋ + 1
  else if ⌊y⌋ % 2 = 0 then ⌊y⌋
  else ⌊y⌋ + 1

/-- The position of the leading binary digit of `n`, found by halving at
most `fuel` times: `⌊log2 n⌋` for `1 ≤ n ≤ fuel`. -/
def log2Floor : Nat → Nat → Nat
  | 0, _ => 0
  | fuel + 1, n => if 2 ≤ n then log2Floor fuel (n / 2) + 1 else 0

/-- The binary exponent of `x > 0`: the integer `e` with
`2^e ≤ x < 2^(e+1)`. -/
def binaryExponent (x : ℚ) : Int :=
  if 1 ≤ x then
    (log2Floor ⌊x⌋₊ ⌊x⌋₊ : Int)
  else if 0 < x then
    -((log2Floor (⌈x⁻¹⌉₊ - 1) (⌈x⁻¹⌉₊ - 1) + 1 : Nat) : Int)
  else
    0

/-- The exponent of the unit in the last place of a `double` (IEEE 754
binary64: 53 significant bits, smallest exponent -1074) at magnitude `x`. -/
def ulpExponent (x : ℚ) : Int :=
  max (binaryExponent x - 52) (-1074)

/-- The `double` that an arithmetic operation with exact result `x`
produces: the nearest multiple of the unit in the last place, ties to even
(`x` below the overflow threshold). -/
def roundToDouble (x : ℚ) : ℚ :=
  (roundHalfEven (x / (2 : ℚ) ^ ulpExponent |x|) : ℚ) *
    (2 : ℚ) ^ ulpExponent |x|

/-- Conversion of an `int` to a 64-bit `size_t`, as in the comparison of
`paramIndex` with `k_vals.size() - 1`. -/
def toSizeT (i : Int) : Int :=
  i % 18446744073709551616

/-- Conversion `unsigned(replicates)` of an `int` to a 32-bit `unsigned`. -/
def toUnsigned (i : Int) : Nat :=
  (i % 4294967296).toNat

/-! ## Pure functions of `Model` -/

/-- `Model::shouldReduceImportationViaPrevalance` (Model.cpp 174-184). -/
def shouldReduceImportationViaPrevalance
    (reduceImpViaXml t switchImportationReducingMethodTime : Int) : Bool :=
  if reduceImpViaXml = 0 ∨ t ≥ switchImportationReducingMethodTime then
    true
  else
    false

/-- `Model::multiplierForCoverage` (Model.cpp 657-681). -/
def multiplierForCoverage (t : Int) (cov_prop : ℚ)
    (removeCoverageReduction removeCoverageReductionTime
      graduallyRemoveCoverageReduction : Int) : ℚ :=
  if graduallyRemoveCoverageReduction = 1 then
    if t < removeCoverageReductionTime then
      (1 - cov_prop) * ((t : ℚ) / (removeCoverageReductionTime : ℚ)) + cov_prop
    else
      1
  else if removeCoverageReduction = 1 then
    if t < removeCoverageReductionTime then
      cov_prop
    else
      1
  else
    cov_prop

/-! ## Collaborator calls and oracles -/

/-- The label passed to `Scenario::writeNumberByAge` and
`Scenario::writeEmptySurvey`. -/
inductive SurveyLabel where
  | notSurvey
  | preTASSurvey
  | TASSurvey
  deriving DecidableEq

/-- The places of `evolveAndSave` that call `Population::getMFPrev`. -/
inductive MFSite where
  | callStart
  | lowMFCheck
  | beforeMDA
  | afterMDANew
  | afterMDAOld
  deriving DecidableEq

/-- An `MDAEvent` as far as `Model.cpp` reads it. -/
structure MDAEvent where
  coverage : ℚ
  compliance : ℚ
  deriving DecidableEq

/-- One call of `Model.cpp` into a collaborator, with the arguments that
`Model.cpp` computes. -/
inductive Event where
  | InitIHMEData
  | InitPreTASData
  | InitTASData
  | InitNTDMCData
  | updateKVal (k : Option ℚ)
  | updateVtoH (v : Option ℚ)
  | writePrevByAge (t : Int)
  | writeNumberByAge (t : Int) (label : SurveyLabel)
  | writeSequelaeByAge (t : Int)
  | getIncidence (t : Int)
  | writeSurveyByAge (t preTAS_Pass TAS_Pass : Int)
  | writeRoadmapTarget (t : Int) (DoMDA : Bool) (TAS_Pass neededTASPass : Int)
  | writeEmptySurvey (year : Int) (label : SurveyLabel)
  | updateImportationRate (t : Int)
  | updateBedNetCoverage (t : Int)
  | evolve (dt : ℚ)
  | updateL3Density
  | getPrevalence
  | PreTASSurvey (t : Int)
  | TASSurvey (t : Int)
  | initPTreat (cov rho : ℚ)
  | checkForZeroPTreat (cov rho : ℚ)
  | editPTreat (cov rho : ℚ)
  | getMFPrev (site : MFSite) (t : Int)
  | ApplyTreatmentUpdated (t roundNumber : Int) (DoMDA : Bool)
  | neverTreatToOriginal
  | changeNeverTreat
  | ICTestToOriginal
  | changeICTest
  | saveMonth (t : Int)
  | saveCurrentState (month : Int)
  | vectorsSaveCurrentState (month : Int)
  | openFilesandPrintHeadings
  | set_seed (rseed : Option Nat)
  | clearSavedMonths
  | outputInitialise
  | initHosts (k aImp : Option ℚ)
  | vectorsReset (v_to_h : Option ℚ)
  | wormsReset (wProp : Option ℚ)
  | resetToMonth (month : Int)
  | printResults (rep : Int)
  | printMDAHistory
  | progress (percent : Int)
  | closeFiles
  | diagnostic
  deriving DecidableEq

/-- The fields and getters of `Population` that `Model.cpp` uses. -/
structure Population where
  preTASSurveyTime : Int
  TASSurveyTime : Int
  preTAS_Pass : Int
  TAS_Pass : Int
  DoMDA : Bool
  totMDAs : Int
  prevCov : ℚ
  prevRho : ℚ
  aImp : ℚ
  interSurveyPeriod : Int
  firstTASNumMDA : Int
  surveyStartDate : Int
  switchImportationReducingMethodTime : Int
  removeCoverageReduction : Int
  removeCoverageReductionTime : Int
  graduallyRemoveCoverageReduction : Int
  NoMDALowMF : Int
  MFThreshold : ℚ
  neverTreatChangeTime : Int
  ICTestChangeTime : Int
  maxAge : Int
  updateParams : Int
  deriving DecidableEq

/-- The `Scenario` as far as `evolveAndSave` queries it.  `changeSensSpec`
and `changeNeverTreat` are the results of the two loops that look the
scenario's name up in `popln.sensSpecChangeName` and
`popln.neverTreatChangeName` (Model.cpp 298-307). -/
structure Scenario where
  startMonth : Int
  numMonthsToSave : Int
  monthToSave : Int → Int
  prevalenceDue : Int → Bool
  treatmentDue : Int → Option MDAEvent
  changeSensSpec : Int
  changeNeverTreat : Int

/-- Values returned by the stochastic collaborators, by month. -/
structure Oracle where
  PreTASSurvey : Int → Int
  TASSurvey : Int → Int
  getMFPrev : MFSite → Int → ℚ

/-- The arguments of `evolveAndSave` that stay fixed over a run. -/
structure Settings where
  k_vals : List ℚ
  v_to_h_vals : List ℚ
  outputEndgame : Int
  outputEndgameDate : Int
  outputNTDMC : Bool
  outputNTDMCDate : Int
  reduceImpViaXml : Int
  cov_prop : ℚ

/-- The local variables of `evolveAndSave` that live across time steps. -/
structure Locals where
  time_to_reduce_importation_rate : Int
  mfprev : ℚ
  mfprev_aimp_old : ℚ
  mfprev_aimp_new : ℚ
  vec_control : Int
  donePreTAS : Int
  doneTAS : Int
  previousMDAyear : Int
  roundNumber : Int
  deriving DecidableEq

/-- State threaded through the time-step loop: the population's
bookkeeping, the locals and the trace of collaborator calls (oldest
first). -/
structure LoopState where
  popln : Population
  loc : Locals
  trace : List Event
  deriving DecidableEq

/-- Append one collaborator call to the trace. -/
def LoopState.emit (s : LoopState) (e : Event) : LoopState :=
  { s with trace := s.trace ++ [e] }

/-- `BASEYEAR` of `evolveAndSave`. -/
def BASEYEAR : Int := 2000

/-- `neededTASPass` of `evolveAndSave`. -/
def neededTASPass : Int := 3

/-- The reassigned `outputEndgameDate` (Model.cpp 243). -/
def endgameStartMonth (cfg : Settings) : Int :=
  (cfg.outputEndgameDate - BASEYEAR) * 12

/-- `outputNTDMCDateFromYear` (Model.cpp 245). -/
def outputNTDMCDateFromYear (cfg : Settings) : Int :=
  (cfg.outputNTDMCDate - BASEYEAR) * 12

/-! ## One time step of `evolveAndSave` (Model.cpp 309-594), block by block -/

/-- Read `v[i]` for an `int` index; `none` when the index is outside the
vector (undefined behaviour in C++). -/
def readAt (v : List ℚ) (i : Int) : Option ℚ :=
  if 0 ≤ i then v[i.toNat]? else none

/-- Refresh of `k` and the vector-to-host ratio (Model.cpp 311-318). -/
def refreshParams (cfg : Settings) (t : Int) (s : LoopState) : LoopState :=
  let paramIndex := Int.tdiv t 12
  if s.popln.updateParams ≠ 0 ∧ Int.tmod t 12 = 0 ∧
      toSizeT paramIndex ≤ toSizeT ((cfg.k_vals.length : Int) - 1) then
    (s.emit (Event.updateKVal (readAt cfg.k_vals paramIndex))).emit
      (Event.updateVtoH (readAt cfg.v_to_h_vals paramIndex))
  else
    s

/-- Annual age-stratified records (Model.cpp 327-337). -/
def annualRecords (cfg : Settings) (t : Int) (s : LoopState) : LoopState :=
  if Int.tmod t 12 = 0 ∧ cfg.outputEndgame = 1 ∧ t ≥ endgameStartMonth cfg then
    ((((s.emit (Event.writePrevByAge t)).emit
      (Event.writeNumberByAge t SurveyLabel.notSurvey)).emit
      (Event.writeSequelaeByAge t)).emit
      (Event.getIncidence t)).emit
      (Event.writeSurveyByAge t s.popln.preTAS_Pass s.popln.TAS_Pass)
  else
    s

/-- Roadmap-target record (Model.cpp 339-343). -/
def roadmapRecord (cfg : Settings) (t : Int) (s : LoopState) : LoopState :=
  if Int.tmod t 12 = 0 ∧ cfg.outputNTDMC = true ∧
      t ≥ outputNTDMCDateFromYear cfg then
    s.emit (Event.writeRoadmapTarget t s.popln.DoMDA s.popln.TAS_Pass
      neededTASPass)
  else
    s

/-- Explicit empty-survey records at the last month of a year
(Model.cpp 352-370). -/
def emptySurveyRecords (cfg : Settings) (t : Int) (s : LoopState) :
    LoopState :=
  if Int.tmod (t + 1) 12 = 0 ∧ cfg.outputEndgame = 1 ∧
      t ≥ endgameStartMonth cfg then
    let year := Int.tdiv (t + 1) 12 + BASEYEAR - 1
    let s1 :=
      if s.loc.donePreTAS = 0 then
        (s.emit (Event.writeEmptySurvey year SurveyLabel.preTASSurvey)).emit
          (Event.writeNumberByAge t SurveyLabel.preTASSurvey)
      else
        s
    let s2 := { s1 with loc := { s1.loc with donePreTAS := 0 } }
    let s3 :=
      if s2.loc.doneTAS = 0 then
        (s2.emit (Event.writeEmptySurvey year SurveyLabel.TASSurvey)).emit
          (Event.writeNumberByAge t SurveyLabel.TASSurvey)
      else
        s2
    { s3 with loc := { s3.loc with doneTAS := 0 } }
  else
    s

/-- Scenario-defined importation update and bed-net update
(Model.cpp 377-382). -/
def scenarioUpdates (cfg : Settings) (t : Int) (s : LoopState) : LoopState :=
  let s1 :=
    if (!shouldReduceImportationViaPrevalance cfg.reduceImpViaXml t
          s.popln.switchImportationReducingMethodTime) = true ∧
        Int.tmod t 12 = 0 then
      s.emit (Event.updateImportationRate t)
    else
      s
  s1.emit (Event.updateBedNetCoverage t)

/-- Biological step, larval density and the due prevalence measurement
(Model.cpp 385-397). -/
def evolveStep (sc : Scenario) (dt : ℚ) (t : Int) (s : LoopState) :
    LoopState :=
  let s1 := (s.emit (Event.evolve dt)).emit Event.updateL3Density
  if sc.prevalenceDue t = true then s1.emit Event.getPrevalence else s1

/-- The pre-TAS snippet (Model.cpp 400-418). -/
def preTASBlock (cfg : Settings) (o : Oracle) (t : Int) (s : LoopState) :
    LoopState :=
  if t = s.popln.preTASSurveyTime then
    let s1 := s.emit (Event.PreTASSurvey t)
    let s2 := { s1 with popln := { s1.popln with preTAS_Pass := o.PreTASSurvey t } }
    let s3 :=
      if cfg.outputEndgame = 1 ∧ t ≥ endgameStartMonth cfg then
        s2.emit (Event.writeNumberByAge t SurveyLabel.preTASSurvey)
      else
        s2
    let s4 := { s3 with loc := { s3.loc with donePreTAS := 1 } }
    if s4.popln.preTAS_Pass = 1 then
      { s4 with popln := { s4.popln with TASSurveyTime := t, DoMDA := false } }
    else
      { s4 with popln := { s4.popln with
          preTASSurveyTime := t + s4.popln.interSurveyPeriod, DoMDA := true } }
  else
    s

/-- The TAS snippet (Model.cpp 421-448). -/
def TASBlock (cfg : Settings) (o : Oracle) (t : Int) (s : LoopState) :
    LoopState :=
  if t = s.popln.TASSurveyTime then
    let TAS_Pass_ind := o.TASSurvey t
    let s1 := s.emit (Event.TASSurvey t)
    let s2 :=
      if cfg.outputEndgame = 1 ∧ t ≥ endgameStartMonth cfg then
        s1.emit (Event.writeNumberByAge t SurveyLabel.TASSurvey)
      else
        s1
    let s3 := { s2 with loc := { s2.loc with doneTAS := 1 } }
    let s4 := { s3 with popln := { s3.popln with
        TAS_Pass := s3.popln.TAS_Pass + TAS_Pass_ind } }
    if TAS_Pass_ind = 0 then
      { s4 with popln := { s4.popln with
          TAS_Pass := 0,
          preTASSurveyTime := t + s4.popln.interSurveyPeriod,
          TASSurveyTime := t + s4.popln.interSurveyPeriod,
          DoMDA := true } }
    else if s4.popln.TAS_Pass = neededTASPass then
      { s4 with popln := { s4.popln with TASSurveyTime := 99999999 } }
    else if s4.popln.TAS_Pass < neededTASPass then
      let s5 := { s4 with popln := { s4.popln with
          TASSurveyTime := t + s4.popln.interSurveyPeriod } }
      if s5.loc.vec_control = 0 then
        { s5 with loc := { s5.loc with vec_control := 1 } }
      else
        s5
    else
      s4
  else
    s

/-- Treatment-probability protocol of a due intervention
(Model.cpp 454-478). -/
def treatmentProbabilities (cfg : Settings) (mda : MDAEvent) (t : Int)
    (s : LoopState) : LoopState :=
  let coverage_multiplier :=
    multiplierForCoverage t cfg.cov_prop s.popln.removeCoverageReduction
      s.popln.removeCoverageReductionTime
      s.popln.graduallyRemoveCoverageReduction
  let cov := mda.coverage * coverage_multiplier
  let rho := mda.compliance
  let s1 :=
    if s.popln.prevCov = -1 then
      { s.emit (Event.initPTreat cov rho) with
        popln := { s.popln with prevCov := cov, prevRho := rho } }
    else
      s
  let s2 :=
    if s1.popln.prevCov ≠ mda.coverage * coverage_multiplier ∨
        s1.popln.prevRho ≠ mda.compliance then
      { (s1.emit (Event.checkForZeroPTreat s1.popln.prevCov
            s1.popln.prevRho)).emit (Event.editPTreat cov rho) with
        popln := { s1.popln with prevCov := cov, prevRho := rho } }
    else
      s1
  s2.emit (Event.checkForZeroPTreat cov rho)

/-- Skip of the first round when the sampled prevalence is low
(Model.cpp 485-493). -/
def lowPrevalenceCheck (o : Oracle) (t : Int) (s : LoopState) : LoopState :=
  if s.popln.totMDAs = 0 then
    if s.popln.NoMDALowMF = 1 then
      let s1 := s.emit (Event.getMFPrev MFSite.lowMFCheck t)
      let s2 := { s1 with loc := { s1.loc with
          mfprev := o.getMFPrev MFSite.lowMFCheck t } }
      if s2.loc.mfprev ≤ s2.popln.MFThreshold then
        { s2 with popln := { s2.popln with DoMDA := false } }
      else
        s2
    else
      s
  else
    s

/-- Application of the round and the bookkeeping after it
(Model.cpp 501-536). -/
def applyRound (o : Oracle) (t : Int) (s : LoopState) : LoopState :=
  let s1 := s.emit (Event.getMFPrev MFSite.beforeMDA t)
  let s2 := { s1 with loc := { s1.loc with
      mfprev_aimp_old := o.getMFPrev MFSite.beforeMDA t } }
  let year := Int.tdiv t 12 + 2000
  let s3 :=
    if year = s2.loc.previousMDAyear then
      { s2 with loc := { s2.loc with roundNumber := s2.loc.roundNumber + 1 } }
    else
      { s2 with loc := { s2.loc with roundNumber := 1 } }
  let s4 := { s3 with loc := { s3.loc with previousMDAyear := year } }
  let s5 := s4.emit (Event.ApplyTreatmentUpdated t s4.loc.roundNumber
    s4.popln.DoMDA)
  let s6 := { s5 with loc := { s5.loc with
      time_to_reduce_importation_rate := t + 6 } }
  let s7 := { s6 with popln := { s6.popln with totMDAs := s6.popln.totMDAs + 1 } }
  if s7.popln.totMDAs = s7.popln.firstTASNumMDA then
    let minNumberMonthsBeforeSurvey : Int := 6
    { s7 with popln := { s7.popln with
        preTASSurveyTime :=
          max s7.popln.surveyStartDate (t + minNumberMonthsBeforeSurvey) } }
  else
    s7

/-- The intervention block (Model.cpp 451-537). -/
def MDABlock (cfg : Settings) (sc : Scenario) (o : Oracle) (t : Int)
    (s : LoopState) : LoopState :=
  match sc.treatmentDue t with
  | some mda =>
    applyRound o t (lowPrevalenceCheck o t (treatmentProbabilities cfg mda t s))
  | none => s

/-- Prevalence-driven importation adjustment (Model.cpp 546-556). -/
def importationViaPrevalence (cfg : Settings) (o : Oracle) (t : Int)
    (s : LoopState) : LoopState :=
  if shouldReduceImportationViaPrevalance cfg.reduceImpViaXml t
        s.popln.switchImportationReducingMethodTime = true ∧
      t = s.loc.time_to_reduce_importation_rate then
    let s1 := s.emit (Event.getMFPrev MFSite.afterMDANew t)
    let s2 := { s1 with loc := { s1.loc with
        mfprev_aimp_new := o.getMFPrev MFSite.afterMDANew t } }
    let s3 :=
      if s2.loc.mfprev_aimp_old > s2.loc.mfprev_aimp_new then
        { s2 with popln := { s2.popln with
            aImp := s2.popln.aImp * s2.loc.mfprev_aimp_new /
              s2.loc.mfprev_aimp_old } }
      else
        s2
    let s4 := s3.emit (Event.getMFPrev MFSite.afterMDAOld t)
    { s4 with loc := { s4.loc with
        mfprev_aimp_old := o.getMFPrev MFSite.afterMDAOld t } }
  else
    s

/-- Never-treat and diagnostic-test switches (Model.cpp 558-578). -/
def policySwitches (sc : Scenario) (t : Int) (s : LoopState) : LoopState :=
  let s1 :=
    if t < s.popln.neverTreatChangeTime then
      s.emit Event.neverTreatToOriginal
    else
      s
  let s2 :=
    if t ≥ s1.popln.neverTreatChangeTime then
      if sc.changeNeverTreat = 1 then s1.emit Event.changeNeverTreat else s1
    else
      s1
  let s3 :=
    if t < s2.popln.ICTestChangeTime then
      s2.emit Event.ICTestToOriginal
    else
      s2
  if t ≥ s3.popln.ICTestChangeTime then
    if sc.changeSensSpec = 1 then s3.emit Event.changeICTest else s3
  else
    s3

/-- Saving of the month's observation (Model.cpp 584-586). -/
def saveObservation (sc : Scenario) (t : Int) (s : LoopState) : LoopState :=
  if sc.prevalenceDue t = true ∨ (sc.treatmentDue t).isSome = true then
    s.emit (Event.saveMonth t)
  else
    s

/-- The body of the time-step loop at month `t` (Model.cpp 309-594). -/
def step (cfg : Settings) (sc : Scenario) (o : Oracle) (dt : ℚ) (t : Int)
    (s : LoopState) : LoopState :=
  let s1 := refreshParams cfg t s
  let s2 := annualRecords cfg t s1
  let s3 := roadmapRecord cfg t s2
  let s4 := emptySurveyRecords cfg t s3
  let s5 := scenarioUpdates cfg t s4
  let s6 := evolveStep sc dt t s5
  let s7 := preTASBlock cfg o t s6
  let s8 := TASBlock cfg o t s7
  let s9 := MDABlock cfg sc o t s8
  let s10 := importationViaPrevalence cfg o t s9
  let s11 := policySwitches sc t s10
  saveObservation sc t s11

/-- The update `t += dt` of the `int` loop variable by the `double` time
step: the sum is computed as a `double` and converted back to `int`. -/
def nextMonth (t : Int) (dt : ℚ) : Int :=
  truncToInt ((t : ℚ) + dt)

/-- The loop `for (int t = currentMonth; t < targetMonth; t += dt)`
(Model.cpp 309).  `none` when `fuel` iterations did not reach
`targetMonth`. -/
def timeLoop (cfg : Settings) (sc : Scenario) (o : Oracle) (dt : ℚ)
    (targetMonth : Int) : Nat → Int → LoopState → Option LoopState
  | 0, t, s => if t < targetMonth then none else some s
  | fuel + 1, t, s =>
    if t < targetMonth then
      timeLoop cfg sc o dt targetMonth fuel (nextMonth t dt)
        (step cfg sc o dt t s)
    else
      some s

/-- The state of the driver between calls: `Model::currentMonth`, `Model::dt`,
the population's bookkeeping and the trace of collaborator calls so far. -/
structure ModelState where
  currentMonth : Int
  dt : ℚ
  popln : Population
  trace : List Event
  deriving DecidableEq

/-- The part of `evolveAndSave` before the loop (Model.cpp 226-307): output
initialisation at `y == 0`, the initial values of the locals and
`popln.DoMDA = true`. -/
def enterEvolveAndSave (cfg : Settings) (o : Oracle) (y : Int)
    (m : ModelState) : LoopState :=
  let s0 : LoopState :=
    { popln := m.popln
      loc :=
        { time_to_reduce_importation_rate := -1
          mfprev := 1
          mfprev_aimp_old := o.getMFPrev MFSite.callStart m.currentMonth
          mfprev_aimp_new := 0
          vec_control := 0
          donePreTAS := 0
          doneTAS := 0
          previousMDAyear := -1
          roundNumber := 1 }
      trace := m.trace ++ [Event.getMFPrev MFSite.callStart 0] }
  let s1 :=
    if cfg.outputEndgame = 1 ∧ y = 0 then
      ((s0.emit Event.InitIHMEData).emit Event.InitPreTASData).emit
        Event.InitTASData
    else
      s0
  let s2 :=
    if cfg.outputNTDMC = true ∧ y = 0 then
      s1.emit Event.InitNTDMCData
    else
      s1
  { s2 with popln := { s2.popln with DoMDA := true } }

/-- The part of `evolveAndSave` after the loop (Model.cpp 595-609). -/
def leaveEvolveAndSave (sc : Scenario) (y : Int) (dt : ℚ) (targetMonth : Int)
    (s : LoopState) : ModelState :=
  let s1 := s.emit Event.neverTreatToOriginal
  let currentMonth := targetMonth
  let s2 :=
    if y < sc.numMonthsToSave - 1 then
      (s1.emit (Event.saveCurrentState currentMonth)).emit
        (Event.vectorsSaveCurrentState currentMonth)
    else
      s1
  { currentMonth := currentMonth, dt := dt, popln := s2.popln,
    trace := s2.trace }

/-- `Model::evolveAndSave` (Model.cpp 216-609).  `none` when the time-step
loop did not finish within `fuel` iterations. -/
def evolveAndSave (cfg : Settings) (sc : Scenario) (o : Oracle) (y : Int)
    (fuel : Nat) (m : ModelState) : Option ModelState :=
  let targetMonth := sc.monthToSave y
  match timeLoop cfg sc o m.dt targetMonth fuel m.currentMonth
      (enterEvolveAndSave cfg o y m) with
  | some s => some (leaveEvolveAndSave sc y m.dt targetMonth s)
  | none => none

/-! ## Burn-in (Model.cpp 186-214) -/

/-- The local `steps` of `burnIn`: the `int` product `12 * max(100, maxAge)`
is converted to `double` (exactly), divided by the `double` `dt` in `double`
arithmetic, and the quotient is converted to `int` (Model.cpp 192). -/
def burnInSteps (maxAge : Int) (dt : ℚ) : Int :=
  truncToInt (roundToDouble (((12 * max 100 maxAge : Int) : ℚ) / dt))

/-- The loop `for (int i = 0; i < steps; i++)` of `burnIn`, given the number
of iterations left (Model.cpp 196-204). -/
def burnInLoop (dt : ℚ) : Nat → List Event → List Event
  | 0, tr => tr
  | n + 1, tr => burnInLoop dt n (tr ++ [Event.evolve dt, Event.updateL3Density])

/-- `Model::burnIn` (Model.cpp 186-214). -/
def burnIn (m : ModelState) : ModelState :=
  let steps := burnInSteps m.popln.maxAge m.dt
  let tr := burnInLoop m.dt steps.toNat m.trace
  { m with trace := tr ++ [Event.saveCurrentState 0,
      Event.vectorsSaveCurrentState 0, Event.getPrevalence,
      Event.saveMonth (-1)] }

/-! ## Input files -/

/-- A text file of numbers as the readers of `Model.cpp` see it: for each
line the values that `>>` extracts from it, and whether the last line is
terminated by a newline. -/
structure NumberFile (α : Type) where
  lines : List α
  endsWithNewline : Bool

/-- `Model::readSeedsFromFile` (Model.cpp 751-782).  `file` is `none` when
the file cannot be opened; a line is given by the seed extracted from it. -/
def readSeedsFromFile (seeds : List Nat) (replicates : Nat) (fname : String)
    (file : Option (NumberFile Nat)) : Except Nat (List Nat) :=
  if fname.length > 0 then
    match file with
    | none => Except.error 1
    | some f =>
      let seeds1 := seeds ++ f.lines
      if seeds1.length < replicates then
        Except.error 1
      else
        Except.ok seeds1
  else
    Except.ok seeds

/-- `Model::readCovPropFromFile` (Model.cpp 784-816). -/
def readCovPropFromFile (cov_props : List ℚ) (replicates : Nat)
    (fname : String) (file : Option (NumberFile ℚ)) : Except Nat (List ℚ) :=
  if fname.length > 0 then
    match file with
    | none => Except.error 1
    | some f =>
      let cov_props1 := cov_props ++ f.lines
      if cov_props1.length < replicates then
        Except.error 1
      else
        Except.ok cov_props1
  else
    Except.ok cov_props

/-- The four parameter vectors filled by `ProcessLine`. -/
structure ParamVectors where
  k_vals : List ℚ
  v_to_h_vals : List ℚ
  aImp_vals : List ℚ
  wProp_vals : List ℚ
  deriving DecidableEq

/-- The loop of `ProcessLine` over the values of the line, with the column
counter `j` and the entry counter `k` (Model.cpp 691-719).  A write
`v[k] = value` outside the vector is undefined behaviour in C++ and leaves
the vector unchanged here. -/
def processValues (arraySize : Int) :
    List ℚ → Int → Int → ParamVectors → Int × ParamVectors
  | [], _, k, v => (k, v)
  | value :: rest, j, k, v =>
    if Int.tmod j 4 = 1 then
      if arraySize > 0 then
        processValues arraySize rest (j + 1) k
          { v with v_to_h_vals := v.v_to_h_vals.set k.toNat value }
      else
        processValues arraySize rest (j + 1) k
          { v with v_to_h_vals := v.v_to_h_vals ++ [value] }
    else if Int.tmod j 4 = 2 then
      if arraySize > 0 then
        processValues arraySize rest (j + 1) k
          { v with k_vals := v.k_vals.set k.toNat value }
      else
        processValues arraySize rest (j + 1) k
          { v with k_vals := v.k_vals ++ [value] }
    else if Int.tmod j 4 = 3 then
      if arraySize > 0 then
        processValues arraySize rest (j + 1) k
          { v with aImp_vals := v.aImp_vals.set k.toNat value }
      else
        processValues arraySize rest (j + 1) k
          { v with aImp_vals := v.aImp_vals ++ [value] }
    else if Int.tmod j 4 = 0 then
      if arraySize > 0 then
        processValues arraySize rest (j + 1) (k + 1)
          { v with wProp_vals := v.wProp_vals.set k.toNat value }
      else
        processValues arraySize rest (j + 1) k
          { v with wProp_vals := v.wProp_vals ++ [value] }
    else
      processValues arraySize rest (j + 1) k v

/-- `Model::ProcessLine` (Model.cpp 683-725): the vectors after the line and
whether the diagnostic "number of input parameters has changed" is
printed. -/
def ProcessLine (line : List ℚ) (v : ParamVectors) : ParamVectors × Bool :=
  let arraySize : Int := (v.k_vals.length : Int)
  let r := processValues arraySize line 1 0 v
  (r.2, decide (r.1 ≠ arraySize))

/-- The content of `line` after the loop of `index` calls of `std::getline`
(Model.cpp 741-746).  A `getline` on a stream that is not good leaves
`line` as it is; a `getline` on a good stream at the end of the file
empties it. -/
def lineAfterGetlines (file : Option (NumberFile (List ℚ))) (index : Int) :
    List ℚ :=
  match file with
  | none => []
  | some f =>
    if index ≤ 0 then
      []
    else if index.toNat ≤ f.lines.length then
      f.lines.getD (index.toNat - 1) []
    else if f.endsWithNewline = true then
      []
    else
      f.lines.getLastD []

/-- `Model::getRandomParametersMultiplePerLine` (Model.cpp 727-749). -/
def getRandomParametersMultiplePerLine (index : Int) (v : ParamVectors)
    (file : Option (NumberFile (List ℚ))) : ParamVectors × Bool :=
  ProcessLine (lineAfterGetlines file index) v

/-! ## The replicate orchestrator (Model.cpp 27-172) -/

/-- The arguments of `runScenarios` and what its collaborators answer.
`seedFile`, `covPropFile` and `paramsFile` are the contents of the files
named `RandomSeedFile`, `RandomCovPropFile` and `randParamsfile` (`none`:
cannot be opened).  `clock` is the system clock read for replicate `rep`,
`oracle` the stochastic answers by replicate and scenario index.
`initHosts` and `resetToMonth` are the effects of `Population::initHosts`
and `Population::resetToMonth` on the bookkeeping fields. -/
structure RunInputs where
  scenarios : List Scenario
  replicates : Int
  timestep : ℚ
  outputEndgame : Int
  outputEndgameDate : Int
  outputNTDMC : Bool
  outputNTDMCDate : Int
  reduceImpViaXml : Int
  RandomSeedFile : String
  seedFile : Option (NumberFile Nat)
  RandomCovPropFile : String
  covPropFile : Option (NumberFile ℚ)
  paramsFile : Option (NumberFile (List ℚ))
  debug : Bool
  clock : Int → Nat
  oracle : Int → Nat → Oracle
  initHosts : Population → Population
  resetToMonth : Int → Population → Population

/-- The outcome of a run that called `exit`: the exit code and the
collaborator calls made before it. -/
structure Aborted where
  exitCode : Nat
  trace : List Event
  deriving DecidableEq

/-- The arguments that `runScenarios` passes to `evolveAndSave`
(Model.cpp 150-153). -/
def settingsFor (inp : RunInputs) (v : ParamVectors) (cov_prop : ℚ) :
    Settings :=
  { k_vals := v.k_vals
    v_to_h_vals := v.v_to_h_vals
    outputEndgame := inp.outputEndgame
    outputEndgameDate := inp.outputEndgameDate
    outputNTDMC := inp.outputNTDMC
    outputNTDMCDate := inp.outputNTDMCDate
    reduceImpViaXml := inp.reduceImpViaXml
    cov_prop := cov_prop }

/-- The loop over the months to save of one scenario
(Model.cpp 149-154), given the number of calls left and the index `y`. -/
def saveMonthsLoop (cfg : Settings) (sc : Scenario) (o : Oracle)
    (fuel : Nat) : Nat → Int → ModelState → Option ModelState
  | 0, _, m => some m
  | n + 1, y, m =>
    match evolveAndSave cfg sc o y fuel m with
    | some m1 => saveMonthsLoop cfg sc o fuel n (y + 1) m1
    | none => none

/-- One scenario of one replicate (Model.cpp 129-161). -/
def runScenario (inp : RunInputs) (cfg : Settings) (rep : Int) (sIdx : Nat)
    (sc : Scenario) (fuel : Nat) (m : ModelState) : Option ModelState :=
  let m1 : ModelState :=
    if sc.startMonth ≠ m.currentMonth then
      { m with
        currentMonth := sc.startMonth
        popln := inp.resetToMonth sc.startMonth m.popln
        trace := m.trace ++ [Event.resetToMonth sc.startMonth] }
    else
      m
  match saveMonthsLoop cfg sc (inp.oracle rep sIdx) fuel
      sc.numMonthsToSave.toNat 0 m1 with
  | some m2 =>
    let m3 :=
      if inp.debug = false then
        { m2 with trace := m2.trace ++ [Event.printResults rep] }
      else
        m2
    some (if inp.debug = true then
        { m3 with trace := m3.trace ++ [Event.printMDAHistory] }
      else
        m3)
  | none => none

/-- The loop over the scenarios of one replicate (Model.cpp 127-163). -/
def scenariosLoop (inp : RunInputs) (cfg : Settings) (rep : Int)
    (fuel : Nat) : List Scenario → Nat → ModelState → Option ModelState
  | [], _, m => some m
  | sc :: rest, sIdx, m =>
    match runScenario inp cfg rep sIdx sc fuel m with
    | some m1 => scenariosLoop inp cfg rep fuel rest (sIdx + 1) m1
    | none => none

/-- Read `v[i]` of a vector of seeds for an `int` index; `none` outside the
vector. -/
def seedAt (v : List Nat) (i : Int) : Option Nat :=
  if 0 ≤ i then v[i.toNat]? else none

/-- The seed of replicate `rep` (Model.cpp 71-78). -/
def seedFor (inp : RunInputs) (seeds : List Nat) (rep : Int) : Option Nat :=
  if seeds.length > 0 then seedAt seeds rep else some (inp.clock rep)

/-- The coverage proportion of replicate `rep` (Model.cpp 81-86); `none`
when `cov_props[rep]` is outside the vector. -/
def covPropFor (cov_props : List ℚ) (rep : Int) : Option ℚ :=
  if cov_props.length > 0 then readAt cov_props rep else some 1

/-- The part of one replicate before its scenarios (Model.cpp 69-125). -/
def startReplicate (inp : RunInputs) (seeds : List Nat) (rep : Int)
    (v : ParamVectors) (m : ModelState) : ParamVectors × ModelState :=
  let rseed := seedFor inp seeds rep
  let r := getRandomParametersMultiplePerLine (rep + 1) v inp.paramsFile
  let v1 := r.1
  let tr1 := m.trace ++ [Event.set_seed rseed] ++
    (if r.2 = true then [Event.diagnostic] else [])
  let tr2 := tr1 ++ [Event.clearSavedMonths, Event.outputInitialise,
    Event.initHosts (readAt v1.k_vals 0) (readAt v1.aImp_vals 0),
    Event.vectorsReset (readAt v1.v_to_h_vals 0),
    Event.wormsReset (readAt v1.wProp_vals 0)]
  let m1 : ModelState :=
    { m with currentMonth := 0, popln := inp.initHosts m.popln, trace := tr2 }
  (v1, burnIn m1)

/-- One replicate (Model.cpp 69-167). -/
def runReplicate (inp : RunInputs) (seeds : List Nat) (cov_props : List ℚ)
    (fuel : Nat) (rep : Int) (v : ParamVectors) (m : ModelState) :
    Option (ParamVectors × ModelState) :=
  let cov_prop := (covPropFor cov_props rep).getD 0
  let r := startReplicate inp seeds rep v m
  match scenariosLoop inp (settingsFor inp r.1 cov_prop) rep fuel
      inp.scenarios 0 r.2 with
  | some m1 =>
    some (r.1,
      if inp.debug = false then
        { m1 with trace := m1.trace ++
            [Event.progress (Int.tdiv (rep * 100) inp.replicates)] }
      else
        m1)
  | none => none

/-- The loop `for (int rep = 0; rep < replicates; rep++)`
(Model.cpp 68-168), given the number of replicates left. -/
def replicatesLoop (inp : RunInputs) (seeds : List Nat)
    (cov_props : List ℚ) (fuel : Nat) :
    Nat → Int → ParamVectors → ModelState → Option (ParamVectors × ModelState)
  | 0, _, v, m => some (v, m)
  | n + 1, rep, v, m =>
    match runReplicate inp seeds cov_props fuel rep v m with
    | some r => replicatesLoop inp seeds cov_props fuel n (rep + 1) r.1 r.2
    | none => none

/-- `Model::runScenarios` (Model.cpp 27-172).  `none` when a time-step loop
did not finish within `fuel` iterations, `Except.error` when the process
exits. -/
def runScenarios (inp : RunInputs) (fuel : Nat) (m : ModelState) :
    Option (Except Aborted ModelState) :=
  let m0 : ModelState :=
    { m with dt := inp.timestep,
             trace := m.trace ++ [Event.openFilesandPrintHeadings] }
  match readSeedsFromFile [] (toUnsigned inp.replicates) inp.RandomSeedFile
      inp.seedFile with
  | Except.error code => some (Except.error { exitCode := code, trace := m0.trace })
  | Except.ok seeds =>
    match readCovPropFromFile [] (toUnsigned inp.replicates)
        inp.RandomCovPropFile inp.covPropFile with
    | Except.error code =>
      some (Except.error { exitCode := code, trace := m0.trace })
    | Except.ok cov_props =>
      match replicatesLoop inp seeds cov_props fuel inp.replicates.toNat 0
          { k_vals := [], v_to_h_vals := [], aImp_vals := [], wProp_vals := [] }
          m0 with
      | some r =>
        some (Except.ok { r.2 with trace := r.2.trace ++ [Event.closeFiles] })
      | none => none

/-! ## Concrete inputs for the worked examples

The initial values of the survey months are set by `Population`, outside
`Model.cpp`; the examples start with no survey scheduled (both months at
the far-future value) and no round given yet. -/

/-- A population at the start of a replicate: surveys `interSurveyPeriod`
months apart, the first pre-TAS scheduled by the first round. -/
def samplePopulation (interSurveyPeriod : Int) : Population :=
  { preTASSurveyTime := 99999999
    TASSurveyTime := 99999999
    preTAS_Pass := 0
    TAS_Pass := 0
    DoMDA := true
    totMDAs := 0
    prevCov := -1
    prevRho := -1
    aImp := 1
    interSurveyPeriod := interSurveyPeriod
    firstTASNumMDA := 1
    surveyStartDate := 0
    switchImportationReducingMethodTime := 99999999
    removeCoverageReduction := 0
    removeCoverageReductionTime := 0
    graduallyRemoveCoverageReduction := 0
    NoMDALowMF := 0
    MFThreshold := 0
    neverTreatChangeTime := 99999999
    ICTestChangeTime := 99999999
    maxAge := 80
    updateParams := 0 }

/-- Endgame output on, reporting from the year 2000 (month 0). -/
def sampleSettings : Settings :=
  { k_vals := []
    v_to_h_vals := []
    outputEndgame := 1
    outputEndgameDate := 2000
    outputNTDMC := false
    outputNTDMCDate := 2000
    reduceImpViaXml := 0
    cov_prop := 1 }

/-- The driver at month 0 with time step `dt` and surveys
`interSurveyPeriod` months apart. -/
def sampleModel (dt : ℚ) (interSurveyPeriod : Int) : ModelState :=
  { currentMonth := 0, dt := dt, popln := samplePopulation interSurveyPeriod,
    trace := [] }

/-- A scenario with one round, due at `roundMonth`, and the given months to
save. -/
def sampleScenario (roundMonth : Int) (saveMonths : List Int) : Scenario :=
  { startMonth := 0
    numMonthsToSave := (saveMonths.length : Int)
    monthToSave := fun y => saveMonths.getD y.toNat 0
    prevalenceDue := fun _ => false
    treatmentDue := fun t =>
      if t = roundMonth then
        some { coverage := 13 / 20, compliance := 7 / 20 }
      else
        none
    changeSensSpec := 0
    changeNeverTreat := 0 }

/-- Survey outcomes: the pre-TAS passes exactly at the months of
`preTASPasses`, the TAS fails exactly at the months of `TASFails`. -/
def sampleOracle (preTASPasses TASFails : List Int) : Oracle :=
  { PreTASSurvey := fun t => if t ∈ preTASPasses then 1 else 0
    TASSurvey := fun t => if t ∈ TASFails then 0 else 1
    getMFPrev := fun _ _ => 1 / 10 }

/-- The loop state on entry of `evolveAndSave` for a population with the
given survey months and pass count. -/
def sampleLoopState (preTASDue TASDue passCount : Int) : LoopState :=
  enterEvolveAndSave sampleSettings (sampleOracle [] []) 0
    { currentMonth := 0
      dt := 1
      popln := { samplePopulation 24 with
        preTASSurveyTime := preTASDue
        TASSurveyTime := TASDue
        TAS_Pass := passCount }
      trace := [] }

/-- The surveys run in a trace, in order. -/
def surveysRun (tr : List Event) : List Event :=
  tr.filter (fun e =>
    match e with
    | Event.PreTASSurvey _ => true
    | Event.TASSurvey _ => true
    | _ => false)

/-- The pre-TAS survey records of a trace, in order: a pre-TAS survey run
or an explicit empty pre-TAS record. -/
def preTASRecords (tr : List Event) : List Event :=
  tr.filter (fun e =>
    match e with
    | Event.PreTASSurvey _ => true
    | Event.writeEmptySurvey _ SurveyLabel.preTASSurvey => true
    | _ => false)

/-- The months of the population-count records written with the label
"PreTAS survey", in order. -/
def preTASNumberByAgeMonths (tr : List Event) : List Int :=
  tr.filterMap (fun e =>
    match e with
    | Event.writeNumberByAge t SurveyLabel.preTASSurvey => some t
    | _ => none)

/-- The seed file, the only input of a run that `readSeedsFromFile` looks
at, for the worked example of an undersized file. -/
def sampleRun (replicates : Int) (seedLines : List Nat) : RunInputs :=
  { scenarios := [sampleScenario 0 [12]]
    replicates := replicates
    timestep := 1
    outputEndgame := 1
    outputEndgameDate := 2000
    outputNTDMC := false
    outputNTDMCDate := 2000
    reduceImpViaXml := 0
    RandomSeedFile := "seeds.txt"
    seedFile := some { lines := seedLines, endsWithNewline := true }
    RandomCovPropFile := ""
    covPropFile := none
    paramsFile := some { lines := [[1, 2, 3, 4]], endsWithNewline := true }
    debug := false
    clock := fun _ => 0
    oracle := fun _ _ => sampleOracle [] []
    initHosts := fun p => p
    resetToMonth := fun _ p => p }

end Transfil

namespace Transfil

/-! ## Further inputs for the worked examples -/

/-- A scenario with rounds due at the months of `roundMonths` and the given
months to save. -/
def sampleScenarioRounds (roundMonths saveMonths : List Int) : Scenario :=
  { startMonth := 0
    numMonthsToSave := (saveMonths.length : Int)
    monthToSave := fun y => saveMonths.getD y.toNat 0
    prevalenceDue := fun _ => false
    treatmentDue := fun t =>
      if t ∈ roundMonths then
        some { coverage := 13 / 20, compliance := 7 / 20 }
      else
        none
    changeSensSpec := 0
    changeNeverTreat := 0 }

/-- The driver at month 0 with time step 1 for a population with the
skip-if-prevalence-low policy on (threshold 1/5, above the sampled
prevalence 1/10 of `sampleOracle`) and the first pre-TAS after five
rounds. -/
def lowPrevalenceModel : ModelState :=
  { currentMonth := 0
    dt := 1
    popln := { samplePopulation 24 with
      NoMDALowMF := 1
      MFThreshold := 1 / 5
      firstTASNumMDA := 5 }
    trace := [] }

/-- The rounds applied in a trace, in order. -/
def roundsApplied (tr : List Event) : List Event :=
  tr.filter (fun e =>
    match e with
    | Event.ApplyTreatmentUpdated _ _ _ => true
    | _ => false)

/-- The months at which the prevalence after a round is measured for the
adjustment of the importation amplitude, in order. -/
def comparisonMonths (tr : List Event) : List Int :=
  tr.filterMap (fun e =>
    match e with
    | Event.getMFPrev MFSite.afterMDANew t => some t
    | _ => none)

/-- The parameter values each replicate of a trace starts with, and the
diagnostics of `ProcessLine`, in order. -/
def replicateStarts (tr : List Event) : List Event :=
  tr.filter (fun e =>
    match e with
    | Event.initHosts _ _ => true
    | Event.vectorsReset _ => true
    | Event.wormsReset _ => true
    | Event.diagnostic => true
    | _ => false)

/-- The trace of a run that finished without calling `exit`. -/
def completedTrace (r : Option (Except Aborted ModelState)) :
    Option (List Event) :=
  match r with
  | some (Except.ok m) => some m.trace
  | _ => none

/-- A run without seed and coverage files, with a time step of 600 months
(two burn-in steps), over the given parameter file and scenarios. -/
def sampleParamsRun (replicates : Int) (paramLines : List (List ℚ))
    (endsWithNewline : Bool) (scenarios : List Scenario) : RunInputs :=
  { scenarios := scenarios
    replicates := replicates
    timestep := 600
    outputEndgame := 1
    outputEndgameDate := 2000
    outputNTDMC := false
    outputNTDMCDate := 2000
    reduceImpViaXml := 0
    RandomSeedFile := ""
    seedFile := none
    RandomCovPropFile := ""
    covPropFile := none
    paramsFile := some { lines := paramLines, endsWithNewline := endsWithNewline }
    debug := false
    clock := fun _ => 0
    oracle := fun _ _ => sampleOracle [] []
    initHosts := fun p => p
    resetToMonth := fun _ p => p }

end Transfil

namespace Transfil

/-- The line that holds the values of the given rows of four, in file
order. -/
def lineOfRows : List (ℚ × ℚ × ℚ × ℚ) → List ℚ
  | [] => []
  | (a, b, c, d) :: rest => a :: b :: c :: d :: lineOfRows rest

/-- The values of a line grouped in rows of four; values after the last
full row are dropped. -/
def rowsOfLine : List ℚ → List (ℚ × ℚ × ℚ × ℚ)
  | a :: b :: c :: d :: rest => (a, b, c, d) :: rowsOfLine rest
  | _ => []

end Transfil

namespace Transfil

/-- The loop state on entry of `evolveAndSave` for `lowPrevalenceModel`. -/
def lowPrevalenceLoopState : LoopState :=
  enterEvolveAndSave sampleSettings (sampleOracle [] []) 0 lowPrevalenceModel

/-- A loop state with a comparison pending at month 6 and a pre-round
prevalence of 1/5. -/
def pendingComparisonState : LoopState :=
  { sampleLoopState 99999999 99999999 0 with
    loc := { (sampleLoopState 99999999 99999999 0).loc with
      time_to_reduce_importation_rate := 6
      mfprev_aimp_old := 1 / 5 } }

end Transfil

namespace Transfil

/-! ## Views of a trace and of the loop header -/

/-- The scheduled annual emissions with the survey state erased: the annual
age-stratified records and the roadmap-target record, keeping the month
only. -/
def scheduleView : Event → Option Event
  | Event.writePrevByAge t => some (Event.writePrevByAge t)
  | Event.writeNumberByAge t SurveyLabel.notSurvey =>
    some (Event.writeNumberByAge t SurveyLabel.notSurvey)
  | Event.writeSequelaeByAge t => some (Event.writeSequelaeByAge t)
  | Event.getIncidence t => some (Event.getIncidence t)
  | Event.writeSurveyByAge t _ _ => some (Event.writeSurveyByAge t 0 0)
  | Event.writeRoadmapTarget t _ _ _ =>
    some (Event.writeRoadmapTarget t false 0 0)
  | _ => none

/-- The scheduled annual emissions of a trace, in order. -/
def scheduledRecords (tr : List Event) : List Event :=
  tr.filterMap scheduleView

/-- The months of the time steps of a trace, in order: every step forwards
the bed-net update of its month exactly once (Model.cpp 382). -/
def monthsStepped (tr : List Event) : List Int :=
  tr.filterMap (fun e =>
    match e with
    | Event.updateBedNetCoverage t => some t
    | _ => none)

/-- The `evolve` and larval-density calls of a trace, in order. -/
def biologyEvents (tr : List Event) : List Event :=
  tr.filterMap (fun e =>
    match e with
    | Event.evolve dt => some (Event.evolve dt)
    | Event.updateL3Density => some Event.updateL3Density
    | _ => none)

/-- The months at which the scenario-defined importation update is applied
in a trace, in order. -/
def xmlUpdateMonths (tr : List Event) : List Int :=
  tr.filterMap (fun e =>
    match e with
    | Event.updateImportationRate t => some t
    | _ => none)

/-- The months that the header `for (int t = currentMonth; t < targetMonth;
t += dt)` visits within `fuel` iterations, from month `t` (Model.cpp 309). -/
def loopMonths (dt : ℚ) (targetMonth : Int) : Nat → Int → List Int
  | 0, _ => []
  | fuel + 1, t =>
    if t < targetMonth then
      t :: loopMonths dt targetMonth fuel (nextMonth t dt)
    else
      []

/-- The scheduled annual emissions that a time step at month `t` adds:
one of each annual record when `t` is a reporting year start, and one
roadmap-target record when `t` is a roadmap year start. -/
def scheduledAt (cfg : Settings) (t : Int) : List Event :=
  (if Int.tmod t 12 = 0 ∧ cfg.outputEndgame = 1 ∧
      t ≥ endgameStartMonth cfg then
    [Event.writePrevByAge t,
      Event.writeNumberByAge t SurveyLabel.notSurvey,
      Event.writeSequelaeByAge t, Event.getIncidence t,
      Event.writeSurveyByAge t 0 0]
  else
    []) ++
  (if Int.tmod t 12 = 0 ∧ cfg.outputNTDMC = true ∧
      t ≥ outputNTDMCDateFromYear cfg then
    [Event.writeRoadmapTarget t false 0 0]
  else
    [])

end Transfil

namespace Transfil

/-- The driver at month 0 with a time step of 7 months and a maximum host
age of 100 years. -/
def longLivedModel : ModelState :=
  { sampleModel 7 24 with
    popln := { samplePopulation 24 with maxAge := 100 } }

/-- Settings with the scenario-defined (XML) importation reduction on. -/
def xmlSettings : Settings :=
  { sampleSettings with reduceImpViaXml := 1 }

end Transfil

namespace Transfil

/-- A run of two replicates with a seed file and a coverage-proportion file
of two lines each. -/
def sampleRunWithFiles : RunInputs :=
  { sampleRun 2 [11, 22] with
    RandomCovPropFile := "cov.txt"
    covPropFile := some { lines := [1 / 2, 3 / 4], endsWithNewline := true } }

end Transfil

namespace Transfil

/-- Parameter vectors that hold two entries each, as left by an earlier
replicate. -/
def staleVectors : ParamVectors :=
  { k_vals := [3, 4], v_to_h_vals := [1, 2], aImp_vals := [5, 6],
    wProp_vals := [7, 8] }

end Transfil

namespace Transfil

/-! ## Further views and inputs -/

/-- The driver at month 0 with the time step `-t 1.6`: the `double` nearest
to 1.6, which is `3602879701896397 / 2^51`. -/
def doubleStepModel : ModelState :=
  sampleModel (3602879701896397 / 2251799813685248) 24

end Transfil

namespace Transfil

end Transfil

/-! ## Theorems -/

namespace Transfil

/-! ### Survey state machine: single transitions -/

/-- Claim C1.  When the TAS survey is run at month `T` (`T` is the TAS-due
month) with outcome `o.TASSurvey T` and pass count `n = s.popln.TAS_Pass`
beforehand: on a fail (outcome 0) the pass count becomes 0, both due months
become `T + interSurveyPeriod` and `DoMDA` becomes true; on a pass
(outcome 1) with `n + 1 < 3` the pass count becomes `n + 1` and the TAS-due
month `T + interSurveyPeriod`; on a pass with `n + 1 = 3` the pass count
becomes 3 and the TAS-due month the far-future value 99999999. -/
theorem TASBlock_transition (cfg : Settings) (o : Oracle) (T : Int)
    (s : LoopState) (hdue : T = s.popln.TASSurveyTime) :
    (o.TASSurvey T = 0 →
      (TASBlock cfg o T s).popln.TAS_Pass = 0 ∧
      (TASBlock cfg o T s).popln.preTASSurveyTime =
        T + s.popln.interSurveyPeriod ∧
      (TASBlock cfg o T s).popln.TASSurveyTime =
        T + s.popln.interSurveyPeriod ∧
      (TASBlock cfg o T s).popln.DoMDA = true) ∧
    (o.TASSurvey T = 1 → s.popln.TAS_Pass + 1 < 3 →
      (TASBlock cfg o T s).popln.TAS_Pass = s.popln.TAS_Pass + 1 ∧
      (TASBlock cfg o T s).popln.TASSurveyTime =
        T + s.popln.interSurveyPeriod) ∧
    (o.TASSurvey T = 1 → s.popln.TAS_Pass + 1 = 3 →
      (TASBlock cfg o T s).popln.TAS_Pass = 3 ∧
      (TASBlock cfg o T s).popln.TASSurveyTime = 99999999) := by
  refine ⟨?_, ?_, ?_⟩
  · intro h0
    simp [TASBlock, ← hdue, h0, LoopState.emit]
    split_ifs <;> simp_all
  · intro h1 hlt
    have hne : s.popln.TAS_Pass + 1 ≠ 3 := by omega
    simp [TASBlock, ← hdue, h1, LoopState.emit, neededTASPass, hne, hlt]
    split_ifs <;> simp_all
  · intro h1 heq
    simp [TASBlock, ← hdue, h1, LoopState.emit, neededTASPass, heq]
    split_ifs <;> simp_all

/-- Claim C1, worked example at month 30 with surveys 24 months apart: a
fail from pass count 2, a pass from pass count 0 and a pass from pass
count 2. -/
theorem TASBlock_transition_witness :
    ((TASBlock sampleSettings (sampleOracle [] [30]) 30
        (sampleLoopState 6 30 2)).popln.TAS_Pass = 0 ∧
      (TASBlock sampleSettings (sampleOracle [] [30]) 30
        (sampleLoopState 6 30 2)).popln.preTASSurveyTime = 54 ∧
      (TASBlock sampleSettings (sampleOracle [] [30]) 30
        (sampleLoopState 6 30 2)).popln.TASSurveyTime = 54 ∧
      (TASBlock sampleSettings (sampleOracle [] [30]) 30
        (sampleLoopState 6 30 2)).popln.DoMDA = true) ∧
    ((TASBlock sampleSettings (sampleOracle [] []) 30
        (sampleLoopState 6 30 0)).popln.TAS_Pass = 1 ∧
      (TASBlock sampleSettings (sampleOracle [] []) 30
        (sampleLoopState 6 30 0)).popln.TASSurveyTime = 54) ∧
    ((TASBlock sampleSettings (sampleOracle [] []) 30
        (sampleLoopState 6 30 2)).popln.TAS_Pass = 3 ∧
      (TASBlock sampleSettings (sampleOracle [] []) 30
        (sampleLoopState 6 30 2)).popln.TASSurveyTime = 99999999) :=
  ⟨(TASBlock_transition sampleSettings (sampleOracle [] [30]) 30
      (sampleLoopState 6 30 2) rfl).1 rfl,
    (TASBlock_transition sampleSettings (sampleOracle [] []) 30
      (sampleLoopState 6 30 0) rfl).2.1 rfl (by decide),
    (TASBlock_transition sampleSettings (sampleOracle [] []) 30
      (sampleLoopState 6 30 2) rfl).2.2 rfl (by decide)⟩

/-- Claim C2.  When the pre-TAS survey is due at month `T` (`T` is the
pre-TAS-due month): if it passes (outcome 1) the transition sets the
TAS-due month to `T` and `DoMDA` to false; if it fails it sets the
pre-TAS-due month to `T + interSurveyPeriod` and `DoMDA` to true; in both
cases the TAS pass count is unchanged. -/
theorem preTASBlock_transition (cfg : Settings) (o : Oracle) (T : Int)
    (s : LoopState) (hdue : T = s.popln.preTASSurveyTime) :
    (o.PreTASSurvey T = 1 →
      (preTASBlock cfg o T s).popln.TASSurveyTime = T ∧
      (preTASBlock cfg o T s).popln.DoMDA = false ∧
      (preTASBlock cfg o T s).popln.TAS_Pass = s.popln.TAS_Pass) ∧
    (o.PreTASSurvey T ≠ 1 →
      (preTASBlock cfg o T s).popln.preTASSurveyTime =
        T + s.popln.interSurveyPeriod ∧
      (preTASBlock cfg o T s).popln.DoMDA = true ∧
      (preTASBlock cfg o T s).popln.TAS_Pass = s.popln.TAS_Pass) := by
  refine ⟨?_, ?_⟩
  · intro h1
    simp [preTASBlock, ← hdue, h1, LoopState.emit]
    split_ifs <;> simp_all
  · intro h1
    simp [preTASBlock, ← hdue, h1, LoopState.emit]
    split_ifs <;> simp_all

/-- Claim C2, worked example at month 6 with a fresh pass counter: a pass,
then a fail with surveys 24 months apart. -/
theorem preTASBlock_transition_witness :
    ((preTASBlock sampleSettings (sampleOracle [6] []) 6
        (sampleLoopState 6 99999999 0)).popln.TASSurveyTime = 6 ∧
      (preTASBlock sampleSettings (sampleOracle [6] []) 6
        (sampleLoopState 6 99999999 0)).popln.DoMDA = false ∧
      (preTASBlock sampleSettings (sampleOracle [6] []) 6
        (sampleLoopState 6 99999999 0)).popln.TAS_Pass = 0) ∧
    ((preTASBlock sampleSettings (sampleOracle [] []) 6
        (sampleLoopState 6 99999999 0)).popln.preTASSurveyTime = 30 ∧
      (preTASBlock sampleSettings (sampleOracle [] []) 6
        (sampleLoopState 6 99999999 0)).popln.DoMDA = true ∧
      (preTASBlock sampleSettings (sampleOracle [] []) 6
        (sampleLoopState 6 99999999 0)).popln.TAS_Pass = 0) :=
  ⟨(preTASBlock_transition sampleSettings (sampleOracle [6] []) 6
      (sampleLoopState 6 99999999 0) rfl).1 rfl,
    (preTASBlock_transition sampleSettings (sampleOracle [] []) 6
      (sampleLoopState 6 99999999 0) rfl).2 (by decide)⟩

/-! ### Survey state machine: runs -/

set_option maxRecDepth 1000000 in
/-- Claim C3, the code at a failing run (time step 1, surveys 12 months
apart, one round at month 0 that schedules the pre-TAS at month 6).  The
pre-TAS passes at 6 and the TAS fails at 6, so at the save month 18 the
pass count is 0 and both surveys are due at 18.  The pre-TAS then fails and
the TAS passes at 18, 30 and 42: at the save month 43 the pass count is 3
and the TAS-due month is 99999999, but the pre-TAS-due month is 54.  At
month 54 a pre-TAS survey is run, it passes, and a TAS survey is run
again. -/
theorem terminal_success_then_survey :
    (saveMonthsLoop sampleSettings (sampleScenario 0 [18, 43, 60])
        (sampleOracle [6, 54] [6]) 100 1 0 (sampleModel 1 12)).map
      (fun m => (m.popln.TAS_Pass, m.popln.preTASSurveyTime,
        m.popln.TASSurveyTime, surveysRun m.trace)) =
      some (0, 18, 18, [Event.PreTASSurvey 6, Event.TASSurvey 6]) ∧
    (saveMonthsLoop sampleSettings (sampleScenario 0 [18, 43, 60])
        (sampleOracle [6, 54] [6]) 100 2 0 (sampleModel 1 12)).map
      (fun m => (m.popln.TAS_Pass, m.popln.preTASSurveyTime,
        m.popln.TASSurveyTime, surveysRun m.trace)) =
      some (3, 54, 99999999,
        [Event.PreTASSurvey 6, Event.TASSurvey 6,
          Event.PreTASSurvey 18, Event.TASSurvey 18,
          Event.PreTASSurvey 30, Event.TASSurvey 30,
          Event.PreTASSurvey 42, Event.TASSurvey 42]) ∧
    (saveMonthsLoop sampleSettings (sampleScenario 0 [18, 43, 60])
        (sampleOracle [6, 54] [6]) 100 3 0 (sampleModel 1 12)).map
      (fun m => (m.popln.TAS_Pass, m.popln.preTASSurveyTime,
        m.popln.TASSurveyTime, surveysRun m.trace)) =
      some (4, 54, 54,
        [Event.PreTASSurvey 6, Event.TASSurvey 6,
          Event.PreTASSurvey 18, Event.TASSurvey 18,
          Event.PreTASSurvey 30, Event.TASSurvey 30,
          Event.PreTASSurvey 42, Event.TASSurvey 42,
          Event.PreTASSurvey 54, Event.TASSurvey 54]) := by
  decide!

/-! ### The time-step loop -/

/-- Truncation of a non-negative value is its floor. -/
theorem truncToInt_of_nonneg {x : ℚ} (h : 0 ≤ x) : truncToInt x = ⌊x⌋ := by
  simp [truncToInt, h]

/-- With a time step of at least one month the loop variable advances by at
least one. -/
theorem le_nextMonth (t : Int) {dt : ℚ} (h : 1 ≤ dt) :
    t + 1 ≤ nextMonth t dt := by
  unfold nextMonth truncToInt
  have hx : ((t + 1 : Int) : ℚ) ≤ (t : ℚ) + dt := by
    push_cast
    linarith
  split_ifs
  · exact Int.le_floor.mpr hx
  · exact_mod_cast hx.trans (Int.le_ceil _)

/-- With a time step of at least one month the loop finishes within
`targetMonth - t` iterations. -/
theorem timeLoop_isSome (cfg : Settings) (sc : Scenario) (o : Oracle)
    {dt : ℚ} (h : 1 ≤ dt) (target : Int) :
    ∀ (fuel : Nat) (t : Int) (s : LoopState), target - t ≤ fuel →
      (timeLoop cfg sc o dt target fuel t s).isSome = true := by
  intro fuel
  induction fuel with
  | zero =>
    intro t s hle
    have : ¬ t < target := by omega
    simp [timeLoop, this]
  | succ n ih =>
    intro t s hle
    unfold timeLoop
    split_ifs with hlt
    · apply ih
      have := le_nextMonth t h
      omega
    · rfl

/-- Claim C4.  Whenever `evolveAndSave(y, ...)` returns, `currentMonth` is
exactly the target month `sc.getMonthToSave(y)`, for every starting month
and every time step; it does return when the time step is at least one
month, and it returns without running a step when the target is not after
the current month. -/
theorem evolveAndSave_currentMonth (cfg : Settings) (sc : Scenario)
    (o : Oracle) (y : Int) (m : ModelState) :
    (∀ (fuel : Nat) (m1 : ModelState),
      evolveAndSave cfg sc o y fuel m = some m1 →
        m1.currentMonth = sc.monthToSave y) ∧
    (1 ≤ m.dt → ∃ (fuel : Nat) (m1 : ModelState),
      evolveAndSave cfg sc o y fuel m = some m1 ∧
        m1.currentMonth = sc.monthToSave y) ∧
    (sc.monthToSave y ≤ m.currentMonth → ∃ m1 : ModelState,
      evolveAndSave cfg sc o y 0 m = some m1 ∧
        m1.currentMonth = sc.monthToSave y) := by
  have key : ∀ (fuel : Nat) (m1 : ModelState),
      evolveAndSave cfg sc o y fuel m = some m1 →
        m1.currentMonth = sc.monthToSave y := by
    intro fuel m1 h
    unfold evolveAndSave at h
    simp only at h
    split at h
    · injection h with h
      rw [← h]
      rfl
    · exact absurd h (by simp)
  refine ⟨key, ?_, ?_⟩
  · intro hdt
    have hs := timeLoop_isSome cfg sc o hdt (sc.monthToSave y)
      (sc.monthToSave y - m.currentMonth).toNat m.currentMonth
      (enterEvolveAndSave cfg o y m) (by omega)
    obtain ⟨s, hs⟩ := Option.isSome_iff_exists.mp hs
    refine ⟨(sc.monthToSave y - m.currentMonth).toNat,
      leaveEvolveAndSave sc y m.dt (sc.monthToSave y) s, ?_, rfl⟩
    simp [evolveAndSave, hs]
  · intro hge
    have hnot : ¬ m.currentMonth < sc.monthToSave y := by omega
    refine ⟨leaveEvolveAndSave sc y m.dt (sc.monthToSave y)
      (enterEvolveAndSave cfg o y m), ?_, rfl⟩
    simp [evolveAndSave, timeLoop, hnot]

/-- Claim C4, worked example: from month 0 to the target month 7 with a
time step of 2.5 months, which does not divide 7. -/
theorem evolveAndSave_currentMonth_witness :
    (1 : ℚ) ≤ (sampleModel (5 / 2) 24).dt ∧
    ∃ (fuel : Nat) (m1 : ModelState),
      evolveAndSave sampleSettings (sampleScenario 0 [7]) (sampleOracle [] [])
          0 fuel (sampleModel (5 / 2) 24) = some m1 ∧
        m1.currentMonth = 7 :=
  ⟨by decide!,
    (evolveAndSave_currentMonth sampleSettings (sampleScenario 0 [7])
      (sampleOracle [] []) 0 (sampleModel (5 / 2) 24)).2.1 (by decide!)⟩

end Transfil

namespace Transfil

/-! ### Survey records per year -/

set_option maxRecDepth 1000000 in
/-- Claim C5, the code at failing runs (time step 1, endgame output from
month 0, surveys 24 months apart, the pre-TAS failing).  A round at month 5
schedules the pre-TAS at the year-end month 11.  In one call over months
0 to 23 the year 2000 gets both an explicit empty pre-TAS record and the
pre-TAS survey of month 11 (two population-count records labelled
"PreTAS survey" at month 11), and the year 2001 gets neither.  With a save
month at 12 the same run writes three pre-TAS records, while a run over the
same months whose round is at month 4 (pre-TAS at month 10) writes two. -/
theorem survey_records_not_one_per_year :
    (saveMonthsLoop sampleSettings (sampleScenario 5 [24])
        (sampleOracle [] []) 100 1 0 (sampleModel 1 24)).map
      (fun m => (preTASRecords m.trace, preTASNumberByAgeMonths m.trace)) =
      some ([Event.writeEmptySurvey 2000 SurveyLabel.preTASSurvey,
        Event.PreTASSurvey 11], [11, 11]) ∧
    (saveMonthsLoop sampleSettings (sampleScenario 5 [12, 24])
        (sampleOracle [] []) 100 2 0 (sampleModel 1 24)).map
      (fun m => (preTASRecords m.trace, preTASNumberByAgeMonths m.trace)) =
      some ([Event.writeEmptySurvey 2000 SurveyLabel.preTASSurvey,
        Event.PreTASSurvey 11,
        Event.writeEmptySurvey 2001 SurveyLabel.preTASSurvey],
        [11, 11, 23]) ∧
    (saveMonthsLoop sampleSettings (sampleScenario 4 [12, 24])
        (sampleOracle [] []) 100 2 0 (sampleModel 1 24)).map
      (fun m => (preTASRecords m.trace, preTASNumberByAgeMonths m.trace)) =
      some ([Event.PreTASSurvey 10,
        Event.writeEmptySurvey 2001 SurveyLabel.preTASSurvey], [10, 23]) := by
  decide!

/-! ### Coverage multiplier -/

/-- Claim C6.  With gradual removal enabled (flag 1), for every coverage
proportion `c`, removal time `T > 0` and instant-removal flag `r`, the
multiplier is `c + (1 - c) * t / T` for `0 ≤ t < T`, exactly `c` at `t = 0`,
and 1 for `t ≥ T`. -/
theorem multiplierForCoverage_gradual (c : ℚ) (T r t : Int) (hT : 0 < T) :
    (0 ≤ t → t < T →
      multiplierForCoverage t c r T 1 = c + (1 - c) * (t : ℚ) / (T : ℚ)) ∧
    multiplierForCoverage 0 c r T 1 = c ∧
    (T ≤ t → multiplierForCoverage t c r T 1 = 1) := by
  refine ⟨?_, ?_, ?_⟩
  · intro _ hlt
    simp [multiplierForCoverage, hlt]
    ring
  · simp [multiplierForCoverage, hT]
  · intro hge
    simp [multiplierForCoverage, not_lt.mpr hge]

/-- Claim C6, the example of the specification: proportion 0.5 and removal
time 10 give 0.5 at `t = 0` and 1 at `t = 10`. -/
theorem multiplierForCoverage_gradual_witness :
    (0 : Int) < 10 ∧
    multiplierForCoverage 0 (1 / 2) 0 10 1 = 1 / 2 ∧
    multiplierForCoverage 10 (1 / 2) 0 10 1 = 1 :=
  ⟨by decide, (multiplierForCoverage_gradual (1 / 2) 10 0 0 (by decide)).2.1,
    (multiplierForCoverage_gradual (1 / 2) 10 0 10 (by decide)).2.2
      (le_refl _)⟩

/-- Claim C7.  With gradual removal not enabled (flag `g ≠ 1`): if instant
removal is enabled (flag 1) the multiplier is `c` for `t < T` and 1 for
`t ≥ T`; if instant removal is not enabled either (flag `r ≠ 1`) it is `c`
for every `t`. -/
theorem multiplierForCoverage_instant (c : ℚ) (T t g : Int) (hg : g ≠ 1) :
    (t < T → multiplierForCoverage t c 1 T g = c) ∧
    (T ≤ t → multiplierForCoverage t c 1 T g = 1) ∧
    (∀ r : Int, r ≠ 1 → multiplierForCoverage t c r T g = c) := by
  refine ⟨?_, ?_, ?_⟩
  · intro hlt
    simp [multiplierForCoverage, hg, hlt]
  · intro hge
    simp [multiplierForCoverage, hg, not_lt.mpr hge]
  · intro r hr
    simp [multiplierForCoverage, hg, hr]

/-- Claim C7, the example of the specification: proportion 0.5 and removal
time 10 give 0.5 at `t = 5` and 1 at `t = 11` with instant removal, and 0.5
at `t = 11` with neither flag set. -/
theorem multiplierForCoverage_instant_witness :
    (0 : Int) ≠ 1 ∧
    multiplierForCoverage 5 (1 / 2) 1 10 0 = 1 / 2 ∧
    multiplierForCoverage 11 (1 / 2) 1 10 0 = 1 ∧
    multiplierForCoverage 11 (1 / 2) 0 10 0 = 1 / 2 :=
  ⟨by decide,
    (multiplierForCoverage_instant (1 / 2) 10 5 0 (by decide)).1 (by decide),
    (multiplierForCoverage_instant (1 / 2) 10 11 0 (by decide)).2.1
      (by decide),
    (multiplierForCoverage_instant (1 / 2) 10 11 0 (by decide)).2.2 0
      (by decide)⟩

/-! ### Policy selector -/

/-- Claim C8 as stated fails: with the reduce-via-XML flag on, at month 0
and a switch time of 10 the current time has not reached the switch time,
yet the selector returns false. -/
theorem shouldReduce_not_before_switch :
    ¬ (shouldReduceImportationViaPrevalance 1 0 10 = true ↔
        ((1 : Int) = 0 ∨ (0 : Int) < 10)) := by
  decide

/-- Claim C8, amended.  The selector returns true exactly when the
reduce-via-XML flag is off or the current time has reached the
method-switch time (`t ≥ switchTime`), and false otherwise. -/
theorem shouldReduce_iff (reduceImpViaXml t switchTime : Int) :
    shouldReduceImportationViaPrevalance reduceImpViaXml t switchTime = true ↔
      (reduceImpViaXml = 0 ∨ switchTime ≤ t) := by
  unfold shouldReduceImportationViaPrevalance
  split_ifs with h
  · simpa using h
  · simpa using h

/-! ### Burn-in -/

/-- The burn-in loop appends one `evolve` and one larval-density update per
iteration. -/
theorem burnInLoop_eq (dt : ℚ) (n : Nat) :
    ∀ tr : List Event, burnInLoop dt n tr =
      tr ++ (List.replicate n
        [Event.evolve dt, Event.updateL3Density]).flatten := by
  induction n with
  | zero => intro tr; simp [burnInLoop]
  | succ k ih =>
    intro tr
    simp [burnInLoop, ih, List.replicate_succ]

/-! #### Rounding to the nearest `double` -/

/-- With enough fuel `log2Floor` is the position of the leading binary
digit. -/
theorem log2Floor_spec : ∀ (fuel n : Nat), 1 ≤ n → n ≤ fuel →
    2 ^ log2Floor fuel n ≤ n ∧ n < 2 ^ (log2Floor fuel n + 1) := by
  intro fuel
  induction fuel with
  | zero => intro n h1 h2; omega
  | succ k ih =>
    intro n h1 h2
    unfold log2Floor
    by_cases h : 2 ≤ n
    · rw [if_pos h]
      obtain ⟨a, b⟩ := ih (n / 2) (by omega) (by omega)
      constructor
      · rw [pow_succ]
        omega
      · rw [pow_succ]
        omega
    · rw [if_neg h]
      have : n = 1 := by omega
      subst this
      simp

/-- The binary exponent brackets its argument between two powers of 2. -/
theorem binaryExponent_spec {x : ℚ} (hx : 0 < x) :
    (2 : ℚ) ^ binaryExponent x ≤ x ∧ x < (2 : ℚ) ^ (binaryExponent x + 1) := by
  unfold binaryExponent
  by_cases h1 : 1 ≤ x
  · rw [if_pos h1]
    have hn : 1 ≤ ⌊x⌋₊ := Nat.le_floor (by simpa using h1)
    obtain ⟨a, b⟩ := log2Floor_spec ⌊x⌋₊ ⌊x⌋₊ hn le_rfl
    constructor
    · rw [zpow_natCast]
      have : ((2 ^ log2Floor ⌊x⌋₊ ⌊x⌋₊ : Nat) : ℚ) ≤ (⌊x⌋₊ : ℚ) := by
        exact_mod_cast a
      push_cast at this
      exact le_trans this (Nat.floor_le hx.le)
    · have h2 : x < (⌊x⌋₊ : ℚ) + 1 := Nat.lt_floor_add_one x
      have h3 : ((⌊x⌋₊ + 1 : Nat) : ℚ) ≤ ((2 ^ (log2Floor ⌊x⌋₊ ⌊x⌋₊ + 1) : Nat) : ℚ) := by
        exact_mod_cast b
      push_cast at h3
      have h4 : (2 : ℚ) ^ ((log2Floor ⌊x⌋₊ ⌊x⌋₊ : Int) + 1) =
          (2 : ℚ) ^ (log2Floor ⌊x⌋₊ ⌊x⌋₊ + 1) := by
        rw [← zpow_natCast]
        push_cast
        rfl
      rw [h4]
      linarith
  · rw [if_neg h1, if_pos hx]
    have hlt : x < 1 := not_le.mp h1
    have hinv : 1 < x⁻¹ := one_lt_inv₀ hx |>.mpr hlt
    have hm : 2 ≤ ⌈x⁻¹⌉₊ := by
      have : (1 : ℚ) < ((⌈x⁻¹⌉₊ : Nat) : ℚ) := lt_of_lt_of_le hinv (Nat.le_ceil _)
      have : 1 < ⌈x⁻¹⌉₊ := by exact_mod_cast this
      omega
    obtain ⟨a, b⟩ := log2Floor_spec (⌈x⁻¹⌉₊ - 1) (⌈x⁻¹⌉₊ - 1) (by omega) le_rfl
    generalize log2Floor (⌈x⁻¹⌉₊ - 1) (⌈x⁻¹⌉₊ - 1) = k at a b
    have hpk : (0 : ℚ) < (2 : ℚ) ^ k := by positivity
    constructor
    · -- `2^(-(k+1)) ≤ x`
      have h5 : ⌈x⁻¹⌉₊ ≤ 2 ^ (k + 1) := by omega
      have h6 : x⁻¹ ≤ (2 : ℚ) ^ (k + 1) := by
        have : ((⌈x⁻¹⌉₊ : Nat) : ℚ) ≤ ((2 ^ (k + 1) : Nat) : ℚ) := by exact_mod_cast h5
        push_cast at this
        exact le_trans (Nat.le_ceil _) this
      have h7 : ((2 : ℚ) ^ (k + 1))⁻¹ ≤ x := by
        rw [inv_le_comm₀ (by positivity) hx]
        exact h6
      have h8 : (2 : ℚ) ^ (-((k + 1 : Nat) : Int)) = ((2 : ℚ) ^ (k + 1))⁻¹ := by
        rw [zpow_neg, zpow_natCast]
      rw [h8]
      exact h7
    · -- `x < 2^(-k)`
      have h5 : 2 ^ k < ⌈x⁻¹⌉₊ := by omega
      have h6 : (2 : ℚ) ^ k < x⁻¹ := by
        have : ((2 ^ k : Nat) : ℚ) < x⁻¹ := Nat.lt_ceil.mp h5
        push_cast at this
        exact this
      have h7 : x < ((2 : ℚ) ^ k)⁻¹ := by
        rw [lt_inv_comm₀ hx hpk]
        exact h6
      have h8 : (2 : ℚ) ^ (-((k + 1 : Nat) : Int) + 1) = ((2 : ℚ) ^ k)⁻¹ := by
        have : -((k + 1 : Nat) : Int) + 1 = -(k : Int) := by push_cast; ring
        rw [this, zpow_neg, zpow_natCast]
      rw [h8]
      exact h7

/-- Rounding to the nearest integer does not cross an integer below. -/
theorem le_roundHalfEven {n : Int} {y : ℚ} (h : (n : ℚ) ≤ y) :
    n ≤ roundHalfEven y := by
  have hf : n ≤ ⌊y⌋ := Int.le_floor.mpr h
  unfold roundHalfEven
  split_ifs <;> omega

/-- Rounding to the nearest integer does not cross an integer above. -/
theorem roundHalfEven_le {n : Int} {y : ℚ} (h : y ≤ (n : ℚ)) :
    roundHalfEven y ≤ n := by
  rcases eq_or_lt_of_le h with he | hlt
  · have hf : ⌊y⌋ = n := by rw [he]; exact Int.floor_intCast n
    have h0 : y - (⌊y⌋ : ℚ) < 1 / 2 := by rw [hf, he]; norm_num
    unfold roundHalfEven
    rw [if_pos h0, hf]
  · have hf : ⌊y⌋ < n := Int.floor_lt.mpr hlt
    unfold roundHalfEven
    split_ifs <;> omega

/-- Rounding to the nearest integer adds at most one half. -/
theorem roundHalfEven_sub_le (y : ℚ) :
    (roundHalfEven y : ℚ) ≤ y + 1 / 2 := by
  have h1 := Int.floor_le y
  unfold roundHalfEven
  split_ifs with a b c
  · linarith
  · push_cast; linarith
  · linarith
  · push_cast
    have : y - (⌊y⌋ : ℚ) = 1 / 2 := le_antisymm (not_lt.mp b) (not_lt.mp a)
    linarith

/-- Below `2^53` the unit in the last place of a `double` is at most 1. -/
theorem ulpExponent_nonpos {x : ℚ} (h0 : 0 ≤ x) (h1 : x < 2 ^ 53) :
    ulpExponent x ≤ 0 := by
  unfold ulpExponent
  rcases eq_or_lt_of_le h0 with he | hpos
  · rw [← he]
    decide
  · have h2 : (2 : ℚ) ^ binaryExponent x ≤ x := (binaryExponent_spec hpos).1
    have h3 : (2 : ℚ) ^ binaryExponent x < (2 : ℚ) ^ (53 : Int) := by
      have : ((2 : ℚ) ^ (53 : Int)) = 2 ^ 53 := by norm_num
      rw [this]
      exact lt_of_le_of_lt h2 h1
    have h4 : binaryExponent x < 53 := (zpow_lt_zpow_iff_right₀ (by norm_num)).mp h3
    omega

/-- Below `2^53` every integer is a `double`, so rounding to the nearest
`double` does not cross an integer. -/
theorem roundToDouble_le_int {x : ℚ} (h0 : 0 ≤ x) (h1 : x < 2 ^ 53) (n : Int) :
    ((n : ℚ) ≤ x → (n : ℚ) ≤ roundToDouble x) ∧
    (x ≤ (n : ℚ) → roundToDouble x ≤ (n : ℚ)) := by
  have hs := ulpExponent_nonpos h0 h1
  unfold roundToDouble
  rw [abs_of_nonneg h0]
  generalize ulpExponent x = s at hs
  obtain ⟨k, rfl⟩ : ∃ k : Nat, s = -(k : Int) := ⟨(-s).toNat, by omega⟩
  have hp : (0 : ℚ) < (2 : ℚ) ^ k := by positivity
  have hz : (2 : ℚ) ^ (-(k : Int)) = ((2 : ℚ) ^ k)⁻¹ := by
    rw [zpow_neg, zpow_natCast]
  rw [hz, div_inv_eq_mul]
  have hc : ((n * 2 ^ k : Int) : ℚ) = (n : ℚ) * (2 : ℚ) ^ k := by push_cast; ring
  constructor
  · intro h
    have h2 : ((n * 2 ^ k : Int) : ℚ) ≤ x * (2 : ℚ) ^ k := by
      rw [hc]
      exact mul_le_mul_of_nonneg_right h hp.le
    have h3 : ((n * 2 ^ k : Int) : ℚ) ≤ (roundHalfEven (x * (2 : ℚ) ^ k) : ℚ) := by
      exact_mod_cast le_roundHalfEven h2
    rw [hc] at h3
    rw [le_mul_inv_iff₀ hp]
    exact h3
  · intro h
    have h2 : x * (2 : ℚ) ^ k ≤ ((n * 2 ^ k : Int) : ℚ) := by
      rw [hc]
      exact mul_le_mul_of_nonneg_right h hp.le
    have h3 : (roundHalfEven (x * (2 : ℚ) ^ k) : ℚ) ≤ ((n * 2 ^ k : Int) : ℚ) := by
      exact_mod_cast roundHalfEven_le h2
    rw [hc] at h3
    rw [mul_inv_le_iff₀ hp]
    exact h3

/-- The rounding error of `roundToDouble` upwards is at most half a unit in
the last place: a relative `2^-53`, or `2^-1075` on subnormal results. -/
theorem roundToDouble_le_add {x : ℚ} (h0 : 0 < x) :
    roundToDouble x ≤ x + x / 2 ^ 53 ∨
    (x < 1 / 2 ∧ roundToDouble x ≤ x + 1 / 4) := by
  have hp : (0 : ℚ) < (2 : ℚ) ^ ulpExponent x := by positivity
  have hr : roundToDouble x ≤ x + (2 : ℚ) ^ ulpExponent x / 2 := by
    unfold roundToDouble
    rw [abs_of_nonneg h0.le]
    have h1 := roundHalfEven_sub_le (x / (2 : ℚ) ^ ulpExponent x)
    have h2 := mul_le_mul_of_nonneg_right h1 hp.le
    have h3 : (x / (2 : ℚ) ^ ulpExponent x + 1 / 2) * (2 : ℚ) ^ ulpExponent x =
        x + (2 : ℚ) ^ ulpExponent x / 2 := by
      field_simp
      ring
    rw [h3] at h2
    exact h2
  obtain ⟨hlog, hlog2⟩ := binaryExponent_spec h0
  by_cases hc : -1074 ≤ binaryExponent x - 52
  · left
    have hs : ulpExponent x = binaryExponent x - 52 := by
      unfold ulpExponent
      exact max_eq_left hc
    rw [hs] at hr
    have h4 : (2 : ℚ) ^ (binaryExponent x - 52) = (2 : ℚ) ^ binaryExponent x / 2 ^ 52 := by
      rw [zpow_sub₀ (by norm_num)]
      norm_num
    rw [h4] at hr
    have h5 : (2 : ℚ) ^ binaryExponent x / 2 ^ 52 / 2 ≤ x / 2 ^ 53 := by
      have : (2 : ℚ) ^ binaryExponent x / 2 ^ 52 / 2 = (2 : ℚ) ^ binaryExponent x / 2 ^ 53 := by
        ring
      rw [this]
      exact div_le_div_of_nonneg_right hlog (by positivity)
    linarith
  · right
    have hs : ulpExponent x = -1074 := by
      unfold ulpExponent
      exact max_eq_right (by omega)
    rw [hs] at hr
    have h6 : (2 : ℚ) ^ (binaryExponent x + 1) ≤ (2 : ℚ) ^ (-1 : Int) :=
      zpow_le_zpow_right₀ (by norm_num) (by omega)
    have h7 : (2 : ℚ) ^ (-1074 : Int) ≤ (2 : ℚ) ^ (-1 : Int) :=
      zpow_le_zpow_right₀ (by norm_num) (by omega)
    have h8 : (2 : ℚ) ^ (-1 : Int) = 1 / 2 := by norm_num
    rw [h8] at h6 h7
    constructor
    · linarith
    · linarith

/-- The number of burn-in steps against the exact quotient
`q = 12 * max(100, maxAge) / dt`, for `dt > 0` and `q` in the range of
`int`. -/
theorem burnInSteps_bounds (maxAge : Int) (dt : ℚ) (hdt : 0 < dt)
    (hrange : ((12 * max 100 maxAge : Int) : ℚ) / dt < 2147483648) :
    ⌊((12 * max 100 maxAge : Int) : ℚ) / dt⌋ ≤ burnInSteps maxAge dt ∧
    burnInSteps maxAge dt ≤ ⌈((12 * max 100 maxAge : Int) : ℚ) / dt⌉ ∧
    (((12 * max 100 maxAge : Int) : ℚ) / dt * (1 + 1 / 2 ^ 53) <
        (⌊((12 * max 100 maxAge : Int) : ℚ) / dt⌋ : ℚ) + 1 →
      burnInSteps maxAge dt = ⌊((12 * max 100 maxAge : Int) : ℚ) / dt⌋) := by
  have hN : (0 : Int) < 12 * max 100 maxAge := by
    have := le_max_left (100 : Int) maxAge
    omega
  have hNq : (0 : ℚ) < ((12 * max 100 maxAge : Int) : ℚ) := by exact_mod_cast hN
  have hq : (0 : ℚ) < ((12 * max 100 maxAge : Int) : ℚ) / dt := div_pos hNq hdt
  unfold burnInSteps
  generalize ((12 * max 100 maxAge : Int) : ℚ) / dt = q at hrange hq ⊢
  have h53 : q < 2 ^ 53 := lt_trans hrange (by norm_num)
  have hlo := (roundToDouble_le_int hq.le h53 ⌊q⌋).1 (Int.floor_le q)
  have hhi := (roundToDouble_le_int hq.le h53 ⌈q⌉).2 (Int.le_ceil q)
  have hfl0 : (0 : Int) ≤ ⌊q⌋ := Int.floor_nonneg.mpr hq.le
  have hr0 : (0 : ℚ) ≤ roundToDouble q := by
    have : ((0 : Int) : ℚ) ≤ (⌊q⌋ : ℚ) := by exact_mod_cast hfl0
    simp only [Int.cast_zero] at this
    linarith
  have hsteps : truncToInt (roundToDouble q) = ⌊roundToDouble q⌋ := by
    unfold truncToInt
    rw [if_pos hr0]
  rw [hsteps]
  have h1 : ⌊q⌋ ≤ ⌊roundToDouble q⌋ := Int.le_floor.mpr hlo
  have h2 : ⌊roundToDouble q⌋ ≤ ⌈q⌉ := by
    have := le_trans (Int.floor_le (roundToDouble q)) hhi
    exact_mod_cast this
  refine ⟨h1, h2, ?_⟩
  intro hnear
  have hlt : roundToDouble q < (⌊q⌋ : ℚ) + 1 := by
    rcases roundToDouble_le_add hq with h | ⟨ha, hb⟩
    · have : q + q / 2 ^ 53 = q * (1 + 1 / 2 ^ 53) := by ring
      linarith
    · have : ((0 : Int) : ℚ) ≤ (⌊q⌋ : ℚ) := by exact_mod_cast hfl0
      simp only [Int.cast_zero] at this
      linarith
  have h3 : ⌊roundToDouble q⌋ < ⌊q⌋ + 1 := by
    apply Int.floor_lt.mpr
    push_cast
    exact hlt
  omega

/-- Claim C9 as stated fails: with a maximum host age of 80 and a time step
of 7 months the burn-in performs 171 steps, which is not the quotient
`12 * max(100, 80) / 7 = 1200 / 7`. -/
theorem burnIn_steps_not_quotient :
    (((burnIn (sampleModel 7 24)).trace.count (Event.evolve 7) : Nat) : ℚ) ≠
      ((12 * max 100 (sampleModel 7 24).popln.maxAge : Int) : ℚ) / 7 := by
  decide!

/-- Claim C9, amended.  For every maximum host age and every `dt > 0` with
the quotient `q = 12 * max(100, maxHostAge) / dt` in the range of `int`,
`burnIn` performs exactly `n` steps, each one `evolve` followed by one
larval-density update, and then saves the state, where `n` is the quotient
as computed in `double` arithmetic (`q` rounded to the nearest `double`)
converted to `int`.  This `n` is `⌊q⌋` or `⌈q⌉`, so it is `q` itself when
`q` is a whole number; it is `⌊q⌋` whenever `q * (1 + 2^-53) < ⌊q⌋ + 1`,
which is the case for every whole-number `dt` (with the product
`12 * max(100, maxHostAge)` in the range of `int`). -/
theorem burnIn_steps (m : ModelState) (hdt : 0 < m.dt)
    (hrange : ((12 * max 100 m.popln.maxAge : Int) : ℚ) / m.dt < 2147483648) :
    (burnIn m).trace =
      m.trace ++
        (List.replicate
          (truncToInt (roundToDouble
            (((12 * max 100 m.popln.maxAge : Int) : ℚ) / m.dt))).toNat
          [Event.evolve m.dt, Event.updateL3Density]).flatten ++
        [Event.saveCurrentState 0, Event.vectorsSaveCurrentState 0,
          Event.getPrevalence, Event.saveMonth (-1)] ∧
    ⌊((12 * max 100 m.popln.maxAge : Int) : ℚ) / m.dt⌋ ≤
      truncToInt (roundToDouble
        (((12 * max 100 m.popln.maxAge : Int) : ℚ) / m.dt)) ∧
    truncToInt (roundToDouble
        (((12 * max 100 m.popln.maxAge : Int) : ℚ) / m.dt)) ≤
      ⌈((12 * max 100 m.popln.maxAge : Int) : ℚ) / m.dt⌉ ∧
    (((12 * max 100 m.popln.maxAge : Int) : ℚ) / m.dt * (1 + 1 / 2 ^ 53) <
        (⌊((12 * max 100 m.popln.maxAge : Int) : ℚ) / m.dt⌋ : ℚ) + 1 →
      truncToInt (roundToDouble
          (((12 * max 100 m.popln.maxAge : Int) : ℚ) / m.dt)) =
        ⌊((12 * max 100 m.popln.maxAge : Int) : ℚ) / m.dt⌋) ∧
    (∀ d : Int, m.dt = (d : ℚ) → 12 * max 100 m.popln.maxAge < 2147483648 →
      truncToInt (roundToDouble
          (((12 * max 100 m.popln.maxAge : Int) : ℚ) / m.dt)) =
        ⌊((12 * max 100 m.popln.maxAge : Int) : ℚ) / m.dt⌋) := by
  obtain ⟨b1, b2, b3⟩ := burnInSteps_bounds m.popln.maxAge m.dt hdt hrange
  unfold burnInSteps at b1 b2 b3
  refine ⟨?_, b1, b2, b3, ?_⟩
  · unfold burnIn burnInSteps
    simp [burnInLoop_eq]
  · intro d hd hN
    apply b3
    rw [hd] at hdt ⊢
    have hdpos : (0 : Int) < d := by exact_mod_cast hdt
    have hdq : (0 : ℚ) < (d : ℚ) := by exact_mod_cast hdpos
    have hNpos : (0 : Int) < 12 * max 100 m.popln.maxAge := by
      have := le_max_left (100 : Int) m.popln.maxAge
      omega
    generalize 12 * max 100 m.popln.maxAge = N at hN hNpos ⊢
    have hfl : ((N : ℚ) / (d : ℚ)) < (⌊(N : ℚ) / (d : ℚ)⌋ : ℚ) + 1 :=
      Int.lt_floor_add_one _
    have h1 : (N : ℚ) < ((⌊(N : ℚ) / (d : ℚ)⌋ : ℚ) + 1) * (d : ℚ) :=
      (div_lt_iff₀ hdq).mp hfl
    have h2 : N < (⌊(N : ℚ) / (d : ℚ)⌋ + 1) * d := by exact_mod_cast h1
    have h3 : N + 1 ≤ (⌊(N : ℚ) / (d : ℚ)⌋ + 1) * d := by omega
    have h4 : (N : ℚ) + 1 ≤ ((⌊(N : ℚ) / (d : ℚ)⌋ : ℚ) + 1) * (d : ℚ) := by
      exact_mod_cast h3
    have h5 : (N : ℚ) / (d : ℚ) + 1 / (d : ℚ) ≤ (⌊(N : ℚ) / (d : ℚ)⌋ : ℚ) + 1 := by
      rw [← add_div, div_le_iff₀ hdq]
      exact h4
    have hNq : (N : ℚ) < 2 ^ 53 := by
      have : N < 2 ^ 53 := by omega
      exact_mod_cast this
    have h6 : (N : ℚ) / (d : ℚ) * (1 / 2 ^ 53) < 1 / (d : ℚ) := by
      rw [div_mul_eq_mul_div, div_lt_div_iff_of_pos_right hdq]
      have : (N : ℚ) * (1 / 2 ^ 53) = (N : ℚ) / 2 ^ 53 := by ring
      rw [this, div_lt_one (by positivity)]
      exact hNq
    have h7 : (N : ℚ) / (d : ℚ) * (1 + 1 / 2 ^ 53) =
        (N : ℚ) / (d : ℚ) + (N : ℚ) / (d : ℚ) * (1 / 2 ^ 53) := by ring
    rw [h7]
    linarith

set_option maxRecDepth 1000000 in
/-- Claim C9, amended, worked example: with the time step `-t 1.6` (the
`double` nearest to 1.6, slightly above it) the exact quotient is below 750
and its floor is 749, but the `double` quotient is 750 and `burnIn`
performs 750 steps; the number of steps lies between the floor and the
ceiling of the exact quotient. -/
theorem burnIn_steps_witness :
    (burnIn doubleStepModel).trace.count (Event.evolve doubleStepModel.dt) =
      750 ∧
    ⌊((12 * max 100 doubleStepModel.popln.maxAge : Int) : ℚ) /
      doubleStepModel.dt⌋ = 749 ∧
    ⌈((12 * max 100 doubleStepModel.popln.maxAge : Int) : ℚ) /
      doubleStepModel.dt⌉ = 750 ∧
    ⌊((12 * max 100 doubleStepModel.popln.maxAge : Int) : ℚ) /
        doubleStepModel.dt⌋ ≤
      truncToInt (roundToDouble
        (((12 * max 100 doubleStepModel.popln.maxAge : Int) : ℚ) /
          doubleStepModel.dt)) ∧
    truncToInt (roundToDouble
        (((12 * max 100 doubleStepModel.popln.maxAge : Int) : ℚ) /
          doubleStepModel.dt)) ≤
      ⌈((12 * max 100 doubleStepModel.popln.maxAge : Int) : ℚ) /
        doubleStepModel.dt⌉ :=
  ⟨by decide!, by decide!, by decide!,
    (burnIn_steps doubleStepModel (by decide!) (by decide!)).2.1,
    (burnIn_steps doubleStepModel (by decide!) (by decide!)).2.2.1⟩

/-! ### Seed file -/

/-- The conversion `unsigned(replicates)` keeps a replicate count. -/
theorem toUnsigned_of_count {R : Int} (h0 : 0 ≤ R) (h1 : R < 2147483648) :
    ((toUnsigned R : Nat) : Int) = R := by
  unfold toUnsigned
  rw [Int.emod_eq_of_lt h0 (by omega)]
  exact Int.toNat_of_nonneg h0

/-- Claim C10.  For a replicate count `R` (a non-negative `int`) and a named
seed file that can be opened: if the file has fewer lines than `R`,
`readSeedsFromFile` exits with code 1 and `runScenarios` ends there, having
only opened the output files (no replicate is run); if the file has at least
`R` lines, `readSeedsFromFile` does not exit and returns the seeds of the
file. -/
theorem seedFile_undersized (inp : RunInputs) (f : NumberFile Nat)
    (fuel : Nat) (m : ModelState)
    (hname : inp.RandomSeedFile.length > 0) (hfile : inp.seedFile = some f)
    (h0 : 0 ≤ inp.replicates) (h1 : inp.replicates < 2147483648) :
    ((f.lines.length : Int) < inp.replicates →
      readSeedsFromFile [] (toUnsigned inp.replicates) inp.RandomSeedFile
          inp.seedFile = Except.error 1 ∧
      runScenarios inp fuel m = some (Except.error
        { exitCode := 1
          trace := m.trace ++ [Event.openFilesandPrintHeadings] })) ∧
    (inp.replicates ≤ (f.lines.length : Int) →
      readSeedsFromFile [] (toUnsigned inp.replicates) inp.RandomSeedFile
          inp.seedFile = Except.ok f.lines) := by
  have hu := toUnsigned_of_count h0 h1
  constructor
  · intro hlt
    have hlt2 : f.lines.length < toUnsigned inp.replicates := by omega
    have hread : readSeedsFromFile [] (toUnsigned inp.replicates)
        inp.RandomSeedFile inp.seedFile = Except.error 1 := by
      simp [readSeedsFromFile, hname, hfile, hlt2]
    refine ⟨hread, ?_⟩
    simp [runScenarios, hread]
  · intro hge
    have hge2 : ¬ f.lines.length < toUnsigned inp.replicates := by omega
    simp [readSeedsFromFile, hname, hfile, hge2]

/-- Claim C10, worked example: three replicates requested with a seed file
of two lines (exit before any replicate), and two replicates requested with
the same file (the seeds are read). -/
theorem seedFile_undersized_witness :
    (readSeedsFromFile [] (toUnsigned (sampleRun 3 [11, 22]).replicates)
        (sampleRun 3 [11, 22]).RandomSeedFile (sampleRun 3 [11, 22]).seedFile =
          Except.error 1 ∧
      runScenarios (sampleRun 3 [11, 22]) 100 (sampleModel 1 24) =
        some (Except.error
          { exitCode := 1
            trace := (sampleModel 1 24).trace ++
              [Event.openFilesandPrintHeadings] })) ∧
    readSeedsFromFile [] (toUnsigned (sampleRun 2 [11, 22]).replicates)
      (sampleRun 2 [11, 22]).RandomSeedFile (sampleRun 2 [11, 22]).seedFile =
        Except.ok [11, 22] :=
  ⟨(seedFile_undersized (sampleRun 3 [11, 22])
      { lines := [11, 22], endsWithNewline := true } 100 (sampleModel 1 24)
      (by decide) rfl (by decide) (by decide)).1 (by decide),
    (seedFile_undersized (sampleRun 2 [11, 22])
      { lines := [11, 22], endsWithNewline := true } 100 (sampleModel 1 24)
      (by decide) rfl (by decide) (by decide)).2 (by decide)⟩

end Transfil

namespace Transfil

/-! ### Which blocks of a time step write which bookkeeping fields -/

@[simp] theorem emit_popln (s : LoopState) (e : Event) :
    (s.emit e).popln = s.popln := rfl

@[simp] theorem emit_loc (s : LoopState) (e : Event) :
    (s.emit e).loc = s.loc := rfl

@[simp] theorem refreshParams_popln (cfg : Settings) (t : Int)
    (s : LoopState) : (refreshParams cfg t s).popln = s.popln := by
  unfold refreshParams
  simp only []
  split_ifs <;> rfl

@[simp] theorem annualRecords_popln (cfg : Settings) (t : Int)
    (s : LoopState) : (annualRecords cfg t s).popln = s.popln := by
  unfold annualRecords
  split_ifs <;> rfl

@[simp] theorem roadmapRecord_popln (cfg : Settings) (t : Int)
    (s : LoopState) : (roadmapRecord cfg t s).popln = s.popln := by
  unfold roadmapRecord
  split_ifs <;> rfl

@[simp] theorem emptySurveyRecords_popln (cfg : Settings) (t : Int)
    (s : LoopState) : (emptySurveyRecords cfg t s).popln = s.popln := by
  unfold emptySurveyRecords
  simp only []
  split_ifs <;> rfl

@[simp] theorem scenarioUpdates_popln (cfg : Settings) (t : Int)
    (s : LoopState) : (scenarioUpdates cfg t s).popln = s.popln := by
  unfold scenarioUpdates
  simp only []
  split_ifs <;> rfl

@[simp] theorem evolveStep_popln (sc : Scenario) (dt : ℚ) (t : Int)
    (s : LoopState) : (evolveStep sc dt t s).popln = s.popln := by
  unfold evolveStep
  simp only []
  split_ifs <;> rfl

@[simp] theorem policySwitches_popln (sc : Scenario) (t : Int)
    (s : LoopState) : (policySwitches sc t s).popln = s.popln := by
  unfold policySwitches
  simp only []
  split_ifs <;> rfl

@[simp] theorem saveObservation_popln (sc : Scenario) (t : Int)
    (s : LoopState) : (saveObservation sc t s).popln = s.popln := by
  unfold saveObservation
  split_ifs <;> rfl

/-- The population's bookkeeping when the survey blocks of month `t` are
reached is the one the step started with. -/
theorem popln_before_surveys (cfg : Settings) (sc : Scenario) (dt : ℚ)
    (t : Int) (s : LoopState) :
    (evolveStep sc dt t (scenarioUpdates cfg t (emptySurveyRecords cfg t
      (roadmapRecord cfg t (annualRecords cfg t
        (refreshParams cfg t s)))))).popln = s.popln := by
  simp

/-- The prevalence-driven importation adjustment writes only `aImp`. -/
theorem importationViaPrevalence_fields (cfg : Settings) (o : Oracle)
    (t : Int) (s : LoopState) :
    (importationViaPrevalence cfg o t s).popln.preTASSurveyTime =
        s.popln.preTASSurveyTime ∧
    (importationViaPrevalence cfg o t s).popln.TASSurveyTime =
        s.popln.TASSurveyTime ∧
    (importationViaPrevalence cfg o t s).popln.DoMDA = s.popln.DoMDA ∧
    (importationViaPrevalence cfg o t s).popln.totMDAs = s.popln.totMDAs ∧
    (importationViaPrevalence cfg o t s).popln.TAS_Pass = s.popln.TAS_Pass := by
  unfold importationViaPrevalence
  simp only []
  split_ifs <;> simp [LoopState.emit]

/-- The treatment-probability protocol writes only `prevCov` and
`prevRho`. -/
theorem treatmentProbabilities_fields (cfg : Settings) (mda : MDAEvent)
    (t : Int) (s : LoopState) :
    (treatmentProbabilities cfg mda t s).popln.preTASSurveyTime =
        s.popln.preTASSurveyTime ∧
    (treatmentProbabilities cfg mda t s).popln.TASSurveyTime =
        s.popln.TASSurveyTime ∧
    (treatmentProbabilities cfg mda t s).popln.DoMDA = s.popln.DoMDA ∧
    (treatmentProbabilities cfg mda t s).popln.totMDAs = s.popln.totMDAs ∧
    (treatmentProbabilities cfg mda t s).popln.firstTASNumMDA =
        s.popln.firstTASNumMDA ∧
    (treatmentProbabilities cfg mda t s).popln.surveyStartDate =
        s.popln.surveyStartDate ∧
    (treatmentProbabilities cfg mda t s).popln.NoMDALowMF =
        s.popln.NoMDALowMF ∧
    (treatmentProbabilities cfg mda t s).popln.MFThreshold =
        s.popln.MFThreshold := by
  unfold treatmentProbabilities
  simp only []
  split_ifs <;> simp [LoopState.emit]

/-- The low-prevalence check writes only `DoMDA`. -/
theorem lowPrevalenceCheck_fields (o : Oracle) (t : Int) (s : LoopState) :
    (lowPrevalenceCheck o t s).popln.preTASSurveyTime =
        s.popln.preTASSurveyTime ∧
    (lowPrevalenceCheck o t s).popln.TASSurveyTime = s.popln.TASSurveyTime ∧
    (lowPrevalenceCheck o t s).popln.totMDAs = s.popln.totMDAs ∧
    (lowPrevalenceCheck o t s).popln.firstTASNumMDA =
        s.popln.firstTASNumMDA ∧
    (lowPrevalenceCheck o t s).popln.surveyStartDate =
        s.popln.surveyStartDate := by
  unfold lowPrevalenceCheck
  simp only []
  split_ifs <;> simp [LoopState.emit]

end Transfil

namespace Transfil

/-- What applying a round writes: the round counter, the first pre-TAS
month when the counter reaches the threshold, and the call of
`ApplyTreatmentUpdated` with the current `DoMDA`. -/
theorem applyRound_fields (o : Oracle) (t : Int) (s : LoopState) :
    (applyRound o t s).popln.totMDAs = s.popln.totMDAs + 1 ∧
    (applyRound o t s).popln.preTASSurveyTime =
      (if s.popln.totMDAs + 1 = s.popln.firstTASNumMDA then
        max s.popln.surveyStartDate (t + 6)
      else
        s.popln.preTASSurveyTime) ∧
    (applyRound o t s).popln.TASSurveyTime = s.popln.TASSurveyTime ∧
    (applyRound o t s).popln.DoMDA = s.popln.DoMDA ∧
    ∃ roundNumber : Int, (applyRound o t s).trace.getLast? =
      some (Event.ApplyTreatmentUpdated t roundNumber s.popln.DoMDA) := by
  by_cases hy : Int.tdiv t 12 + 2000 = s.loc.previousMDAyear <;>
    by_cases hn : s.popln.totMDAs + 1 = s.popln.firstTASNumMDA <;>
    simp [applyRound, LoopState.emit, hy, hn]

/-- Claim C13.  Processing an intervention at month `t` increases `totMDAs`
by one; when this brings it to exactly `firstTASNumMDA`, `preTASSurveyTime`
is set to `max(surveyStartDate, t + 6)`, which is at least the configured
start date and at least `t + 6`; otherwise `preTASSurveyTime` is
unchanged. -/
theorem MDABlock_first_preTAS (cfg : Settings) (sc : Scenario) (o : Oracle)
    (t : Int) (s : LoopState) (mda : MDAEvent)
    (hdue : sc.treatmentDue t = some mda) :
    (MDABlock cfg sc o t s).popln.totMDAs = s.popln.totMDAs + 1 ∧
    (s.popln.totMDAs + 1 = s.popln.firstTASNumMDA →
      (MDABlock cfg sc o t s).popln.preTASSurveyTime =
        max s.popln.surveyStartDate (t + 6) ∧
      s.popln.surveyStartDate ≤ (MDABlock cfg sc o t s).popln.preTASSurveyTime ∧
      t + 6 ≤ (MDABlock cfg sc o t s).popln.preTASSurveyTime) ∧
    (s.popln.totMDAs + 1 ≠ s.popln.firstTASNumMDA →
      (MDABlock cfg sc o t s).popln.preTASSurveyTime =
        s.popln.preTASSurveyTime) := by
  obtain ⟨hp1, -, -, ht1, hf1, hs1, -, -⟩ :=
    treatmentProbabilities_fields cfg mda t s
  obtain ⟨hp2, -, ht2, hf2, hs2⟩ :=
    lowPrevalenceCheck_fields o t (treatmentProbabilities cfg mda t s)
  obtain ⟨ht3, hp3, -, -, -⟩ :=
    applyRound_fields o t
      (lowPrevalenceCheck o t (treatmentProbabilities cfg mda t s))
  simp only [MDABlock, hdue]
  rw [ht3, hp3, ht2, hf2, hs2, hp2, ht1, hf1, hs1, hp1]
  refine ⟨rfl, ?_, ?_⟩
  · intro h
    rw [if_pos h]
    exact ⟨rfl, le_max_left _ _, le_max_right _ _⟩
  · intro h
    rw [if_neg h]

/-- Claim C15.  When the prevalence-driven adjustment is evaluated (the
selector chooses it and `t` is the pending comparison month) with
pre-round prevalence `old` and post-round prevalence `new`, the amplitude
becomes `aImp * new / old` if `new < old` and is unchanged otherwise; for
`aImp ≥ 0` and `new ≥ 0` the amplitude does not increase, and whenever the
division is performed the divisor `old` is not zero. -/
theorem importation_scaling (cfg : Settings) (o : Oracle) (t : Int)
    (s : LoopState)
    (hsel : shouldReduceImportationViaPrevalance cfg.reduceImpViaXml t
      s.popln.switchImportationReducingMethodTime = true)
    (htime : t = s.loc.time_to_reduce_importation_rate) :
    (o.getMFPrev MFSite.afterMDANew t < s.loc.mfprev_aimp_old →
      (importationViaPrevalence cfg o t s).popln.aImp =
        s.popln.aImp * o.getMFPrev MFSite.afterMDANew t /
          s.loc.mfprev_aimp_old) ∧
    (¬ o.getMFPrev MFSite.afterMDANew t < s.loc.mfprev_aimp_old →
      (importationViaPrevalence cfg o t s).popln.aImp = s.popln.aImp) ∧
    (0 ≤ s.popln.aImp → 0 ≤ o.getMFPrev MFSite.afterMDANew t →
      (importationViaPrevalence cfg o t s).popln.aImp ≤ s.popln.aImp ∧
      (o.getMFPrev MFSite.afterMDANew t < s.loc.mfprev_aimp_old →
        s.loc.mfprev_aimp_old ≠ 0)) := by
  have hval : (importationViaPrevalence cfg o t s).popln.aImp =
      (if o.getMFPrev MFSite.afterMDANew t < s.loc.mfprev_aimp_old then
        s.popln.aImp * o.getMFPrev MFSite.afterMDANew t /
          s.loc.mfprev_aimp_old
      else
        s.popln.aImp) := by
    by_cases h : o.getMFPrev MFSite.afterMDANew t < s.loc.mfprev_aimp_old <;>
      simp [importationViaPrevalence, hsel, ← htime, LoopState.emit, h]
  refine ⟨?_, ?_, ?_⟩
  · intro h
    rw [hval, if_pos h]
  · intro h
    rw [hval, if_neg h]
  · intro ha hn
    constructor
    · rw [hval]
      split_ifs with h
      · have hold : 0 < s.loc.mfprev_aimp_old := lt_of_le_of_lt hn h
        rw [div_le_iff₀ hold]
        exact mul_le_mul_of_nonneg_left h.le ha
      · exact le_refl _
    · intro h hz
      rw [hz] at h
      exact absurd h (not_lt.mpr hn)

end Transfil

namespace Transfil

/-- A pre-TAS block at a month that is not the pre-TAS-due month does
nothing. -/
theorem preTASBlock_of_not_due (cfg : Settings) (o : Oracle) (t : Int)
    (s : LoopState) (h : t ≠ s.popln.preTASSurveyTime) :
    preTASBlock cfg o t s = s := by
  simp [preTASBlock, h]

/-- A TAS block at a month that is not the TAS-due month does nothing. -/
theorem TASBlock_of_not_due (cfg : Settings) (o : Oracle) (t : Int)
    (s : LoopState) (h : t ≠ s.popln.TASSurveyTime) :
    TASBlock cfg o t s = s := by
  simp [TASBlock, h]

/-- The low-prevalence check does nothing once a round has been counted. -/
theorem lowPrevalenceCheck_of_started (o : Oracle) (t : Int) (s : LoopState)
    (h : s.popln.totMDAs ≠ 0) : lowPrevalenceCheck o t s = s := by
  simp [lowPrevalenceCheck, h]

/-- The low-prevalence check at the first round with the policy on and a
sampled prevalence at or below the threshold switches `DoMDA` off. -/
theorem lowPrevalenceCheck_low (o : Oracle) (t : Int) (s : LoopState)
    (h0 : s.popln.totMDAs = 0) (h1 : s.popln.NoMDALowMF = 1)
    (hlow : o.getMFPrev MFSite.lowMFCheck t ≤ s.popln.MFThreshold) :
    (lowPrevalenceCheck o t s).popln.DoMDA = false ∧
    (lowPrevalenceCheck o t s).popln.totMDAs = 0 := by
  simp [lowPrevalenceCheck, h0, h1, hlow, LoopState.emit]

/-- The due months and `DoMDA` after the intervention block. -/
theorem MDABlock_due_months (cfg : Settings) (sc : Scenario) (o : Oracle)
    (t : Int) (s : LoopState) :
    ((MDABlock cfg sc o t s).popln.preTASSurveyTime =
        s.popln.preTASSurveyTime ∨
      t + 6 ≤ (MDABlock cfg sc o t s).popln.preTASSurveyTime) ∧
    (MDABlock cfg sc o t s).popln.TASSurveyTime = s.popln.TASSurveyTime ∧
    ((sc.treatmentDue t = none ∨ s.popln.totMDAs ≠ 0) →
      (MDABlock cfg sc o t s).popln.DoMDA = s.popln.DoMDA) := by
  unfold MDABlock
  cases hdue : sc.treatmentDue t with
  | none => simp
  | some mda =>
    obtain ⟨hp1, hs1, hd1, ht1, -, -, -, -⟩ :=
      treatmentProbabilities_fields cfg mda t s
    obtain ⟨hp2, hs2, -, -, -⟩ :=
      lowPrevalenceCheck_fields o t (treatmentProbabilities cfg mda t s)
    obtain ⟨-, hp3, hs3, hd3, -⟩ :=
      applyRound_fields o t
        (lowPrevalenceCheck o t (treatmentProbabilities cfg mda t s))
    simp only []
    refine ⟨?_, ?_, ?_⟩
    · rw [hp3]
      split_ifs
      · exact Or.inr (le_max_right _ _)
      · exact Or.inl (hp2.trans hp1)
    · rw [hs3, hs2, hs1]
    · intro h
      have hne : (treatmentProbabilities cfg mda t s).popln.totMDAs ≠ 0 := by
        rw [ht1]
        rcases h with h | h
        · exact absurd h (by simp)
        · exact h
      rw [hd3, lowPrevalenceCheck_of_started o t _ hne, hd1]

/-- Claim C12, amended.  When the policy is enabled and the first
intervention (`totMDAs == 0`) finds the sampled prevalence at or below the
threshold, that round is applied with `DoMDA = false` and the flag is left
false.  It is not restored after the round: a later due intervention
(`totMDAs ≠ 0`) is applied with the current value of `DoMDA` and leaves it,
and a step in which no survey is run and which is not the first round
leaves `DoMDA` unchanged.  So later rounds of the same `evolveAndSave` call
are applied with `DoMDA = false` as well, until a survey transition sets
the flag. -/
theorem lowPrevalence_skip_persists (cfg : Settings) (sc : Scenario)
    (o : Oracle) (dt : ℚ) (t : Int) (s : LoopState) :
    (∀ mda : MDAEvent, sc.treatmentDue t = some mda →
      s.popln.totMDAs = 0 → s.popln.NoMDALowMF = 1 →
      o.getMFPrev MFSite.lowMFCheck t ≤ s.popln.MFThreshold →
        (∃ roundNumber : Int, (MDABlock cfg sc o t s).trace.getLast? =
          some (Event.ApplyTreatmentUpdated t roundNumber false)) ∧
        (MDABlock cfg sc o t s).popln.DoMDA = false ∧
        (MDABlock cfg sc o t s).popln.totMDAs = 1) ∧
    (∀ mda : MDAEvent, sc.treatmentDue t = some mda →
      s.popln.totMDAs ≠ 0 →
        (∃ roundNumber : Int, (MDABlock cfg sc o t s).trace.getLast? =
          some (Event.ApplyTreatmentUpdated t roundNumber s.popln.DoMDA)) ∧
        (MDABlock cfg sc o t s).popln.DoMDA = s.popln.DoMDA) ∧
    (t ≠ s.popln.preTASSurveyTime → t ≠ s.popln.TASSurveyTime →
      (sc.treatmentDue t = none ∨ s.popln.totMDAs ≠ 0) →
        (step cfg sc o dt t s).popln.DoMDA = s.popln.DoMDA) := by
  refine ⟨?_, ?_, ?_⟩
  · intro mda hdue h0 h1 hlow
    obtain ⟨-, -, -, ht1, -, -, hn1, hm1⟩ :=
      treatmentProbabilities_fields cfg mda t s
    obtain ⟨hd2, ht2⟩ := lowPrevalenceCheck_low o t
      (treatmentProbabilities cfg mda t s) (ht1.trans h0) (hn1.trans h1)
      (by rw [hm1]; exact hlow)
    obtain ⟨ht3, -, -, hd3, rn, hlast⟩ := applyRound_fields o t
      (lowPrevalenceCheck o t (treatmentProbabilities cfg mda t s))
    simp only [MDABlock, hdue]
    refine ⟨⟨rn, ?_⟩, ?_, ?_⟩
    · rw [hlast, hd2]
    · rw [hd3, hd2]
    · rw [ht3, ht2]
      rfl
  · intro mda hdue hne
    obtain ⟨-, -, hd1, ht1, -, -, -, -⟩ :=
      treatmentProbabilities_fields cfg mda t s
    have hne1 : (treatmentProbabilities cfg mda t s).popln.totMDAs ≠ 0 := by
      rw [ht1]
      exact hne
    obtain ⟨-, -, -, hd3, rn, hlast⟩ := applyRound_fields o t
      (lowPrevalenceCheck o t (treatmentProbabilities cfg mda t s))
    simp only [MDABlock, hdue]
    rw [lowPrevalenceCheck_of_started o t _ hne1] at hd3 hlast ⊢
    refine ⟨⟨rn, ?_⟩, ?_⟩
    · rw [hlast, hd1]
    · rw [hd3, hd1]
  · intro hp ht hr
    have h6 := popln_before_surveys cfg sc dt t s
    obtain ⟨-, -, hd⟩ := MDABlock_due_months cfg sc o t
      (evolveStep sc dt t (scenarioUpdates cfg t (emptySurveyRecords cfg t
        (roadmapRecord cfg t (annualRecords cfg t (refreshParams cfg t s))))))
    obtain ⟨-, -, hi, -, -⟩ := importationViaPrevalence_fields cfg o t
      (MDABlock cfg sc o t
        (evolveStep sc dt t (scenarioUpdates cfg t (emptySurveyRecords cfg t
          (roadmapRecord cfg t (annualRecords cfg t
            (refreshParams cfg t s)))))))
    simp only [step, saveObservation_popln, policySwitches_popln]
    rw [preTASBlock_of_not_due cfg o t _ (by rw [h6]; exact hp),
      TASBlock_of_not_due cfg o t _ (by rw [h6]; exact ht), hi,
      hd (by rw [h6]; exact hr), h6]

end Transfil

namespace Transfil

/-! ### Worked runs for the claims on parameter files, rounds and surveys -/

set_option maxRecDepth 1000000 in
/-- Claim C11, the code at a failing input: two replicates requested and a
parameter file of one row.  The run finishes without exiting; the second
replicate starts with the values of the first row again, after a
diagnostic when the file ends with a newline and silently when it does
not. -/
theorem undersized_parameter_file_runs :
    (completedTrace (runScenarios
        (sampleParamsRun 2 [[1, 2, 3, 4]] true [sampleScenario 0 [12]]) 10
        (sampleModel 1 24))).map replicateStarts =
      some [Event.initHosts (some 2) (some 3), Event.vectorsReset (some 1),
        Event.wormsReset (some 4), Event.diagnostic,
        Event.initHosts (some 2) (some 3), Event.vectorsReset (some 1),
        Event.wormsReset (some 4)] ∧
    (completedTrace (runScenarios
        (sampleParamsRun 2 [[1, 2, 3, 4]] false [sampleScenario 0 [12]]) 10
        (sampleModel 1 24))).map replicateStarts =
      some [Event.initHosts (some 2) (some 3), Event.vectorsReset (some 1),
        Event.wormsReset (some 4),
        Event.initHosts (some 2) (some 3), Event.vectorsReset (some 1),
        Event.wormsReset (some 4)] := by
  decide!

set_option maxRecDepth 1000000 in
/-- Claim C12 as stated fails: with the policy on and a sampled prevalence
below the threshold, rounds at months 0 and 12 of one `evolveAndSave` call
are both applied with `DoMDA = false`, and no survey is run in between. -/
theorem lowPrevalence_skip_second_round :
    (saveMonthsLoop sampleSettings (sampleScenarioRounds [0, 12] [24])
        (sampleOracle [] []) 100 1 0 lowPrevalenceModel).map
      (fun m => (roundsApplied m.trace, surveysRun m.trace)) =
      some ([Event.ApplyTreatmentUpdated 0 1 false,
        Event.ApplyTreatmentUpdated 12 1 false], []) := by
  decide!

/-- Claim C12, amended, worked example: the first round of
`lowPrevalenceModel` at month 0. -/
theorem lowPrevalence_skip_persists_witness :
    (∃ roundNumber : Int,
      (MDABlock sampleSettings (sampleScenarioRounds [0, 12] [24])
        (sampleOracle [] []) 0 lowPrevalenceLoopState).trace.getLast? =
          some (Event.ApplyTreatmentUpdated 0 roundNumber false)) ∧
    (MDABlock sampleSettings (sampleScenarioRounds [0, 12] [24])
      (sampleOracle [] []) 0 lowPrevalenceLoopState).popln.DoMDA = false ∧
    (MDABlock sampleSettings (sampleScenarioRounds [0, 12] [24])
      (sampleOracle [] []) 0 lowPrevalenceLoopState).popln.totMDAs = 1 :=
  (lowPrevalence_skip_persists sampleSettings
    (sampleScenarioRounds [0, 12] [24]) (sampleOracle [] []) 1 0
    lowPrevalenceLoopState).1 { coverage := 13 / 20, compliance := 7 / 20 }
    rfl rfl rfl (by decide!)

/-- Claim C13, worked example: the first round at month 5 with a threshold
of one round and start date 0 schedules the pre-TAS at month 11. -/
theorem MDABlock_first_preTAS_witness :
    (MDABlock sampleSettings (sampleScenario 5 [24]) (sampleOracle [] []) 5
      (sampleLoopState 99999999 99999999 0)).popln.preTASSurveyTime = 11 ∧
    (0 : Int) ≤ (MDABlock sampleSettings (sampleScenario 5 [24])
      (sampleOracle [] []) 5
      (sampleLoopState 99999999 99999999 0)).popln.preTASSurveyTime ∧
    (5 : Int) + 6 ≤ (MDABlock sampleSettings (sampleScenario 5 [24])
      (sampleOracle [] []) 5
      (sampleLoopState 99999999 99999999 0)).popln.preTASSurveyTime :=
  (MDABlock_first_preTAS sampleSettings (sampleScenario 5 [24])
    (sampleOracle [] []) 5 (sampleLoopState 99999999 99999999 0)
    { coverage := 13 / 20, compliance := 7 / 20 } rfl).2.1 (by decide)

set_option maxRecDepth 1000000 in
/-- Claim C14, the code at failing runs (time step 1, the
prevalence-driven method selected at every month).  With one round at
month 10 and one call over months 0 to 23 the comparison is made at month
16; with a save month at 12 in between it is never made.  With rounds at
months 0 and 6 the comparison is made at month 12 only, not at month 6. -/
theorem importation_comparison_dropped :
    (saveMonthsLoop sampleSettings (sampleScenarioRounds [10] [24])
        (sampleOracle [] []) 100 1 0 (sampleModel 1 24)).map
      (fun m => comparisonMonths m.trace) = some [16] ∧
    (saveMonthsLoop sampleSettings (sampleScenarioRounds [10] [12, 24])
        (sampleOracle [] []) 100 2 0 (sampleModel 1 24)).map
      (fun m => comparisonMonths m.trace) = some [] ∧
    (saveMonthsLoop sampleSettings (sampleScenarioRounds [0, 6] [24])
        (sampleOracle [] []) 100 1 0 (sampleModel 1 24)).map
      (fun m => comparisonMonths m.trace) = some [12] := by
  decide!

/-- Claim C15, worked example: amplitude 1, pre-round prevalence 1/5 and
post-round prevalence 1/10 at the pending month 6 give the amplitude
1/2. -/
theorem importation_scaling_witness :
    (importationViaPrevalence sampleSettings (sampleOracle [] []) 6
      pendingComparisonState).popln.aImp = 1 / 2 := by
  have h := (importation_scaling sampleSettings (sampleOracle [] []) 6
    pendingComparisonState rfl rfl).1 (by decide!)
  rw [h]
  decide!

set_option maxRecDepth 1000000 in
/-- Claim C16, the code at a failing run (time step 1, rounds at months 0
and 12, the pre-TAS scheduled at month 6 passes and the TAS passes).  At
the save month 12 `DoMDA` is false, the due months are 6 and 30 and the
pass count is 1; the next call applies the round of month 12 with
`DoMDA = true`, although no survey was run in between.  In a single call
over the same months the round of month 12 is applied with
`DoMDA = false`. -/
theorem DoMDA_reset_at_call :
    (saveMonthsLoop sampleSettings (sampleScenarioRounds [0, 12] [12, 24])
        (sampleOracle [6] []) 100 1 0 (sampleModel 1 24)).map
      (fun m => (m.popln.DoMDA, m.popln.preTASSurveyTime,
        m.popln.TASSurveyTime, m.popln.TAS_Pass)) =
      some (false, 6, 30, 1) ∧
    (saveMonthsLoop sampleSettings (sampleScenarioRounds [0, 12] [12, 24])
        (sampleOracle [6] []) 100 2 0 (sampleModel 1 24)).map
      (fun m => (roundsApplied m.trace, surveysRun m.trace)) =
      some ([Event.ApplyTreatmentUpdated 0 1 true,
        Event.ApplyTreatmentUpdated 12 1 true],
        [Event.PreTASSurvey 6, Event.TASSurvey 6]) ∧
    (saveMonthsLoop sampleSettings (sampleScenarioRounds [0, 12] [24])
        (sampleOracle [6] []) 100 1 0 (sampleModel 1 24)).map
      (fun m => (roundsApplied m.trace, surveysRun m.trace)) =
      some ([Event.ApplyTreatmentUpdated 0 1 true,
        Event.ApplyTreatmentUpdated 12 1 false],
        [Event.PreTASSurvey 6, Event.TASSurvey 6]) := by
  decide!

end Transfil

namespace Transfil

/-! ### Calendar month across calls -/

/-- A call of `evolveAndSave` that returns leaves `currentMonth` at its
target month. -/
theorem evolveAndSave_month (cfg : Settings) (sc : Scenario) (o : Oracle)
    (y : Int) (fuel : Nat) (m m1 : ModelState)
    (h : evolveAndSave cfg sc o y fuel m = some m1) :
    m1.currentMonth = sc.monthToSave y := by
  unfold evolveAndSave at h
  simp only at h
  split at h
  · injection h with h
    rw [← h]
    rfl
  · exact absurd h (by simp)

/-- Claim C18 as stated fails: in one replicate the first scenario (start
month 0, save month 12) leaves `currentMonth` at 12, and the second
scenario (start month 0, save month 6) re-synchronises it to its start
month and leaves it at 6. -/
theorem currentMonth_rewinds :
    (scenariosLoop (sampleParamsRun 1 [[1, 2, 3, 4]] true []) sampleSettings
        0 100 [sampleScenario 0 [12]] 0 (sampleModel 1 24)).map
      (fun m => m.currentMonth) = some 12 ∧
    (scenariosLoop (sampleParamsRun 1 [[1, 2, 3, 4]] true []) sampleSettings
        0 100 [sampleScenario 0 [12], sampleScenario 0 [6]] 0
        (sampleModel 1 24)).map
      (fun m => m.currentMonth) = some 6 := by
  decide!

/-- Claim C18, amended.  Within a replicate the burn-in leaves
`currentMonth` as it is, a call of `evolveAndSave` whose target month is not
before the current month ends with `currentMonth` at the target and so does
not decrease it, and over the calls of one segment whose months to save are
non-decreasing and start at or after the current month `currentMonth` does
not decrease.  (The start-month re-synchronisation of `runScenarios` is
left out: it sets `currentMonth` to the segment's start month, earlier or
later.) -/
theorem currentMonth_within_segment (cfg : Settings) (sc : Scenario)
    (o : Oracle) (fuel : Nat) :
    (∀ m : ModelState, (burnIn m).currentMonth = m.currentMonth) ∧
    (∀ (y : Int) (m m1 : ModelState),
      evolveAndSave cfg sc o y fuel m = some m1 →
      m.currentMonth ≤ sc.monthToSave y →
        m1.currentMonth = sc.monthToSave y ∧
        m.currentMonth ≤ m1.currentMonth) ∧
    (∀ (n : Nat) (y : Int) (m m1 : ModelState),
      (∀ i : Int, y ≤ i → i + 1 < y + n →
        sc.monthToSave i ≤ sc.monthToSave (i + 1)) →
      m.currentMonth ≤ sc.monthToSave y →
      saveMonthsLoop cfg sc o fuel n y m = some m1 →
        m.currentMonth ≤ m1.currentMonth) := by
  refine ⟨fun m => rfl, ?_, ?_⟩
  · intro y m m1 h hle
    have hm := evolveAndSave_month cfg sc o y fuel m m1 h
    exact ⟨hm, by rw [hm]; exact hle⟩
  · intro n
    induction n with
    | zero =>
      intro y m m1 _ _ h
      simp only [saveMonthsLoop] at h
      injection h with h
      rw [h]
    | succ k ih =>
      intro y m m1 hmono hle h
      simp only [saveMonthsLoop] at h
      split at h
      · rename_i m2 hcall
        have hm2 := evolveAndSave_month cfg sc o y fuel m m2 hcall
        by_cases hk : k = 0
        · subst hk
          simp only [saveMonthsLoop] at h
          injection h with h
          rw [← h, hm2]
          exact hle
        · have hstep : sc.monthToSave y ≤ sc.monthToSave (y + 1) :=
            hmono y (le_refl _) (by push_cast; omega)
          have := ih (y + 1) m2 m1
            (fun i h1 h2 => hmono i (by omega) (by push_cast at h2 ⊢; omega))
            (by rw [hm2]; exact hstep) h
          rw [hm2] at this
          omega
      · exact absurd h (by simp)

/-- Claim C18, amended, worked example: two calls with the months to save
12 and 24, from month 0. -/
theorem currentMonth_within_segment_witness :
    ∃ m1 : ModelState,
      saveMonthsLoop sampleSettings (sampleScenario 0 [12, 24])
          (sampleOracle [] []) 100 2 0 (sampleModel 1 24) = some m1 ∧
        (sampleModel 1 24).currentMonth ≤ m1.currentMonth := by
  have hs : (saveMonthsLoop sampleSettings (sampleScenario 0 [12, 24])
      (sampleOracle [] []) 100 2 0 (sampleModel 1 24)).isSome = true := by
    decide!
  obtain ⟨m1, h⟩ := Option.isSome_iff_exists.mp hs
  have hmono : ∀ i : Int, (0 : Int) ≤ i → i + 1 < 0 + ((2 : Nat) : Int) →
      (sampleScenario 0 [12, 24]).monthToSave i ≤
        (sampleScenario 0 [12, 24]).monthToSave (i + 1) := by
    intro i h1 h2
    have hi : i = 0 := by push_cast at h2; omega
    subst hi
    decide
  exact ⟨m1, h,
    (currentMonth_within_segment sampleSettings (sampleScenario 0 [12, 24])
      (sampleOracle [] []) 100).2.2 2 0 (sampleModel 1 24) m1 hmono
      (by decide) h⟩

/-! ### Default coverage proportion -/

end Transfil

namespace Transfil

/-! ### Parameter rows -/

/-- A line of `4 * n` values is the line of its `n` rows of four. -/
theorem lineOfRows_rowsOfLine (n : Nat) :
    ∀ line : List ℚ, line.length = 4 * n →
      lineOfRows (rowsOfLine line) = line ∧ (rowsOfLine line).length = n := by
  induction n with
  | zero =>
    intro line h
    have : line = [] := List.length_eq_zero.mp (by omega)
    subst this
    simp [rowsOfLine, lineOfRows]
  | succ k ih =>
    intro line h
    match line, h with
    | a :: b :: c :: d :: rest, h =>
      have hrest : rest.length = 4 * k := by
        simp only [List.length_cons] at h
        omega
      obtain ⟨h1, h2⟩ := ih rest hrest
      simp [rowsOfLine, lineOfRows, h1, h2]
    | [], h => simp at h
    | [_], h => simp at h; omega
    | [_, _], h => simp at h; omega
    | [_, _, _], h => simp at h; omega

/-- The value at position `4 * i + c` of the line of some rows is column
`c` of row `i`. -/
theorem lineOfRows_getElem? (rows : List (ℚ × ℚ × ℚ × ℚ)) :
    ∀ i : Nat,
      (lineOfRows rows)[4 * i]? = (rows[i]?).map (fun r => r.1) ∧
      (lineOfRows rows)[4 * i + 1]? = (rows[i]?).map (fun r => r.2.1) ∧
      (lineOfRows rows)[4 * i + 2]? = (rows[i]?).map (fun r => r.2.2.1) ∧
      (lineOfRows rows)[4 * i + 3]? = (rows[i]?).map (fun r => r.2.2.2) := by
  induction rows with
  | nil => intro i; simp [lineOfRows]
  | cons r rs ih =>
    intro i
    obtain ⟨a, b, c, d⟩ := r
    cases i with
    | zero => simp [lineOfRows]
    | succ j =>
      obtain ⟨h0, h1, h2, h3⟩ := ih j
      have e0 : 4 * (j + 1) = (4 * j) + 1 + 1 + 1 + 1 := by omega
      have e1 : 4 * (j + 1) + 1 = (4 * j + 1) + 1 + 1 + 1 + 1 := by omega
      have e2 : 4 * (j + 1) + 2 = (4 * j + 2) + 1 + 1 + 1 + 1 := by omega
      have e3 : 4 * (j + 1) + 3 = (4 * j + 3) + 1 + 1 + 1 + 1 := by omega
      rw [e1, e2, e3, e0]
      simp only [lineOfRows, List.getElem?_cons_succ]
      exact ⟨h0, h1, h2, h3⟩

/-- The column counter of `ProcessLine` over one row, from the start of
row `q`. -/
theorem tmod_row_start (q : Nat) :
    Int.tmod (4 * (q : Int) + 1) 4 = 1 ∧
    Int.tmod (4 * (q : Int) + 1 + 1) 4 = 2 ∧
    Int.tmod (4 * (q : Int) + 1 + 1 + 1) 4 = 3 ∧
    Int.tmod (4 * (q : Int) + 1 + 1 + 1 + 1) 4 = 0 := by
  refine ⟨?_, ?_, ?_, ?_⟩ <;>
    rw [Int.tmod_eq_emod (by omega) (by omega)] <;> omega

/-- One row of four values on empty vectors. -/
theorem processValues_push_row (a b c d : ℚ) (rest : List ℚ) (q : Nat)
    (k : Int) (v : ParamVectors) :
    processValues 0 (a :: b :: c :: d :: rest) (4 * (q : Int) + 1) k v =
      processValues 0 rest (4 * ((q + 1 : Nat) : Int) + 1) k
        { k_vals := v.k_vals ++ [b]
          v_to_h_vals := v.v_to_h_vals ++ [a]
          aImp_vals := v.aImp_vals ++ [c]
          wProp_vals := v.wProp_vals ++ [d] } := by
  obtain ⟨t1, t2, t3, t4⟩ := tmod_row_start q
  have hj : 4 * (q : Int) + 1 + 1 + 1 + 1 + 1 = 4 * ((q + 1 : Nat) : Int) + 1 := by
    push_cast
    ring
  rw [processValues, if_pos t1, if_neg (by decide)]
  rw [processValues, if_neg (by rw [t2]; decide), if_pos t2, if_neg (by decide)]
  rw [processValues, if_neg (by rw [t3]; decide), if_neg (by rw [t3]; decide),
    if_pos t3, if_neg (by decide)]
  rw [processValues, if_neg (by rw [t4]; decide), if_neg (by rw [t4]; decide),
    if_neg (by rw [t4]; decide), if_pos t4, if_neg (by decide), hj]

/-- One row of four values on vectors that have an entry `k`. -/
theorem processValues_set_row (arraySize : Int) (hpos : arraySize > 0)
    (a b c d : ℚ) (rest : List ℚ) (k : Nat) (v : ParamVectors) :
    processValues arraySize (a :: b :: c :: d :: rest) (4 * (k : Int) + 1)
        (k : Int) v =
      processValues arraySize rest (4 * ((k + 1 : Nat) : Int) + 1)
        ((k + 1 : Nat) : Int)
        { k_vals := v.k_vals.set k b
          v_to_h_vals := v.v_to_h_vals.set k a
          aImp_vals := v.aImp_vals.set k c
          wProp_vals := v.wProp_vals.set k d } := by
  obtain ⟨t1, t2, t3, t4⟩ := tmod_row_start k
  have hj : 4 * (k : Int) + 1 + 1 + 1 + 1 + 1 = 4 * ((k + 1 : Nat) : Int) + 1 := by
    push_cast
    ring
  have hk : (k : Int) + 1 = ((k + 1 : Nat) : Int) := by push_cast; rfl
  rw [processValues, if_pos t1, if_pos hpos]
  rw [processValues, if_neg (by rw [t2]; decide), if_pos t2, if_pos hpos]
  rw [processValues, if_neg (by rw [t3]; decide), if_neg (by rw [t3]; decide),
    if_pos t3, if_pos hpos]
  rw [processValues, if_neg (by rw [t4]; decide), if_neg (by rw [t4]; decide),
    if_neg (by rw [t4]; decide), if_pos t4, if_pos hpos, hj, hk,
    Int.toNat_natCast]

/-- On empty vectors (`arraySize = 0`) the loop of `ProcessLine` appends
column by column. -/
theorem processValues_push (rows : List (ℚ × ℚ × ℚ × ℚ)) :
    ∀ (q : Nat) (k : Int) (v : ParamVectors),
      processValues 0 (lineOfRows rows) (4 * (q : Int) + 1) k v =
        (k, { k_vals := v.k_vals ++ rows.map (fun r => r.2.1)
              v_to_h_vals := v.v_to_h_vals ++ rows.map (fun r => r.1)
              aImp_vals := v.aImp_vals ++ rows.map (fun r => r.2.2.1)
              wProp_vals := v.wProp_vals ++ rows.map (fun r => r.2.2.2) }) := by
  induction rows with
  | nil => intro q k v; simp [lineOfRows, processValues]
  | cons r rs ih =>
    intro q k v
    obtain ⟨a, b, c, d⟩ := r
    rw [lineOfRows, processValues_push_row, ih]
    simp

/-- On vectors that have an entry for every row (`arraySize > 0`) the loop
of `ProcessLine` overwrites the entries `k`, `k + 1`, ... column by
column. -/
theorem processValues_set (arraySize : Int) (hpos : arraySize > 0)
    (rows : List (ℚ × ℚ × ℚ × ℚ)) :
    ∀ (k : Nat) (p1 p2 p3 p4 l1 l2 l3 l4 : List ℚ),
      p1.length = k → p2.length = k → p3.length = k → p4.length = k →
      l1.length = rows.length → l2.length = rows.length →
      l3.length = rows.length → l4.length = rows.length →
      processValues arraySize (lineOfRows rows) (4 * (k : Int) + 1) (k : Int)
          { k_vals := p2 ++ l2, v_to_h_vals := p1 ++ l1,
            aImp_vals := p3 ++ l3, wProp_vals := p4 ++ l4 } =
        (((k + rows.length : Nat) : Int),
          { k_vals := p2 ++ rows.map (fun r => r.2.1)
            v_to_h_vals := p1 ++ rows.map (fun r => r.1)
            aImp_vals := p3 ++ rows.map (fun r => r.2.2.1)
            wProp_vals := p4 ++ rows.map (fun r => r.2.2.2) }) := by
  induction rows with
  | nil =>
    intro k p1 p2 p3 p4 l1 l2 l3 l4 _ _ _ _ h1 h2 h3 h4
    have e1 : l1 = [] := List.length_eq_zero.mp h1
    have e2 : l2 = [] := List.length_eq_zero.mp h2
    have e3 : l3 = [] := List.length_eq_zero.mp h3
    have e4 : l4 = [] := List.length_eq_zero.mp h4
    subst e1 e2 e3 e4
    simp [lineOfRows, processValues]
  | cons r rs ih =>
    intro k p1 p2 p3 p4 l1 l2 l3 l4 hp1 hp2 hp3 hp4 h1 h2 h3 h4
    obtain ⟨a, b, c, d⟩ := r
    match l1, l2, l3, l4, h1, h2, h3, h4 with
    | y1 :: m1, y2 :: m2, y3 :: m3, y4 :: m4, h1, h2, h3, h4 =>
      have s1 : (p1 ++ y1 :: m1).set k a = (p1 ++ [a]) ++ m1 := by
        subst hp1; simp
      have s2 : (p2 ++ y2 :: m2).set k b = (p2 ++ [b]) ++ m2 := by
        rw [← hp2]; simp
      have s3 : (p3 ++ y3 :: m3).set k c = (p3 ++ [c]) ++ m3 := by
        rw [← hp3]; simp
      have s4 : (p4 ++ y4 :: m4).set k d = (p4 ++ [d]) ++ m4 := by
        rw [← hp4]; simp
      rw [lineOfRows, processValues_set_row arraySize hpos]
      simp only [s1, s2, s3, s4]
      rw [ih (k + 1) (p1 ++ [a]) (p2 ++ [b]) (p3 ++ [c]) (p4 ++ [d]) m1 m2 m3 m4
        (by simp [hp1]) (by simp [hp2]) (by simp [hp3]) (by simp [hp4])
        (by simpa using h1) (by simpa using h2) (by simpa using h3)
        (by simpa using h4)]
      simp [Nat.add_assoc, Nat.add_comm 1]

/-- `ProcessLine` on the line of some rows, for empty vectors and for
vectors with one entry per row: the vectors become the columns of the rows
and no diagnostic is printed. -/
theorem ProcessLine_rows (rows : List (ℚ × ℚ × ℚ × ℚ)) (v : ParamVectors)
    (hv : v = { k_vals := [], v_to_h_vals := [], aImp_vals := [],
                wProp_vals := [] } ∨
      (v.k_vals.length = rows.length ∧ v.v_to_h_vals.length = rows.length ∧
        v.aImp_vals.length = rows.length ∧
        v.wProp_vals.length = rows.length)) :
    ProcessLine (lineOfRows rows) v =
      ({ k_vals := rows.map (fun r => r.2.1)
         v_to_h_vals := rows.map (fun r => r.1)
         aImp_vals := rows.map (fun r => r.2.2.1)
         wProp_vals := rows.map (fun r => r.2.2.2) }, false) := by
  have hpush : ∀ w : ParamVectors,
      w = { k_vals := [], v_to_h_vals := [], aImp_vals := [],
            wProp_vals := [] } →
      ProcessLine (lineOfRows rows) w =
        ({ k_vals := rows.map (fun r => r.2.1)
           v_to_h_vals := rows.map (fun r => r.1)
           aImp_vals := rows.map (fun r => r.2.2.1)
           wProp_vals := rows.map (fun r => r.2.2.2) }, false) := by
    intro w hw
    subst hw
    have h := processValues_push rows 0 0
      { k_vals := [], v_to_h_vals := [], aImp_vals := [], wProp_vals := [] }
    simp only [Nat.cast_zero, mul_zero, zero_add, List.nil_append] at h
    simp [ProcessLine, h]
  rcases hv with hv | ⟨h2, h1, h3, h4⟩
  · exact hpush v hv
  · by_cases hn : rows.length = 0
    · have e1 : v.v_to_h_vals = [] := List.length_eq_zero.mp (h1.trans hn)
      have e2 : v.k_vals = [] := List.length_eq_zero.mp (h2.trans hn)
      have e3 : v.aImp_vals = [] := List.length_eq_zero.mp (h3.trans hn)
      have e4 : v.wProp_vals = [] := List.length_eq_zero.mp (h4.trans hn)
      apply hpush
      cases v
      simp_all
    · have hpos : ((rows.length : Nat) : Int) > 0 := by
        exact_mod_cast Nat.pos_of_ne_zero hn
      obtain ⟨kv, vv, av, wv⟩ := v
      have h := processValues_set (rows.length : Int) hpos rows 0
        [] [] [] [] vv kv av wv rfl rfl rfl rfl h1 h2 h3 h4
      simp only [Nat.cast_zero, mul_zero, zero_add, List.nil_append] at h
      simp only [ProcessLine]
      simp only [] at h2
      rw [h2, h]
      simp

/-- Claim C20.  For a line holding `4 * n` values `x1 .. x4n` (entry `j` of
`xs`, counted from 0, is `x(j+1)`), `ProcessLine` on empty vectors, and
likewise on vectors that all have length `n`, yields four vectors of length
`n` with `v_to_h_vals[i] = x(4i+1)`, `k_vals[i] = x(4i+2)`,
`aImp_vals[i] = x(4i+3)` and `wProp_vals[i] = x(4i+4)` for each `i < n`, and
prints no diagnostic. -/
theorem ProcessLine_column_order (xs : List ℚ) (n : Nat)
    (hlen : xs.length = 4 * n) (v : ParamVectors)
    (hv : v = { k_vals := [], v_to_h_vals := [], aImp_vals := [],
                wProp_vals := [] } ∨
      (v.k_vals.length = n ∧ v.v_to_h_vals.length = n ∧
        v.aImp_vals.length = n ∧ v.wProp_vals.length = n)) :
    (ProcessLine xs v).1.v_to_h_vals.length = n ∧
    (ProcessLine xs v).1.k_vals.length = n ∧
    (ProcessLine xs v).1.aImp_vals.length = n ∧
    (ProcessLine xs v).1.wProp_vals.length = n ∧
    (ProcessLine xs v).2 = false ∧
    ∀ i : Nat, i < n →
      (ProcessLine xs v).1.v_to_h_vals[i]? = xs[4 * i]? ∧
      (ProcessLine xs v).1.k_vals[i]? = xs[4 * i + 1]? ∧
      (ProcessLine xs v).1.aImp_vals[i]? = xs[4 * i + 2]? ∧
      (ProcessLine xs v).1.wProp_vals[i]? = xs[4 * i + 3]? := by
  obtain ⟨hline, hrows⟩ := lineOfRows_rowsOfLine n xs hlen
  have hP := ProcessLine_rows (rowsOfLine xs) v (by rw [hrows]; exact hv)
  rw [hline] at hP
  rw [hP]
  refine ⟨by simp [hrows], by simp [hrows], by simp [hrows], by simp [hrows],
    rfl, ?_⟩
  intro i _
  obtain ⟨g0, g1, g2, g3⟩ := lineOfRows_getElem? (rowsOfLine xs) i
  rw [hline] at g0 g1 g2 g3
  simp only [List.getElem?_map]
  exact ⟨g0.symm, g1.symm, g2.symm, g3.symm⟩

/-- Claim C20, worked example: a line of eight values, on empty vectors and
on vectors of length two. -/
theorem ProcessLine_column_order_witness :
    ((ProcessLine [1, 2, 3, 4, 5, 6, 7, 8]
        { k_vals := [], v_to_h_vals := [], aImp_vals := [],
          wProp_vals := [] }).1.v_to_h_vals[1]? = some 5 ∧
      (ProcessLine [1, 2, 3, 4, 5, 6, 7, 8]
        { k_vals := [], v_to_h_vals := [], aImp_vals := [],
          wProp_vals := [] }).1.k_vals[1]? = some 6 ∧
      (ProcessLine [1, 2, 3, 4, 5, 6, 7, 8]
        { k_vals := [], v_to_h_vals := [], aImp_vals := [],
          wProp_vals := [] }).1.aImp_vals[1]? = some 7 ∧
      (ProcessLine [1, 2, 3, 4, 5, 6, 7, 8]
        { k_vals := [], v_to_h_vals := [], aImp_vals := [],
          wProp_vals := [] }).1.wProp_vals[1]? = some 8) ∧
    ((ProcessLine [1, 2, 3, 4, 5, 6, 7, 8]
        { k_vals := [9, 9], v_to_h_vals := [9, 9], aImp_vals := [9, 9],
          wProp_vals := [9, 9] }).1.v_to_h_vals[0]? = some 1 ∧
      (ProcessLine [1, 2, 3, 4, 5, 6, 7, 8]
        { k_vals := [9, 9], v_to_h_vals := [9, 9], aImp_vals := [9, 9],
          wProp_vals := [9, 9] }).1.k_vals[0]? = some 2 ∧
      (ProcessLine [1, 2, 3, 4, 5, 6, 7, 8]
        { k_vals := [9, 9], v_to_h_vals := [9, 9], aImp_vals := [9, 9],
          wProp_vals := [9, 9] }).1.aImp_vals[0]? = some 3 ∧
      (ProcessLine [1, 2, 3, 4, 5, 6, 7, 8]
        { k_vals := [9, 9], v_to_h_vals := [9, 9], aImp_vals := [9, 9],
          wProp_vals := [9, 9] }).1.wProp_vals[0]? = some 4) :=
  ⟨(ProcessLine_column_order [1, 2, 3, 4, 5, 6, 7, 8] 2 rfl
      { k_vals := [], v_to_h_vals := [], aImp_vals := [], wProp_vals := [] }
      (Or.inl rfl)).2.2.2.2.2 1 (by decide),
    (ProcessLine_column_order [1, 2, 3, 4, 5, 6, 7, 8] 2 rfl
      { k_vals := [9, 9], v_to_h_vals := [9, 9], aImp_vals := [9, 9],
        wProp_vals := [9, 9] }
      (Or.inr ⟨rfl, rfl, rfl, rfl⟩)).2.2.2.2.2 0 (by decide)⟩

end Transfil

namespace Transfil

/-! ### What each block of a time step adds to a view of the trace -/

/-- One call appended to the trace, seen through a view. -/
theorem emit_filterMap {α : Type} (f : Event → Option α) (s : LoopState)
    (e : Event) :
    (s.emit e).trace.filterMap f = s.trace.filterMap f ++ (f e).toList := by
  cases h : f e <;> simp [LoopState.emit, List.filterMap_append, h]

theorem refreshParams_filterMap {α : Type} (f : Event → Option α)
    (h1 : ∀ k, f (Event.updateKVal k) = none)
    (h2 : ∀ v, f (Event.updateVtoH v) = none)
    (cfg : Settings) (t : Int) (s : LoopState) :
    (refreshParams cfg t s).trace.filterMap f = s.trace.filterMap f := by
  unfold refreshParams
  simp only []
  split_ifs <;> simp [emit_filterMap, h1, h2]

theorem emptySurveyRecords_filterMap {α : Type} (f : Event → Option α)
    (h1 : ∀ y l, f (Event.writeEmptySurvey y l) = none)
    (h2 : ∀ u, f (Event.writeNumberByAge u SurveyLabel.preTASSurvey) = none)
    (h3 : ∀ u, f (Event.writeNumberByAge u SurveyLabel.TASSurvey) = none)
    (cfg : Settings) (t : Int) (s : LoopState) :
    (emptySurveyRecords cfg t s).trace.filterMap f = s.trace.filterMap f := by
  unfold emptySurveyRecords
  simp only []
  split_ifs <;> simp [emit_filterMap, h1, h2, h3]

theorem evolveStep_filterMap {α : Type} (f : Event → Option α)
    (h1 : f Event.getPrevalence = none)
    (sc : Scenario) (dt : ℚ) (t : Int) (s : LoopState) :
    (evolveStep sc dt t s).trace.filterMap f =
      s.trace.filterMap f ++ (f (Event.evolve dt)).toList ++
        (f Event.updateL3Density).toList := by
  unfold evolveStep
  simp only []
  split_ifs <;> simp [emit_filterMap, h1]

theorem preTASBlock_filterMap {α : Type} (f : Event → Option α)
    (h1 : ∀ u, f (Event.PreTASSurvey u) = none)
    (h2 : ∀ u, f (Event.writeNumberByAge u SurveyLabel.preTASSurvey) = none)
    (cfg : Settings) (o : Oracle) (t : Int) (s : LoopState) :
    (preTASBlock cfg o t s).trace.filterMap f = s.trace.filterMap f := by
  by_cases hd : t = s.popln.preTASSurveyTime
  · by_cases hp : o.PreTASSurvey t = 1 <;>
      by_cases hw : cfg.outputEndgame = 1 ∧ t ≥ endgameStartMonth cfg <;>
      simp [preTASBlock, ← hd, hp, hw, LoopState.emit, List.filterMap_append,
        h1, h2]
  · rw [preTASBlock_of_not_due cfg o t s hd]

theorem TASBlock_filterMap {α : Type} (f : Event → Option α)
    (h1 : ∀ u, f (Event.TASSurvey u) = none)
    (h2 : ∀ u, f (Event.writeNumberByAge u SurveyLabel.TASSurvey) = none)
    (cfg : Settings) (o : Oracle) (t : Int) (s : LoopState) :
    (TASBlock cfg o t s).trace.filterMap f = s.trace.filterMap f := by
  by_cases hd : t = s.popln.TASSurveyTime
  · by_cases h0 : o.TASSurvey t = 0 <;>
      by_cases h3 : s.popln.TAS_Pass + o.TASSurvey t = neededTASPass <;>
      by_cases hl : s.popln.TAS_Pass + o.TASSurvey t < neededTASPass <;>
      by_cases hw : cfg.outputEndgame = 1 ∧ t ≥ endgameStartMonth cfg <;>
      by_cases hv : s.loc.vec_control = 0 <;>
      simp [TASBlock, ← hd, h0, h3, hl, hw, hv, LoopState.emit,
        List.filterMap_append, h1, h2]
  · rw [TASBlock_of_not_due cfg o t s hd]

theorem treatmentProbabilities_filterMap {α : Type} (f : Event → Option α)
    (h1 : ∀ a b, f (Event.initPTreat a b) = none)
    (h2 : ∀ a b, f (Event.checkForZeroPTreat a b) = none)
    (h3 : ∀ a b, f (Event.editPTreat a b) = none)
    (cfg : Settings) (mda : MDAEvent) (t : Int) (s : LoopState) :
    (treatmentProbabilities cfg mda t s).trace.filterMap f =
      s.trace.filterMap f := by
  unfold treatmentProbabilities
  simp only []
  split_ifs <;> simp [LoopState.emit, List.filterMap_append, h1, h2, h3]

theorem lowPrevalenceCheck_filterMap {α : Type} (f : Event → Option α)
    (h1 : ∀ u, f (Event.getMFPrev MFSite.lowMFCheck u) = none)
    (o : Oracle) (t : Int) (s : LoopState) :
    (lowPrevalenceCheck o t s).trace.filterMap f = s.trace.filterMap f := by
  unfold lowPrevalenceCheck
  simp only []
  split_ifs <;> simp [LoopState.emit, List.filterMap_append, h1]

theorem applyRound_filterMap {α : Type} (f : Event → Option α)
    (h1 : ∀ u, f (Event.getMFPrev MFSite.beforeMDA u) = none)
    (h2 : ∀ u r d, f (Event.ApplyTreatmentUpdated u r d) = none)
    (o : Oracle) (t : Int) (s : LoopState) :
    (applyRound o t s).trace.filterMap f = s.trace.filterMap f := by
  by_cases hy : Int.tdiv t 12 + 2000 = s.loc.previousMDAyear <;>
    by_cases hn : s.popln.totMDAs + 1 = s.popln.firstTASNumMDA <;>
    simp [applyRound, LoopState.emit, hy, hn, List.filterMap_append, h1, h2]

theorem MDABlock_filterMap {α : Type} (f : Event → Option α)
    (h1 : ∀ a b, f (Event.initPTreat a b) = none)
    (h2 : ∀ a b, f (Event.checkForZeroPTreat a b) = none)
    (h3 : ∀ a b, f (Event.editPTreat a b) = none)
    (h4 : ∀ u, f (Event.getMFPrev MFSite.lowMFCheck u) = none)
    (h5 : ∀ u, f (Event.getMFPrev MFSite.beforeMDA u) = none)
    (h6 : ∀ u r d, f (Event.ApplyTreatmentUpdated u r d) = none)
    (cfg : Settings) (sc : Scenario) (o : Oracle) (t : Int) (s : LoopState) :
    (MDABlock cfg sc o t s).trace.filterMap f = s.trace.filterMap f := by
  unfold MDABlock
  cases sc.treatmentDue t with
  | none => rfl
  | some mda =>
    simp only []
    rw [applyRound_filterMap f h5 h6, lowPrevalenceCheck_filterMap f h4,
      treatmentProbabilities_filterMap f h1 h2 h3]

theorem policySwitches_filterMap {α : Type} (f : Event → Option α)
    (h1 : f Event.neverTreatToOriginal = none)
    (h2 : f Event.changeNeverTreat = none)
    (h3 : f Event.ICTestToOriginal = none)
    (h4 : f Event.changeICTest = none)
    (sc : Scenario) (t : Int) (s : LoopState) :
    (policySwitches sc t s).trace.filterMap f = s.trace.filterMap f := by
  unfold policySwitches
  simp only []
  split_ifs <;> simp [emit_filterMap, h1, h2, h3, h4]

theorem saveObservation_filterMap {α : Type} (f : Event → Option α)
    (h1 : ∀ u, f (Event.saveMonth u) = none)
    (sc : Scenario) (t : Int) (s : LoopState) :
    (saveObservation sc t s).trace.filterMap f = s.trace.filterMap f := by
  unfold saveObservation
  split_ifs <;> simp [emit_filterMap, h1]

end Transfil

namespace Transfil

theorem annualRecords_filterMap {α : Type} (f : Event → Option α)
    (cfg : Settings) (t : Int) (s : LoopState) :
    (annualRecords cfg t s).trace.filterMap f =
      s.trace.filterMap f ++
        (if Int.tmod t 12 = 0 ∧ cfg.outputEndgame = 1 ∧
            t ≥ endgameStartMonth cfg then
          (f (Event.writePrevByAge t)).toList ++
            (f (Event.writeNumberByAge t SurveyLabel.notSurvey)).toList ++
            (f (Event.writeSequelaeByAge t)).toList ++
            (f (Event.getIncidence t)).toList ++
            (f (Event.writeSurveyByAge t s.popln.preTAS_Pass
              s.popln.TAS_Pass)).toList
        else
          []) := by
  unfold annualRecords
  split_ifs <;> simp [emit_filterMap]

theorem roadmapRecord_filterMap {α : Type} (f : Event → Option α)
    (cfg : Settings) (t : Int) (s : LoopState) :
    (roadmapRecord cfg t s).trace.filterMap f =
      s.trace.filterMap f ++
        (if Int.tmod t 12 = 0 ∧ cfg.outputNTDMC = true ∧
            t ≥ outputNTDMCDateFromYear cfg then
          (f (Event.writeRoadmapTarget t s.popln.DoMDA s.popln.TAS_Pass
            neededTASPass)).toList
        else
          []) := by
  unfold roadmapRecord
  split_ifs <;> simp [emit_filterMap]

theorem scenarioUpdates_filterMap {α : Type} (f : Event → Option α)
    (cfg : Settings) (t : Int) (s : LoopState) :
    (scenarioUpdates cfg t s).trace.filterMap f =
      s.trace.filterMap f ++
        (if (!shouldReduceImportationViaPrevalance cfg.reduceImpViaXml t
              s.popln.switchImportationReducingMethodTime) = true ∧
            Int.tmod t 12 = 0 then
          (f (Event.updateImportationRate t)).toList
        else
          []) ++
        (f (Event.updateBedNetCoverage t)).toList := by
  unfold scenarioUpdates
  simp only []
  split_ifs <;> simp [emit_filterMap]

theorem importationViaPrevalence_filterMap {α : Type} (f : Event → Option α)
    (h1 : ∀ u, f (Event.getMFPrev MFSite.afterMDAOld u) = none)
    (cfg : Settings) (o : Oracle) (t : Int) (s : LoopState) :
    (importationViaPrevalence cfg o t s).trace.filterMap f =
      s.trace.filterMap f ++
        (if shouldReduceImportationViaPrevalance cfg.reduceImpViaXml t
              s.popln.switchImportationReducingMethodTime = true ∧
            t = s.loc.time_to_reduce_importation_rate then
          (f (Event.getMFPrev MFSite.afterMDANew t)).toList
        else
          []) := by
  unfold importationViaPrevalence
  simp only []
  split_ifs <;>
    cases hf : f (Event.getMFPrev MFSite.afterMDANew t) <;>
    simp [LoopState.emit, List.filterMap_append, List.filterMap_cons, h1, hf]

/-- The scheduled annual emissions added by one time step. -/
theorem step_scheduledRecords (cfg : Settings) (sc : Scenario) (o : Oracle)
    (dt : ℚ) (t : Int) (s : LoopState) :
    scheduledRecords (step cfg sc o dt t s).trace =
      scheduledRecords s.trace ++ scheduledAt cfg t := by
  unfold scheduledRecords step
  simp only []
  rw [saveObservation_filterMap _ (fun _ => rfl),
    policySwitches_filterMap _ rfl rfl rfl rfl, importationViaPrevalence_filterMap _ (fun _ => rfl),
    MDABlock_filterMap _ (fun _ _ => rfl) (fun _ _ => rfl) (fun _ _ => rfl)
      (fun _ => rfl) (fun _ => rfl) (fun _ _ _ => rfl),
    TASBlock_filterMap _ (fun _ => rfl) (fun _ => rfl),
    preTASBlock_filterMap _ (fun _ => rfl) (fun _ => rfl),
    evolveStep_filterMap _ rfl,
    scenarioUpdates_filterMap,
    emptySurveyRecords_filterMap _ (fun _ _ => rfl) (fun _ => rfl)
      (fun _ => rfl),
    roadmapRecord_filterMap, annualRecords_filterMap,
    refreshParams_filterMap _ (fun _ => rfl) (fun _ => rfl)]
  unfold scheduledAt
  split_ifs <;> simp [scheduleView]

/-- The month marker added by one time step. -/
theorem step_monthsStepped (cfg : Settings) (sc : Scenario) (o : Oracle)
    (dt : ℚ) (t : Int) (s : LoopState) :
    monthsStepped (step cfg sc o dt t s).trace = monthsStepped s.trace ++ [t] := by
  unfold monthsStepped step
  simp only []
  rw [saveObservation_filterMap _ (fun _ => rfl),
    policySwitches_filterMap _ rfl rfl rfl rfl, importationViaPrevalence_filterMap _ (fun _ => rfl),
    MDABlock_filterMap _ (fun _ _ => rfl) (fun _ _ => rfl) (fun _ _ => rfl)
      (fun _ => rfl) (fun _ => rfl) (fun _ _ _ => rfl),
    TASBlock_filterMap _ (fun _ => rfl) (fun _ => rfl),
    preTASBlock_filterMap _ (fun _ => rfl) (fun _ => rfl),
    evolveStep_filterMap _ rfl,
    scenarioUpdates_filterMap,
    emptySurveyRecords_filterMap _ (fun _ _ => rfl) (fun _ => rfl)
      (fun _ => rfl),
    roadmapRecord_filterMap, annualRecords_filterMap,
    refreshParams_filterMap _ (fun _ => rfl) (fun _ => rfl)]
  split_ifs <;> simp

/-- The biological calls added by one time step: one `evolve(dt)` followed
by one larval-density update. -/
theorem step_biologyEvents (cfg : Settings) (sc : Scenario) (o : Oracle)
    (dt : ℚ) (t : Int) (s : LoopState) :
    biologyEvents (step cfg sc o dt t s).trace =
      biologyEvents s.trace ++ [Event.evolve dt, Event.updateL3Density] := by
  unfold biologyEvents step
  simp only []
  rw [saveObservation_filterMap _ (fun _ => rfl),
    policySwitches_filterMap _ rfl rfl rfl rfl, importationViaPrevalence_filterMap _ (fun _ => rfl),
    MDABlock_filterMap _ (fun _ _ => rfl) (fun _ _ => rfl) (fun _ _ => rfl)
      (fun _ => rfl) (fun _ => rfl) (fun _ _ _ => rfl),
    TASBlock_filterMap _ (fun _ => rfl) (fun _ => rfl),
    preTASBlock_filterMap _ (fun _ => rfl) (fun _ => rfl),
    evolveStep_filterMap _ rfl,
    scenarioUpdates_filterMap,
    emptySurveyRecords_filterMap _ (fun _ _ => rfl) (fun _ => rfl)
      (fun _ => rfl),
    roadmapRecord_filterMap, annualRecords_filterMap,
    refreshParams_filterMap _ (fun _ => rfl) (fun _ => rfl)]
  split_ifs <;> simp

end Transfil

namespace Transfil

/-! ### Fields that the survey and intervention blocks keep -/

/-- The pre-TAS block keeps the round counter, the importation amplitude
and the method-switch time. -/
theorem preTASBlock_keeps (cfg : Settings) (o : Oracle) (t : Int)
    (s : LoopState) :
    (preTASBlock cfg o t s).popln.totMDAs = s.popln.totMDAs ∧
    (preTASBlock cfg o t s).popln.aImp = s.popln.aImp ∧
    (preTASBlock cfg o t s).popln.switchImportationReducingMethodTime =
      s.popln.switchImportationReducingMethodTime := by
  by_cases hd : t = s.popln.preTASSurveyTime
  · by_cases hp : o.PreTASSurvey t = 1 <;>
      by_cases hw : cfg.outputEndgame = 1 ∧ t ≥ endgameStartMonth cfg <;>
      simp [preTASBlock, ← hd, hp, hw, LoopState.emit]
  · rw [preTASBlock_of_not_due cfg o t s hd]
    simp

/-- The TAS block keeps the round counter, the importation amplitude and
the method-switch time. -/
theorem TASBlock_keeps (cfg : Settings) (o : Oracle) (t : Int)
    (s : LoopState) :
    (TASBlock cfg o t s).popln.totMDAs = s.popln.totMDAs ∧
    (TASBlock cfg o t s).popln.aImp = s.popln.aImp ∧
    (TASBlock cfg o t s).popln.switchImportationReducingMethodTime =
      s.popln.switchImportationReducingMethodTime := by
  by_cases hd : t = s.popln.TASSurveyTime
  · by_cases h0 : o.TASSurvey t = 0 <;>
      by_cases h3 : s.popln.TAS_Pass + o.TASSurvey t = neededTASPass <;>
      by_cases hl : s.popln.TAS_Pass + o.TASSurvey t < neededTASPass <;>
      by_cases hw : cfg.outputEndgame = 1 ∧ t ≥ endgameStartMonth cfg <;>
      by_cases hv : s.loc.vec_control = 0 <;>
      simp [TASBlock, ← hd, h0, h3, hl, hw, hv, LoopState.emit]
  · rw [TASBlock_of_not_due cfg o t s hd]
    simp

/-- The intervention block counts the round when one is due and keeps
the importation amplitude and the method-switch time. -/
theorem MDABlock_keeps (cfg : Settings) (sc : Scenario) (o : Oracle)
    (t : Int) (s : LoopState) :
    (MDABlock cfg sc o t s).popln.totMDAs =
      s.popln.totMDAs + (if (sc.treatmentDue t).isSome = true then 1 else 0) ∧
    (MDABlock cfg sc o t s).popln.aImp = s.popln.aImp ∧
    (MDABlock cfg sc o t s).popln.switchImportationReducingMethodTime =
      s.popln.switchImportationReducingMethodTime := by
  unfold MDABlock
  cases hdue : sc.treatmentDue t with
  | none => simp
  | some mda =>
    have h1 : (treatmentProbabilities cfg mda t s).popln.aImp = s.popln.aImp ∧
        (treatmentProbabilities cfg mda t s).popln.switchImportationReducingMethodTime =
          s.popln.switchImportationReducingMethodTime := by
      unfold treatmentProbabilities
      simp only []
      split_ifs <;> simp [LoopState.emit]
    have h2 : ∀ u : LoopState,
        (lowPrevalenceCheck o t u).popln.aImp = u.popln.aImp ∧
        (lowPrevalenceCheck o t u).popln.switchImportationReducingMethodTime =
          u.popln.switchImportationReducingMethodTime := by
      intro u
      unfold lowPrevalenceCheck
      simp only []
      split_ifs <;> simp [LoopState.emit]
    have h3 : ∀ u : LoopState,
        (applyRound o t u).popln.aImp = u.popln.aImp ∧
        (applyRound o t u).popln.switchImportationReducingMethodTime =
          u.popln.switchImportationReducingMethodTime := by
      intro u
      by_cases hy : Int.tdiv t 12 + 2000 = u.loc.previousMDAyear <;>
        by_cases hn : u.popln.totMDAs + 1 = u.popln.firstTASNumMDA <;>
        simp [applyRound, LoopState.emit, hy, hn]
    obtain ⟨-, -, -, ht1, -, -, -, -⟩ :=
      treatmentProbabilities_fields cfg mda t s
    obtain ⟨-, -, ht2, -, -⟩ :=
      lowPrevalenceCheck_fields o t (treatmentProbabilities cfg mda t s)
    obtain ⟨ht3, -, -, -, -⟩ := applyRound_fields o t
      (lowPrevalenceCheck o t (treatmentProbabilities cfg mda t s))
    simp only [Option.isSome_some, if_true]
    refine ⟨?_, ?_, ?_⟩
    · rw [ht3, ht2, ht1]
    · rw [(h3 _).1, (h2 _).1, h1.1]
    · rw [(h3 _).2, (h2 _).2, h1.2]

/-- The prevalence-driven adjustment keeps the method-switch time, and
keeps the amplitude when the selector does not choose it. -/
theorem importationViaPrevalence_keeps (cfg : Settings) (o : Oracle)
    (t : Int) (s : LoopState) :
    (importationViaPrevalence cfg o t s).popln.switchImportationReducingMethodTime =
      s.popln.switchImportationReducingMethodTime ∧
    (shouldReduceImportationViaPrevalance cfg.reduceImpViaXml t
        s.popln.switchImportationReducingMethodTime = false →
      (importationViaPrevalence cfg o t s).popln.aImp = s.popln.aImp) := by
  constructor
  · unfold importationViaPrevalence
    simp only []
    split_ifs <;> simp [LoopState.emit]
  · intro h
    simp [importationViaPrevalence, h]

/-- The state in which the prevalence-driven adjustment of month `t` is
reached has the round counter increased by the due round, and the amplitude
and method-switch time the step started with. -/
theorem popln_before_adjustment (cfg : Settings) (sc : Scenario) (o : Oracle)
    (dt : ℚ) (t : Int) (s : LoopState) :
    (MDABlock cfg sc o t (TASBlock cfg o t (preTASBlock cfg o t
      (evolveStep sc dt t (scenarioUpdates cfg t (emptySurveyRecords cfg t
        (roadmapRecord cfg t (annualRecords cfg t
          (refreshParams cfg t s))))))))).popln.totMDAs =
      s.popln.totMDAs + (if (sc.treatmentDue t).isSome = true then 1 else 0) ∧
    (MDABlock cfg sc o t (TASBlock cfg o t (preTASBlock cfg o t
      (evolveStep sc dt t (scenarioUpdates cfg t (emptySurveyRecords cfg t
        (roadmapRecord cfg t (annualRecords cfg t
          (refreshParams cfg t s))))))))).popln.aImp = s.popln.aImp ∧
    (MDABlock cfg sc o t (TASBlock cfg o t (preTASBlock cfg o t
      (evolveStep sc dt t (scenarioUpdates cfg t (emptySurveyRecords cfg t
        (roadmapRecord cfg t (annualRecords cfg t
          (refreshParams cfg t s))))))))).popln.switchImportationReducingMethodTime =
      s.popln.switchImportationReducingMethodTime := by
  have h6 := popln_before_surveys cfg sc dt t s
  obtain ⟨a1, a2, a3⟩ := preTASBlock_keeps cfg o t
    (evolveStep sc dt t (scenarioUpdates cfg t (emptySurveyRecords cfg t
      (roadmapRecord cfg t (annualRecords cfg t (refreshParams cfg t s))))))
  obtain ⟨b1, b2, b3⟩ := TASBlock_keeps cfg o t (preTASBlock cfg o t
    (evolveStep sc dt t (scenarioUpdates cfg t (emptySurveyRecords cfg t
      (roadmapRecord cfg t (annualRecords cfg t (refreshParams cfg t s)))))))
  obtain ⟨c1, c2, c3⟩ := MDABlock_keeps cfg sc o t (TASBlock cfg o t
    (preTASBlock cfg o t
      (evolveStep sc dt t (scenarioUpdates cfg t (emptySurveyRecords cfg t
        (roadmapRecord cfg t (annualRecords cfg t
          (refreshParams cfg t s))))))))
  refine ⟨?_, ?_, ?_⟩
  · rw [c1, b1, a1, h6]
  · rw [c2, b2, a2, h6]
  · rw [c3, b3, a3, h6]

/-- One time step counts the round when one is due. -/
theorem step_totMDAs (cfg : Settings) (sc : Scenario) (o : Oracle) (dt : ℚ)
    (t : Int) (s : LoopState) :
    (step cfg sc o dt t s).popln.totMDAs =
      s.popln.totMDAs +
        (if (sc.treatmentDue t).isSome = true then 1 else 0) := by
  obtain ⟨h, -, -⟩ := popln_before_adjustment cfg sc o dt t s
  obtain ⟨-, -, -, hi, -⟩ := importationViaPrevalence_fields cfg o t
    (MDABlock cfg sc o t (TASBlock cfg o t (preTASBlock cfg o t
      (evolveStep sc dt t (scenarioUpdates cfg t (emptySurveyRecords cfg t
        (roadmapRecord cfg t (annualRecords cfg t
          (refreshParams cfg t s)))))))))
  simp only [step, saveObservation_popln, policySwitches_popln]
  rw [hi, h]

end Transfil

namespace Transfil

/-! ### The time-step loop, seen through the views -/

/-- What a finished loop adds to the views of the trace and to the round
counter, month by month of the loop header. -/
theorem timeLoop_views (cfg : Settings) (sc : Scenario) (o : Oracle)
    (dt : ℚ) (target : Int) :
    ∀ (fuel : Nat) (t : Int) (s s1 : LoopState),
      timeLoop cfg sc o dt target fuel t s = some s1 →
        monthsStepped s1.trace =
          monthsStepped s.trace ++ loopMonths dt target fuel t ∧
        scheduledRecords s1.trace =
          scheduledRecords s.trace ++
            (loopMonths dt target fuel t).flatMap (scheduledAt cfg) ∧
        biologyEvents s1.trace =
          biologyEvents s.trace ++
            (loopMonths dt target fuel t).flatMap
              (fun _ => [Event.evolve dt, Event.updateL3Density]) ∧
        s1.popln.totMDAs =
          s.popln.totMDAs +
            (((loopMonths dt target fuel t).filter
              (fun u => (sc.treatmentDue u).isSome)).length : Int) := by
  intro fuel
  induction fuel with
  | zero =>
    intro t s s1 h
    unfold timeLoop at h
    split_ifs at h
    injection h with h
    subst h
    simp [loopMonths]
  | succ n ih =>
    intro t s s1 h
    unfold timeLoop at h
    split_ifs at h with hlt
    · obtain ⟨h1, h2, h3, h4⟩ := ih _ _ _ h
      rw [h1, h2, h3, h4, step_monthsStepped, step_scheduledRecords,
        step_biologyEvents, step_totMDAs]
      simp only [loopMonths, hlt, if_true, List.flatMap_cons,
        List.append_assoc, List.singleton_append, List.filter_cons]
      refine ⟨trivial, trivial, trivial, ?_⟩
      split_ifs <;> first | (simp; done) | (simp; omega)
    · injection h with h
      subst h
      simp [loopMonths, hlt]

/-- Whether the loop finishes within `fuel` iterations depends on the
header only, and so do the scheduled records it adds. -/
theorem timeLoop_scheduledRecords_eq (cfg1 cfg2 : Settings)
    (sc1 sc2 : Scenario) (o1 o2 : Oracle) (dt : ℚ) (target : Int)
    (hcfg : ∀ t, scheduledAt cfg1 t = scheduledAt cfg2 t) :
    ∀ (fuel : Nat) (t : Int) (s1 s2 : LoopState),
      scheduledRecords s1.trace = scheduledRecords s2.trace →
        (timeLoop cfg1 sc1 o1 dt target fuel t s1).map
            (fun s => scheduledRecords s.trace) =
          (timeLoop cfg2 sc2 o2 dt target fuel t s2).map
            (fun s => scheduledRecords s.trace) := by
  intro fuel
  induction fuel with
  | zero =>
    intro t s1 s2 h
    unfold timeLoop
    split_ifs <;> simp [h]
  | succ n ih =>
    intro t s1 s2 h
    unfold timeLoop
    split_ifs
    · apply ih
      rw [step_scheduledRecords, step_scheduledRecords, h, hcfg]
    · simp [h]

/-- The start of `evolveAndSave` adds no scheduled record and keeps the
round counter. -/
theorem enterEvolveAndSave_views (cfg : Settings) (o : Oracle) (y : Int)
    (m : ModelState) :
    scheduledRecords (enterEvolveAndSave cfg o y m).trace =
        scheduledRecords m.trace ∧
    monthsStepped (enterEvolveAndSave cfg o y m).trace =
        monthsStepped m.trace ∧
    (enterEvolveAndSave cfg o y m).popln.totMDAs = m.popln.totMDAs := by
  unfold enterEvolveAndSave
  simp only []
  split_ifs <;>
    simp [scheduledRecords, monthsStepped, LoopState.emit,
      List.filterMap_append, scheduleView]

/-- The end of `evolveAndSave` adds no scheduled record and keeps the
round counter. -/
theorem leaveEvolveAndSave_views (sc : Scenario) (y : Int) (dt : ℚ)
    (target : Int) (s : LoopState) :
    scheduledRecords (leaveEvolveAndSave sc y dt target s).trace =
        scheduledRecords s.trace ∧
    monthsStepped (leaveEvolveAndSave sc y dt target s).trace =
        monthsStepped s.trace ∧
    (leaveEvolveAndSave sc y dt target s).popln.totMDAs = s.popln.totMDAs := by
  unfold leaveEvolveAndSave
  simp only []
  split_ifs <;>
    simp [scheduledRecords, monthsStepped, LoopState.emit,
      List.filterMap_append, scheduleView]

end Transfil

namespace Transfil

/-- Claim C21.  Two calls of `evolveAndSave` with the same output settings,
current month, time step and target month add the same scheduled annual
emissions (annual age-stratified records and roadmap-target record, by
month), whatever their scenarios' events, survey outcomes, survey months,
`DoMDA` and other population fields are; a call that returns adds, for
each month its loop visits in order, exactly one of each annual record when
the month is a reporting year start and exactly one roadmap-target record
when it is a roadmap year start (`scheduledAt`); and with a time step of at
least one month and `targetMonth - currentMonth` iterations allowed both
calls do return, with these records emitted. -/
theorem scheduled_emissions_schedule_only (cfg1 cfg2 : Settings)
    (sc1 sc2 : Scenario) (o1 o2 : Oracle) (y : Int) (fuel : Nat)
    (m1 m2 : ModelState)
    (he : cfg1.outputEndgame = cfg2.outputEndgame)
    (hed : cfg1.outputEndgameDate = cfg2.outputEndgameDate)
    (hn : cfg1.outputNTDMC = cfg2.outputNTDMC)
    (hnd : cfg1.outputNTDMCDate = cfg2.outputNTDMCDate)
    (hmonth : m1.currentMonth = m2.currentMonth) (hdt : m1.dt = m2.dt)
    (htarget : sc1.monthToSave y = sc2.monthToSave y)
    (htrace : scheduledRecords m1.trace = scheduledRecords m2.trace) :
    (evolveAndSave cfg1 sc1 o1 y fuel m1).map
        (fun m => scheduledRecords m.trace) =
      (evolveAndSave cfg2 sc2 o2 y fuel m2).map
        (fun m => scheduledRecords m.trace) ∧
    (∀ r : ModelState, evolveAndSave cfg1 sc1 o1 y fuel m1 = some r →
      scheduledRecords r.trace =
        scheduledRecords m1.trace ++
          (loopMonths m1.dt (sc1.monthToSave y) fuel m1.currentMonth).flatMap
            (scheduledAt cfg1)) ∧
    (1 ≤ m1.dt → sc1.monthToSave y - m1.currentMonth ≤ (fuel : Int) →
      ∃ r1 r2 : ModelState,
        evolveAndSave cfg1 sc1 o1 y fuel m1 = some r1 ∧
        evolveAndSave cfg2 sc2 o2 y fuel m2 = some r2 ∧
        scheduledRecords r1.trace = scheduledRecords r2.trace ∧
        scheduledRecords r1.trace =
          scheduledRecords m1.trace ++
            (loopMonths m1.dt (sc1.monthToSave y) fuel
              m1.currentMonth).flatMap (scheduledAt cfg1)) := by
  have hcfg : ∀ t, scheduledAt cfg1 t = scheduledAt cfg2 t := by
    intro t
    simp [scheduledAt, endgameStartMonth, outputNTDMCDateFromYear, he, hed,
      hn, hnd]
  have hopt : (evolveAndSave cfg1 sc1 o1 y fuel m1).map
        (fun m => scheduledRecords m.trace) =
      (evolveAndSave cfg2 sc2 o2 y fuel m2).map
        (fun m => scheduledRecords m.trace) := by
    have h := timeLoop_scheduledRecords_eq cfg1 cfg2 sc1 sc2 o1 o2 m1.dt
      (sc1.monthToSave y) hcfg fuel m1.currentMonth
      (enterEvolveAndSave cfg1 o1 y m1) (enterEvolveAndSave cfg2 o2 y m2)
      (by rw [(enterEvolveAndSave_views cfg1 o1 y m1).1,
        (enterEvolveAndSave_views cfg2 o2 y m2).1, htrace])
    unfold evolveAndSave
    simp only []
    rw [← htarget, ← hmonth, ← hdt]
    cases h1 : timeLoop cfg1 sc1 o1 m1.dt (sc1.monthToSave y) fuel
        m1.currentMonth (enterEvolveAndSave cfg1 o1 y m1) <;>
      cases h2 : timeLoop cfg2 sc2 o2 m1.dt (sc1.monthToSave y) fuel
        m1.currentMonth (enterEvolveAndSave cfg2 o2 y m2) <;>
      simp [h1, h2] at h ⊢
    rw [(leaveEvolveAndSave_views _ _ _ _ _).1,
      (leaveEvolveAndSave_views _ _ _ _ _).1, h]
  have hret : ∀ r : ModelState, evolveAndSave cfg1 sc1 o1 y fuel m1 = some r →
      scheduledRecords r.trace =
        scheduledRecords m1.trace ++
          (loopMonths m1.dt (sc1.monthToSave y) fuel m1.currentMonth).flatMap
            (scheduledAt cfg1) := by
    intro r hr
    unfold evolveAndSave at hr
    simp only [] at hr
    split at hr
    · rename_i s hs
      injection hr with hr
      obtain ⟨-, h2, -, -⟩ := timeLoop_views cfg1 sc1 o1 m1.dt
        (sc1.monthToSave y) fuel m1.currentMonth _ s hs
      rw [← hr, (leaveEvolveAndSave_views _ _ _ _ _).1, h2,
        (enterEvolveAndSave_views cfg1 o1 y m1).1]
    · exact absurd hr (by simp)
  refine ⟨hopt, hret, ?_⟩
  intro hdt1 hfuel
  have hs1 := timeLoop_isSome cfg1 sc1 o1 hdt1 (sc1.monthToSave y) fuel
    m1.currentMonth (enterEvolveAndSave cfg1 o1 y m1) hfuel
  have hs2 := timeLoop_isSome cfg2 sc2 o2 (hdt ▸ hdt1) (sc2.monthToSave y)
    fuel m2.currentMonth (enterEvolveAndSave cfg2 o2 y m2)
    (by rw [← htarget, ← hmonth]; exact hfuel)
  obtain ⟨s1, e1⟩ := Option.isSome_iff_exists.mp hs1
  obtain ⟨s2, e2⟩ := Option.isSome_iff_exists.mp hs2
  have r1 : evolveAndSave cfg1 sc1 o1 y fuel m1 =
      some (leaveEvolveAndSave sc1 y m1.dt (sc1.monthToSave y) s1) := by
    unfold evolveAndSave
    simp only [e1]
  have r2 : evolveAndSave cfg2 sc2 o2 y fuel m2 =
      some (leaveEvolveAndSave sc2 y m2.dt (sc2.monthToSave y) s2) := by
    unfold evolveAndSave
    simp only [e2]
  refine ⟨_, _, r1, r2, ?_, hret _ r1⟩
  have := hopt
  rw [r1, r2] at this
  simpa using this

set_option maxRecDepth 1000000 in
/-- Claim C21, worked example: a run with one round at month 5 and failing
surveys and a run with rounds at months 0 and 12, passing surveys and the
low-prevalence policy, over the months 0 to 23.  Both return, and both emit
the five annual records at month 0 and at month 12 (no roadmap-target
record: the NTDMC output is off). -/
theorem scheduled_emissions_schedule_only_witness :
    ∃ r1 r2 : ModelState,
      evolveAndSave sampleSettings (sampleScenario 5 [24])
        (sampleOracle [] []) 0 100 (sampleModel 1 24) = some r1 ∧
      evolveAndSave sampleSettings (sampleScenarioRounds [0, 12] [24])
        (sampleOracle [6, 30] []) 0 100 lowPrevalenceModel = some r2 ∧
      scheduledRecords r1.trace = scheduledRecords r2.trace ∧
      scheduledRecords r1.trace =
        [Event.writePrevByAge 0,
          Event.writeNumberByAge 0 SurveyLabel.notSurvey,
          Event.writeSequelaeByAge 0, Event.getIncidence 0,
          Event.writeSurveyByAge 0 0 0,
          Event.writePrevByAge 12,
          Event.writeNumberByAge 12 SurveyLabel.notSurvey,
          Event.writeSequelaeByAge 12, Event.getIncidence 12,
          Event.writeSurveyByAge 12 0 0] := by
  obtain ⟨r1, r2, h1, h2, h3, h4⟩ :=
    (scheduled_emissions_schedule_only sampleSettings sampleSettings
      (sampleScenario 5 [24]) (sampleScenarioRounds [0, 12] [24])
      (sampleOracle [] []) (sampleOracle [6, 30] []) 0 100 (sampleModel 1 24)
      lowPrevalenceModel rfl rfl rfl rfl rfl rfl rfl rfl).2.2 (by decide!)
      (by decide)
  refine ⟨r1, r2, h1, h2, h3, ?_⟩
  rw [h4]
  decide!

/-- Claim C22.  Every time step in which an intervention is due increases
`totMDAs` by exactly 1, whatever `DoMDA` is, and a step without a due
intervention leaves it; so a call of `evolveAndSave` that returns has
increased `totMDAs` by the number of months visited by its loop (the months
of its time steps) at which an intervention is due. -/
theorem totMDAs_counts_due_rounds (cfg : Settings) (sc : Scenario)
    (o : Oracle) :
    (∀ (dt : ℚ) (t : Int) (s : LoopState),
      (step cfg sc o dt t s).popln.totMDAs =
        s.popln.totMDAs +
          (if (sc.treatmentDue t).isSome = true then 1 else 0)) ∧
    (∀ (y : Int) (fuel : Nat) (m m1 : ModelState),
      evolveAndSave cfg sc o y fuel m = some m1 →
        m1.popln.totMDAs =
          m.popln.totMDAs +
            (((loopMonths m.dt (sc.monthToSave y) fuel m.currentMonth).filter
              (fun u => (sc.treatmentDue u).isSome)).length : Int) ∧
        monthsStepped m1.trace =
          monthsStepped m.trace ++
            loopMonths m.dt (sc.monthToSave y) fuel m.currentMonth) := by
  refine ⟨step_totMDAs cfg sc o, ?_⟩
  intro y fuel m m1 h
  unfold evolveAndSave at h
  simp only [] at h
  split at h
  · rename_i s hs
    injection h with h
    obtain ⟨h1, -, -, h4⟩ := timeLoop_views cfg sc o m.dt (sc.monthToSave y)
      fuel m.currentMonth _ s hs
    obtain ⟨-, e2, e3⟩ := enterEvolveAndSave_views cfg o y m
    obtain ⟨-, l2, l3⟩ := leaveEvolveAndSave_views sc y m.dt
      (sc.monthToSave y) s
    rw [← h, l2, l3, h1, h4, e2, e3]
    exact ⟨rfl, rfl⟩
  · exact absurd h (by simp)

set_option maxRecDepth 1000000 in
/-- Claim C22, worked example: rounds at months 0 and 12 in a call over
months 0 to 23, both applied with `DoMDA = false`, take `totMDAs` from 0
to 2. -/
theorem totMDAs_counts_due_rounds_witness :
    ∃ m1 : ModelState,
      evolveAndSave sampleSettings (sampleScenarioRounds [0, 12] [24])
          (sampleOracle [] []) 0 100 lowPrevalenceModel = some m1 ∧
        m1.popln.totMDAs = 2 := by
  have hs : (evolveAndSave sampleSettings (sampleScenarioRounds [0, 12] [24])
      (sampleOracle [] []) 0 100 lowPrevalenceModel).isSome = true := by
    decide!
  obtain ⟨m1, h⟩ := Option.isSome_iff_exists.mp hs
  refine ⟨m1, h, ?_⟩
  rw [((totMDAs_counts_due_rounds sampleSettings
    (sampleScenarioRounds [0, 12] [24]) (sampleOracle [] [])).2 0 100
    lowPrevalenceModel m1 h).1]
  decide!

end Transfil

namespace Transfil

/-! ### Number and months of the time steps -/

/-- With an integer time step the loop variable advances by exactly the
step. -/
theorem nextMonth_int (t d : Int) : nextMonth t (d : ℚ) = t + d := by
  have h : (t : ℚ) + (d : ℚ) = ((t + d : Int) : ℚ) := by push_cast; rfl
  unfold nextMonth truncToInt
  rw [h]
  split_ifs
  · exact Int.floor_intCast _
  · exact Int.ceil_intCast _

/-- The months of the loop header for an integer time step `d ≥ 1`, when
`n` steps are needed to reach the target. -/
theorem loopMonths_int (d target : Int) :
    ∀ (n fuel : Nat) (c : Int), n ≤ fuel →
      (∀ i : Nat, i < n → c + i * d < target) → target ≤ c + n * d →
        loopMonths (d : ℚ) target fuel c =
          (List.range n).map (fun i : Nat => c + (i : Int) * d) := by
  intro n
  induction n with
  | zero =>
    intro fuel c _ _ hge
    have hnot : ¬ c < target := by simpa using hge
    cases fuel <;> simp [loopMonths, hnot]
  | succ k ih =>
    intro fuel c hle hlt hge
    match fuel, hle with
    | f + 1, hle =>
      have h0 : c < target := by simpa using hlt 0 (Nat.succ_pos k)
      have hrec := ih f (c + d) (by omega)
        (fun i hi => by
          have := hlt (i + 1) (by omega)
          push_cast at this
          linarith)
        (by push_cast at hge; linarith)
      simp only [loopMonths, h0, if_true, nextMonth_int, hrec,
        List.range_succ_eq_map, List.map_cons, List.map_map]
      congr 1
      · simp
      · apply List.map_congr_left
        intro i _
        simp only [Function.comp, Nat.succ_eq_add_one]
        push_cast
        ring

/-- With an integer time step `d ≥ 1` the loop finishes within the number
of steps needed to reach the target. -/
theorem timeLoop_isSome_int (cfg : Settings) (sc : Scenario) (o : Oracle)
    (d target : Int) :
    ∀ (n fuel : Nat) (c : Int) (s : LoopState), n ≤ fuel →
      target ≤ c + n * d →
        (timeLoop cfg sc o (d : ℚ) target fuel c s).isSome = true := by
  intro n
  induction n with
  | zero =>
    intro fuel c s _ hge
    have hnot : ¬ c < target := by simpa using hge
    cases fuel <;> simp [timeLoop, hnot]
  | succ k ih =>
    intro fuel c s hle hge
    match fuel, hle with
    | f + 1, hle =>
      unfold timeLoop
      split_ifs
      · rw [nextMonth_int]
        exact ih f (c + d) _ (by omega) (by push_cast at hge; linarith)
      · rfl

/-- The number of steps `⌈(target - c) / d⌉` for an integer time step
`d ≥ 1` and `c < target`: the last step starts before the target and the
next one would not. -/
theorem ceil_steps (d target c : Int) (hd : 1 ≤ d) (hc : c < target) :
    (∀ i : Nat, i < ⌈((target - c : Int) : ℚ) / (d : ℚ)⌉.toNat →
      c + i * d < target) ∧
    target ≤ c + (⌈((target - c : Int) : ℚ) / (d : ℚ)⌉.toNat : Int) * d := by
  have hdq : (0 : ℚ) < (d : ℚ) := by exact_mod_cast (by omega : (0 : Int) < d)
  have hxq : (0 : ℚ) < ((target - c : Int) : ℚ) := by
    exact_mod_cast (by omega : (0 : Int) < target - c)
  have hpos : 0 < ⌈((target - c : Int) : ℚ) / (d : ℚ)⌉ :=
    Int.ceil_pos.mpr (div_pos hxq hdq)
  have hnat : ((⌈((target - c : Int) : ℚ) / (d : ℚ)⌉.toNat : Nat) : Int) =
      ⌈((target - c : Int) : ℚ) / (d : ℚ)⌉ := Int.toNat_of_nonneg hpos.le
  constructor
  · intro i hi
    have hi2 : (i : Int) < ⌈((target - c : Int) : ℚ) / (d : ℚ)⌉ := by
      rw [← hnat]
      exact_mod_cast hi
    have h1 := Int.lt_ceil.mp hi2
    rw [lt_div_iff₀ hdq] at h1
    have h2 : (i : Int) * d < target - c := by exact_mod_cast h1
    omega
  · rw [hnat]
    have h1 := Int.le_ceil (((target - c : Int) : ℚ) / (d : ℚ))
    rw [div_le_iff₀ hdq] at h1
    have h2 : target - c ≤ ⌈((target - c : Int) : ℚ) / (d : ℚ)⌉ * d := by
      exact_mod_cast h1
    omega

/-- Claim C25.  For every `dt ≥ 1` the loop from the current month `c` to
the target terminates.  For an integer time step `d ≥ 1` and `c < target`
it runs exactly `⌈(target - c) / d⌉` steps, at the months `c + i * d`, and
each step performs one `evolve(d)` followed by one larval-density update.
When `c ≥ target` it runs no step. -/
theorem timeLoop_steps (cfg : Settings) (sc : Scenario) (o : Oracle)
    (target c : Int) (s : LoopState) :
    (∀ dt : ℚ, 1 ≤ dt →
      ∃ (fuel : Nat) (s1 : LoopState),
        timeLoop cfg sc o dt target fuel c s = some s1) ∧
    (∀ d : Int, 1 ≤ d → c < target → ∀ fuel : Nat,
      ⌈((target - c : Int) : ℚ) / (d : ℚ)⌉.toNat ≤ fuel →
        ∃ s1 : LoopState,
          timeLoop cfg sc o (d : ℚ) target fuel c s = some s1 ∧
          monthsStepped s1.trace =
            monthsStepped s.trace ++
              (List.range ⌈((target - c : Int) : ℚ) / (d : ℚ)⌉.toNat).map
                (fun i : Nat => c + (i : Int) * d) ∧
          biologyEvents s1.trace =
            biologyEvents s.trace ++
              (List.replicate ⌈((target - c : Int) : ℚ) / (d : ℚ)⌉.toNat
                [Event.evolve (d : ℚ), Event.updateL3Density]).flatten) ∧
    (∀ (dt : ℚ) (fuel : Nat), target ≤ c →
      timeLoop cfg sc o dt target fuel c s = some s) := by
  refine ⟨?_, ?_, ?_⟩
  · intro dt hdt
    have h := timeLoop_isSome cfg sc o hdt target (target - c).toNat c s
      (by omega)
    obtain ⟨s1, h1⟩ := Option.isSome_iff_exists.mp h
    exact ⟨_, s1, h1⟩
  · intro d hd hc fuel hfuel
    obtain ⟨hlt, hge⟩ := ceil_steps d target c hd hc
    have h := timeLoop_isSome_int cfg sc o d target _ fuel c s hfuel hge
    obtain ⟨s1, h1⟩ := Option.isSome_iff_exists.mp h
    obtain ⟨v1, -, v3, -⟩ := timeLoop_views cfg sc o (d : ℚ) target fuel c s
      s1 h1
    have hm := loopMonths_int d target _ fuel c hfuel hlt hge
    refine ⟨s1, h1, ?_, ?_⟩
    · rw [v1, hm]
    · rw [v3, hm]
      congr 1
      generalize ⌈((target - c : Int) : ℚ) / (d : ℚ)⌉.toNat = n
      induction n with
      | zero => simp
      | succ k ih =>
        rw [List.range_succ, List.map_append, List.flatMap_append, ih,
          List.replicate_succ']
        simp
  · intro dt fuel hge
    have hnot : ¬ c < target := by omega
    cases fuel <;> simp [timeLoop, hnot]

/-- Claim C25, worked example: a time step of 5 months from month 0 to the
target 12. -/
theorem timeLoop_steps_witness :
    ∃ s1 : LoopState,
      timeLoop sampleSettings (sampleScenario 0 [12]) (sampleOracle [] []) 5
          12 10 0 (sampleLoopState 99999999 99999999 0) = some s1 ∧
        monthsStepped s1.trace = [0, 5, 10] ∧
        biologyEvents s1.trace =
          [Event.evolve 5, Event.updateL3Density, Event.evolve 5,
            Event.updateL3Density, Event.evolve 5, Event.updateL3Density] := by
  have hn : ⌈(((12 : Int) - 0 : Int) : ℚ) / ((5 : Int) : ℚ)⌉.toNat = 3 := by
    decide!
  obtain ⟨s1, h1, h2, h3⟩ :=
    (timeLoop_steps sampleSettings (sampleScenario 0 [12]) (sampleOracle [] [])
      12 0 (sampleLoopState 99999999 99999999 0)).2.1 5 (by decide)
      (by decide) 10 (by rw [hn]; decide)
  rw [hn] at h2 h3
  refine ⟨s1, by simpa using h1, ?_, ?_⟩
  · rw [h2]
    decide!
  · rw [h3]
    have hc : ((5 : Int) : ℚ) = 5 := by norm_num
    rw [hc]
    decide!

end Transfil

namespace Transfil

/-! ### The two importation-adjustment methods -/

/-- The selector returns false exactly when the XML flag is on and the
method-switch time has not been reached. -/
theorem shouldReduce_eq_false_iff (r t sw : Int) :
    shouldReduceImportationViaPrevalance r t sw = false ↔ (r ≠ 0 ∧ t < sw) := by
  unfold shouldReduceImportationViaPrevalance
  split_ifs with h
  · simp only [Bool.true_eq_false, false_iff]
    rcases h with h | h
    · exact fun hh => hh.1 h
    · exact fun hh => absurd hh.2 (not_lt.mpr h)
  · simp only [true_iff]
    push_neg at h
    exact h

/-- Claim C29.  In a time step at month `t` the scenario-defined (XML)
update of importation is applied exactly when `reduceImpViaXml != 0`,
`t < switchImportationReducingMethodTime` and `t % 12 == 0`; and whenever
the XML method is selected (`reduceImpViaXml != 0` and `t` before the
switch time) the prevalence-driven adjustment is not applied in that step:
no comparison is made and `aImp` is unchanged.  So the two are never both
applied in one step. -/
theorem importation_methods_exclusive (cfg : Settings) (sc : Scenario)
    (o : Oracle) (dt : ℚ) (t : Int) (s : LoopState) :
    xmlUpdateMonths (step cfg sc o dt t s).trace =
      xmlUpdateMonths s.trace ++
        (if cfg.reduceImpViaXml ≠ 0 ∧
            t < s.popln.switchImportationReducingMethodTime ∧
            Int.tmod t 12 = 0 then [t] else []) ∧
    ((cfg.reduceImpViaXml ≠ 0 ∧
        t < s.popln.switchImportationReducingMethodTime) →
      (step cfg sc o dt t s).popln.aImp = s.popln.aImp ∧
      comparisonMonths (step cfg sc o dt t s).trace =
        comparisonMonths s.trace) ∧
    (((step cfg sc o dt t s).popln.aImp ≠ s.popln.aImp ∨
        comparisonMonths (step cfg sc o dt t s).trace ≠
          comparisonMonths s.trace) →
      xmlUpdateMonths (step cfg sc o dt t s).trace =
        xmlUpdateMonths s.trace) := by
  have hxml : xmlUpdateMonths (step cfg sc o dt t s).trace =
      xmlUpdateMonths s.trace ++
        (if cfg.reduceImpViaXml ≠ 0 ∧
            t < s.popln.switchImportationReducingMethodTime ∧
            Int.tmod t 12 = 0 then [t] else []) := by
    obtain ⟨-, -, hsw⟩ := popln_before_adjustment cfg sc o dt t s
    unfold xmlUpdateMonths step
    simp only []
    rw [saveObservation_filterMap _ (fun _ => rfl),
      policySwitches_filterMap _ rfl rfl rfl rfl, importationViaPrevalence_filterMap _ (fun _ => rfl),
      MDABlock_filterMap _ (fun _ _ => rfl) (fun _ _ => rfl) (fun _ _ => rfl)
        (fun _ => rfl) (fun _ => rfl) (fun _ _ _ => rfl),
      TASBlock_filterMap _ (fun _ => rfl) (fun _ => rfl),
      preTASBlock_filterMap _ (fun _ => rfl) (fun _ => rfl),
      evolveStep_filterMap _ rfl,
      scenarioUpdates_filterMap,
      emptySurveyRecords_filterMap _ (fun _ _ => rfl) (fun _ => rfl)
        (fun _ => rfl),
      roadmapRecord_filterMap, annualRecords_filterMap,
      refreshParams_filterMap _ (fun _ => rfl) (fun _ => rfl)]
    simp only [hsw, emptySurveyRecords_popln, roadmapRecord_popln,
      annualRecords_popln, refreshParams_popln]
    by_cases hsel : shouldReduceImportationViaPrevalance cfg.reduceImpViaXml t
        s.popln.switchImportationReducingMethodTime = false
    · have hc := (shouldReduce_eq_false_iff _ _ _).mp hsel
      by_cases h12 : Int.tmod t 12 = 0 <;>
        simp [hsel, hc.1, hc.2, h12]
    · have hc : ¬ (cfg.reduceImpViaXml ≠ 0 ∧
          t < s.popln.switchImportationReducingMethodTime) :=
        fun hh => hsel ((shouldReduce_eq_false_iff _ _ _).mpr hh)
      have hsel2 : shouldReduceImportationViaPrevalance cfg.reduceImpViaXml t
          s.popln.switchImportationReducingMethodTime = true := by
        simpa using hsel
      have hc2 : ¬ (cfg.reduceImpViaXml ≠ 0 ∧
          t < s.popln.switchImportationReducingMethodTime ∧
          Int.tmod t 12 = 0) := fun hh => hc ⟨hh.1, hh.2.1⟩
      rw [if_neg hc2]
      simp [hsel2]
  have hprev : (cfg.reduceImpViaXml ≠ 0 ∧
      t < s.popln.switchImportationReducingMethodTime) →
      (step cfg sc o dt t s).popln.aImp = s.popln.aImp ∧
      comparisonMonths (step cfg sc o dt t s).trace =
        comparisonMonths s.trace := by
    intro hc
    have hsel := (shouldReduce_eq_false_iff _ _ _).mpr hc
    obtain ⟨-, ha, hsw⟩ := popln_before_adjustment cfg sc o dt t s
    obtain ⟨-, hkeep⟩ := importationViaPrevalence_keeps cfg o t
      (MDABlock cfg sc o t (TASBlock cfg o t (preTASBlock cfg o t
        (evolveStep sc dt t (scenarioUpdates cfg t (emptySurveyRecords cfg t
          (roadmapRecord cfg t (annualRecords cfg t
            (refreshParams cfg t s)))))))))
    rw [hsw] at hkeep
    constructor
    · simp only [step, saveObservation_popln, policySwitches_popln]
      rw [hkeep hsel, ha]
    · unfold comparisonMonths step
      simp only []
      rw [saveObservation_filterMap _ (fun _ => rfl),
        policySwitches_filterMap _ rfl rfl rfl rfl, importationViaPrevalence_filterMap _ (fun _ => rfl), hsw, hsel,
        MDABlock_filterMap _ (fun _ _ => rfl) (fun _ _ => rfl)
          (fun _ _ => rfl) (fun _ => rfl) (fun _ => rfl) (fun _ _ _ => rfl),
        TASBlock_filterMap _ (fun _ => rfl) (fun _ => rfl),
        preTASBlock_filterMap _ (fun _ => rfl) (fun _ => rfl),
        evolveStep_filterMap _ rfl,
        scenarioUpdates_filterMap,
        emptySurveyRecords_filterMap _ (fun _ _ => rfl) (fun _ => rfl)
          (fun _ => rfl),
        roadmapRecord_filterMap, annualRecords_filterMap,
        refreshParams_filterMap _ (fun _ => rfl) (fun _ => rfl)]
      simp only [Bool.false_eq_true, false_and, if_false]
      split_ifs <;> simp
  refine ⟨hxml, hprev, ?_⟩
  intro hchg
  rw [hxml]
  by_cases hc : cfg.reduceImpViaXml ≠ 0 ∧
      t < s.popln.switchImportationReducingMethodTime
  · obtain ⟨h1, h2⟩ := hprev hc
    rcases hchg with h | h
    · exact absurd h1 h
    · exact absurd h2 h
  · have hc2 : ¬ (cfg.reduceImpViaXml ≠ 0 ∧
        t < s.popln.switchImportationReducingMethodTime ∧
        Int.tmod t 12 = 0) := fun hh => hc ⟨hh.1, hh.2.1⟩
    rw [if_neg hc2]
    simp

/-- Claim C29, worked example: with the XML flag on and the switch time in
the far future, the step of month 0 leaves the amplitude and makes no
comparison. -/
theorem importation_methods_exclusive_witness :
    (step xmlSettings (sampleScenario 0 [12]) (sampleOracle [] []) 1 0
      (sampleLoopState 99999999 99999999 0)).popln.aImp =
        (sampleLoopState 99999999 99999999 0).popln.aImp ∧
    comparisonMonths (step xmlSettings (sampleScenario 0 [12])
      (sampleOracle [] []) 1 0
      (sampleLoopState 99999999 99999999 0)).trace =
        comparisonMonths (sampleLoopState 99999999 99999999 0).trace :=
  (importation_methods_exclusive xmlSettings (sampleScenario 0 [12])
    (sampleOracle [] []) 1 0 (sampleLoopState 99999999 99999999 0)).2.1
    ⟨by decide, by decide⟩

end Transfil

namespace Transfil

/-! ### Treatment-probability protocol -/

/-- Claim C23.  For a due intervention with effective coverage
`cov = coverage * multiplierForCoverage(t, ...)` and compliance `rho`:
(i) when `prevCov == -1` the calls are `initPTreat(cov, rho)` and the final
`checkForZeroPTreat(cov, rho)`, with no `editPTreat`; (ii) otherwise, when
`cov` or `rho` differs from the previous pair, the calls are
`checkForZeroPTreat(prevCov, prevRho)`, `editPTreat(cov, rho)` and the final
`checkForZeroPTreat(cov, rho)`, and when neither differs only the final
check is made; `initPTreat` is not called in either case; (iii) afterwards
`prevCov == cov` and `prevRho == rho`. -/
theorem treatmentProbabilities_protocol (cfg : Settings) (mda : MDAEvent)
    (t : Int) (s : LoopState) :
    (s.popln.prevCov = -1 →
      (treatmentProbabilities cfg mda t s).trace =
        s.trace ++
          [Event.initPTreat
              (mda.coverage * multiplierForCoverage t cfg.cov_prop
                s.popln.removeCoverageReduction
                s.popln.removeCoverageReductionTime
                s.popln.graduallyRemoveCoverageReduction) mda.compliance,
            Event.checkForZeroPTreat
              (mda.coverage * multiplierForCoverage t cfg.cov_prop
                s.popln.removeCoverageReduction
                s.popln.removeCoverageReductionTime
                s.popln.graduallyRemoveCoverageReduction) mda.compliance]) ∧
    (s.popln.prevCov ≠ -1 →
      (s.popln.prevCov ≠ mda.coverage * multiplierForCoverage t cfg.cov_prop
          s.popln.removeCoverageReduction
          s.popln.removeCoverageReductionTime
          s.popln.graduallyRemoveCoverageReduction ∨
        s.popln.prevRho ≠ mda.compliance) →
      (treatmentProbabilities cfg mda t s).trace =
        s.trace ++
          [Event.checkForZeroPTreat s.popln.prevCov s.popln.prevRho,
            Event.editPTreat
              (mda.coverage * multiplierForCoverage t cfg.cov_prop
                s.popln.removeCoverageReduction
                s.popln.removeCoverageReductionTime
                s.popln.graduallyRemoveCoverageReduction) mda.compliance,
            Event.checkForZeroPTreat
              (mda.coverage * multiplierForCoverage t cfg.cov_prop
                s.popln.removeCoverageReduction
                s.popln.removeCoverageReductionTime
                s.popln.graduallyRemoveCoverageReduction) mda.compliance]) ∧
    (s.popln.prevCov ≠ -1 →
      s.popln.prevCov = mda.coverage * multiplierForCoverage t cfg.cov_prop
          s.popln.removeCoverageReduction
          s.popln.removeCoverageReductionTime
          s.popln.graduallyRemoveCoverageReduction →
      s.popln.prevRho = mda.compliance →
      (treatmentProbabilities cfg mda t s).trace =
        s.trace ++
          [Event.checkForZeroPTreat
              (mda.coverage * multiplierForCoverage t cfg.cov_prop
                s.popln.removeCoverageReduction
                s.popln.removeCoverageReductionTime
                s.popln.graduallyRemoveCoverageReduction) mda.compliance]) ∧
    (treatmentProbabilities cfg mda t s).popln.prevCov =
      mda.coverage * multiplierForCoverage t cfg.cov_prop
        s.popln.removeCoverageReduction
        s.popln.removeCoverageReductionTime
        s.popln.graduallyRemoveCoverageReduction ∧
    (treatmentProbabilities cfg mda t s).popln.prevRho = mda.compliance := by
  refine ⟨?_, ?_, ?_, ?_, ?_⟩
  · intro h
    simp [treatmentProbabilities, LoopState.emit, h]
  · intro h hd
    unfold treatmentProbabilities
    simp only [if_neg h, if_pos hd]
    simp [LoopState.emit]
  · intro h h1 h2
    have hd : ¬ (s.popln.prevCov ≠ mda.coverage *
        multiplierForCoverage t cfg.cov_prop
          s.popln.removeCoverageReduction
          s.popln.removeCoverageReductionTime
          s.popln.graduallyRemoveCoverageReduction ∨
        s.popln.prevRho ≠ mda.compliance) := by
      push_neg
      exact ⟨h1, h2⟩
    unfold treatmentProbabilities
    simp only [if_neg h, if_neg hd]
    simp [LoopState.emit]
  · unfold treatmentProbabilities
    simp only []
    split_ifs <;> simp_all [LoopState.emit]
  · unfold treatmentProbabilities
    simp only []
    split_ifs <;> simp_all [LoopState.emit]

/-- Claim C23, worked example: a first intervention (coverage 13/20,
compliance 7/20, multiplier 1) on a state with `prevCov = -1`. -/
theorem treatmentProbabilities_protocol_witness :
    (treatmentProbabilities sampleSettings
        { coverage := 13 / 20, compliance := 7 / 20 } 0
        (sampleLoopState 99999999 99999999 0)).trace =
      (sampleLoopState 99999999 99999999 0).trace ++
        [Event.initPTreat
            ((13 / 20 : ℚ) * multiplierForCoverage 0 sampleSettings.cov_prop
              (sampleLoopState 99999999 99999999 0).popln.removeCoverageReduction
              (sampleLoopState 99999999 99999999 0).popln.removeCoverageReductionTime
              (sampleLoopState 99999999 99999999
                0).popln.graduallyRemoveCoverageReduction) (7 / 20),
          Event.checkForZeroPTreat
            ((13 / 20 : ℚ) * multiplierForCoverage 0 sampleSettings.cov_prop
              (sampleLoopState 99999999 99999999 0).popln.removeCoverageReduction
              (sampleLoopState 99999999 99999999 0).popln.removeCoverageReductionTime
              (sampleLoopState 99999999 99999999
                0).popln.graduallyRemoveCoverageReduction) (7 / 20)] :=
  (treatmentProbabilities_protocol sampleSettings
    { coverage := 13 / 20, compliance := 7 / 20 } 0
    (sampleLoopState 99999999 99999999 0)).1 (by decide!)

/-! ### A failed pre-TAS and the TAS of the same step -/

set_option maxRecDepth 1000000 in
/-- Claim C24, the code at a failing run (time step 1, surveys 12 months
apart, one round at month 0 that schedules the pre-TAS at month 6).  The
pre-TAS passes at 6 and the TAS fails at 6, which sets both due months to
18.  At month 18 the pre-TAS is run and fails, and the TAS is run in the
same step; the same happens at month 30. -/
theorem failed_preTAS_then_TAS :
    (sampleOracle [6] [6]).PreTASSurvey 18 = 0 ∧
    (sampleOracle [6] [6]).PreTASSurvey 30 = 0 ∧
    (saveMonthsLoop sampleSettings (sampleScenario 0 [18, 19, 31])
        (sampleOracle [6] [6]) 100 1 0 (sampleModel 1 12)).map
      (fun m => (m.popln.preTASSurveyTime, m.popln.TASSurveyTime,
        surveysRun m.trace)) =
      some (18, 18, [Event.PreTASSurvey 6, Event.TASSurvey 6]) ∧
    (saveMonthsLoop sampleSettings (sampleScenario 0 [18, 19, 31])
        (sampleOracle [6] [6]) 100 2 0 (sampleModel 1 12)).map
      (fun m => (m.popln.preTASSurveyTime, m.popln.TASSurveyTime,
        surveysRun m.trace)) =
      some (30, 30, [Event.PreTASSurvey 6, Event.TASSurvey 6,
        Event.PreTASSurvey 18, Event.TASSurvey 18]) ∧
    (saveMonthsLoop sampleSettings (sampleScenario 0 [18, 19, 31])
        (sampleOracle [6] [6]) 100 3 0 (sampleModel 1 12)).map
      (fun m => surveysRun m.trace) =
      some [Event.PreTASSurvey 6, Event.TASSurvey 6,
        Event.PreTASSurvey 18, Event.TASSurvey 18,
        Event.PreTASSurvey 30, Event.TASSurvey 30] := by
  decide!

/-! ### Duration of the burn-in -/

set_option maxRecDepth 1000000 in
/-- Claim C26, the code at a failing input: with a maximum host age of 100
years and a time step of 7 months `burnIn` makes 171 steps, which cover
1197 months, fewer than the 1200 months of a host lifetime. -/
theorem burnIn_shorter_than_lifetime :
    longLivedModel.popln.maxAge = 100 ∧
    longLivedModel.dt = 7 ∧
    (burnIn longLivedModel).trace.count (Event.evolve 7) = 171 ∧
    (((burnIn longLivedModel).trace.count (Event.evolve 7) : Nat) : ℚ) *
        longLivedModel.dt <
      12 * (longLivedModel.popln.maxAge : ℚ) := by
  decide!

/-! ### Seed and coverage-proportion lookups -/

/-- Claim C28.  In `runScenarios` the vectors of seeds and of coverage
proportions start empty and are filled by the two readers with
`unsigned(replicates)`.  For every replicate index `0 <= rep < replicates`:
when the vector of seeds is not empty it was read from a file, `rep` is
smaller than its length and `seeds[rep]` is the value on line `rep` of the
file; the same holds for the coverage proportions. -/
theorem lookups_in_bounds (inp : RunInputs) (seeds : List Nat)
    (cov_props : List ℚ) (rep : Int)
    (hR : inp.replicates < 2147483648) (h0 : 0 ≤ rep)
    (h1 : rep < inp.replicates)
    (hs : readSeedsFromFile [] (toUnsigned inp.replicates)
      inp.RandomSeedFile inp.seedFile = Except.ok seeds)
    (hc : readCovPropFromFile [] (toUnsigned inp.replicates)
      inp.RandomCovPropFile inp.covPropFile = Except.ok cov_props) :
    (seeds.length > 0 →
      ∃ f v, inp.seedFile = some f ∧ rep.toNat < seeds.length ∧
        f.lines[rep.toNat]? = some v ∧ seedFor inp seeds rep = some v) ∧
    (cov_props.length > 0 →
      ∃ f v, inp.covPropFile = some f ∧ rep.toNat < cov_props.length ∧
        f.lines[rep.toNat]? = some v ∧ covPropFor cov_props rep = some v) := by
  have hu : toUnsigned inp.replicates = inp.replicates.toNat := by
    unfold toUnsigned
    rw [Int.emod_eq_of_lt (by omega) (by omega)]
  have hlt : rep.toNat < inp.replicates.toNat := by omega
  constructor
  · intro hpos
    unfold readSeedsFromFile at hs
    split_ifs at hs with hf
    · cases hfile : inp.seedFile with
      | none => rw [hfile] at hs; simp at hs
      | some f =>
        rw [hfile] at hs
        simp only [List.nil_append] at hs
        split_ifs at hs with hlen
        have hseeds : f.lines = seeds := by
          injection hs
        have hb : rep.toNat < f.lines.length := by
          rw [hu] at hlen
          omega
        refine ⟨f, f.lines.get ⟨rep.toNat, hb⟩, rfl, by rw [← hseeds]; exact hb,
          ?_, ?_⟩
        · simp [List.getElem?_eq_getElem hb]
        · unfold seedFor seedAt
          rw [if_pos hpos, if_pos h0, ← hseeds]
          simp [List.getElem?_eq_getElem hb]
    · have : seeds = [] := by
        injection hs with h
        exact h.symm
      rw [this] at hpos
      simp at hpos
  · intro hpos
    unfold readCovPropFromFile at hc
    split_ifs at hc with hf
    · cases hfile : inp.covPropFile with
      | none => rw [hfile] at hc; simp at hc
      | some f =>
        rw [hfile] at hc
        simp only [List.nil_append] at hc
        split_ifs at hc with hlen
        have hcov : f.lines = cov_props := by
          injection hc
        have hb : rep.toNat < f.lines.length := by
          rw [hu] at hlen
          omega
        refine ⟨f, f.lines.get ⟨rep.toNat, hb⟩, rfl, by rw [← hcov]; exact hb,
          ?_, ?_⟩
        · simp [List.getElem?_eq_getElem hb]
        · unfold covPropFor readAt
          rw [if_pos hpos, if_pos h0, ← hcov]
          simp [List.getElem?_eq_getElem hb]
    · have : cov_props = [] := by
        injection hc with h
        exact h.symm
      rw [this] at hpos
      simp at hpos

end Transfil

namespace Transfil

/-- Claim C28, worked example: replicate 1 of a run of two replicates with
two-line files reads the second line of each. -/
theorem lookups_in_bounds_witness :
    (([11, 22] : List Nat).length > 0 →
      ∃ f v, sampleRunWithFiles.seedFile = some f ∧
        (1 : Int).toNat < ([11, 22] : List Nat).length ∧
        f.lines[(1 : Int).toNat]? = some v ∧
        seedFor sampleRunWithFiles [11, 22] 1 = some v) ∧
    (([1 / 2, 3 / 4] : List ℚ).length > 0 →
      ∃ f v, sampleRunWithFiles.covPropFile = some f ∧
        (1 : Int).toNat < ([1 / 2, 3 / 4] : List ℚ).length ∧
        f.lines[(1 : Int).toNat]? = some v ∧
        covPropFor [1 / 2, 3 / 4] 1 = some v) :=
  lookups_in_bounds sampleRunWithFiles [11, 22] [1 / 2, 3 / 4] 1
    (by decide) (by decide) (by decide) rfl rfl

/-! ### Bounds and monotonicity of the coverage multiplier -/

/-- Claim C30.  For a coverage proportion `c <= 1` (so in particular for
`0 <= c <= 1`), a removal time `T > 0`, any values of the two flags and
months `0 <= t1 <= t2`:
`c <= multiplierForCoverage(t1) <= multiplierForCoverage(t2) <= 1`; so for
a declared coverage `coverage >= 0` the effective coverage
`coverage * multiplier` does not exceed `coverage` and does not drop from
`t1` to `t2`. -/
theorem multiplierForCoverage_bounded_monotone (c : ℚ) (r T g t1 t2 : Int)
    (hc1 : c ≤ 1) (hT : 0 < T) (h0 : 0 ≤ t1) (h12 : t1 ≤ t2) :
    c ≤ multiplierForCoverage t1 c r T g ∧
    multiplierForCoverage t1 c r T g ≤ multiplierForCoverage t2 c r T g ∧
    multiplierForCoverage t2 c r T g ≤ 1 ∧
    ∀ coverage : ℚ, 0 ≤ coverage →
      coverage * multiplierForCoverage t1 c r T g ≤
        coverage * multiplierForCoverage t2 c r T g ∧
      coverage * multiplierForCoverage t2 c r T g ≤ coverage := by
  have hTq : (0 : ℚ) < (T : ℚ) := by exact_mod_cast hT
  have h0q : (0 : ℚ) ≤ (t1 : ℚ) := by exact_mod_cast h0
  have h12q : (t1 : ℚ) ≤ (t2 : ℚ) := by exact_mod_cast h12
  have q1 : (0 : ℚ) ≤ (t1 : ℚ) / (T : ℚ) := div_nonneg h0q hTq.le
  have q12 : (t1 : ℚ) / (T : ℚ) ≤ (t2 : ℚ) / (T : ℚ) :=
    div_le_div_of_nonneg_right h12q hTq.le
  have q2 : t2 < T → (t2 : ℚ) / (T : ℚ) ≤ 1 := by
    intro h
    have : (t2 : ℚ) ≤ (T : ℚ) := by exact_mod_cast h.le
    exact (div_le_one hTq).mpr this
  have key : c ≤ multiplierForCoverage t1 c r T g ∧
      multiplierForCoverage t1 c r T g ≤ multiplierForCoverage t2 c r T g ∧
      multiplierForCoverage t2 c r T g ≤ 1 := by
    unfold multiplierForCoverage
    by_cases hg : g = 1
    · by_cases ht2 : t2 < T
      · have ht1 : t1 < T := lt_of_le_of_lt h12 ht2
        have q2h := q2 ht2
        simp only [if_pos hg, if_pos ht1, if_pos ht2]
        refine ⟨by nlinarith, by nlinarith, by nlinarith⟩
      · by_cases ht1 : t1 < T
        · have q1h : (t1 : ℚ) / (T : ℚ) ≤ 1 := by
            have : (t1 : ℚ) ≤ (T : ℚ) := by exact_mod_cast ht1.le
            exact (div_le_one hTq).mpr this
          simp only [if_pos hg, if_pos ht1, if_neg ht2]
          refine ⟨by nlinarith, by nlinarith, le_refl _⟩
        · simp only [if_pos hg, if_neg ht1, if_neg ht2]
          exact ⟨hc1, le_refl _, le_refl _⟩
    · by_cases hr : r = 1
      · by_cases ht2 : t2 < T
        · have ht1 : t1 < T := lt_of_le_of_lt h12 ht2
          simp only [if_neg hg, if_pos hr, if_pos ht1, if_pos ht2]
          exact ⟨le_refl _, le_refl _, hc1⟩
        · by_cases ht1 : t1 < T
          · simp only [if_neg hg, if_pos hr, if_pos ht1, if_neg ht2]
            exact ⟨le_refl _, hc1, le_refl _⟩
          · simp only [if_neg hg, if_pos hr, if_neg ht1, if_neg ht2]
            exact ⟨hc1, le_refl _, le_refl _⟩
      · simp only [if_neg hg, if_neg hr]
        exact ⟨le_refl _, le_refl _, hc1⟩
  obtain ⟨k1, k2, k3⟩ := key
  refine ⟨k1, k2, k3, ?_⟩
  intro coverage hcov
  exact ⟨mul_le_mul_of_nonneg_left k2 hcov,
    by simpa using mul_le_mul_of_nonneg_left k3 hcov⟩

/-- Claim C30, worked example: proportion 1/2 removed gradually over 100
months, at months 25 and 50. -/
theorem multiplierForCoverage_bounded_monotone_witness :
    (1 / 2 : ℚ) ≤ multiplierForCoverage 25 (1 / 2) 0 100 1 ∧
    multiplierForCoverage 25 (1 / 2) 0 100 1 ≤
      multiplierForCoverage 50 (1 / 2) 0 100 1 ∧
    multiplierForCoverage 50 (1 / 2) 0 100 1 ≤ 1 ∧
    ∀ coverage : ℚ, 0 ≤ coverage →
      coverage * multiplierForCoverage 25 (1 / 2) 0 100 1 ≤
        coverage * multiplierForCoverage 50 (1 / 2) 0 100 1 ∧
      coverage * multiplierForCoverage 50 (1 / 2) 0 100 1 ≤ coverage :=
  multiplierForCoverage_bounded_monotone (1 / 2) 0 100 1 25 50
    (by norm_num) (by decide) (by decide) (by decide)

end Transfil

namespace Transfil

/-! ### A parameter line with fewer values than entries -/

/-- Entry `i` of column `c` after the value at position `p` of the line is
written, in terms of the values from position `p` on. -/
theorem cons_entry (value : ℚ) (rest l : List ℚ) (p c i : Nat) (hc : c < 4)
    (hl : p / 4 < l.length) :
    (if p + 1 ≤ 4 * i + c ∧ 4 * i + c < p + 1 + rest.length then
        rest[4 * i + c - (p + 1)]?
      else (if p % 4 = c then l.set (p / 4) value else l)[i]?) =
      (if p ≤ 4 * i + c ∧ 4 * i + c < p + (rest.length + 1) then
        (value :: rest)[4 * i + c - p]?
      else l[i]?) := by
  by_cases hm : 4 * i + c = p
  · have hi : p / 4 = i := by omega
    have hpc : p % 4 = c := by omega
    have h1 : ¬ (p + 1 ≤ 4 * i + c ∧ 4 * i + c < p + 1 + rest.length) := by
      omega
    have h2 : p ≤ 4 * i + c ∧ 4 * i + c < p + (rest.length + 1) := by omega
    rw [if_neg h1, if_pos h2, if_pos hpc, hi, hm, Nat.sub_self]
    rw [hi] at hl
    simp [List.getElem?_set_self, hl]
  · have hset : (if p % 4 = c then l.set (p / 4) value else l)[i]? = l[i]? := by
      split_ifs with hpc
      · have hne : p / 4 ≠ i := by omega
        rw [List.getElem?_set_ne hne]
      · rfl
    rw [hset]
    by_cases hlt : p + 1 ≤ 4 * i + c
    · have he : 4 * i + c - p = (4 * i + c - (p + 1)) + 1 := by omega
      by_cases hup : 4 * i + c < p + 1 + rest.length
      · rw [if_pos ⟨hlt, hup⟩, if_pos ⟨by omega, by omega⟩, he,
          List.getElem?_cons_succ]
      · rw [if_neg (fun h => hup h.2), if_neg (fun h => hup (by omega))]
    · rw [if_neg (fun h => hlt h.1), if_neg (fun h => hlt (by omega))]

/-- The loop of `ProcessLine` from position `p` of a line that ends before
the last entry of the vectors: the entry counter ends at the number of
complete rows read, the lengths stay, and an entry is overwritten exactly
when its value is on the line. -/
theorem processValues_short (n : Nat) (hn : 0 < n) (rest : List ℚ) :
    ∀ (p : Nat) (v : ParamVectors),
      v.k_vals.length = n → v.v_to_h_vals.length = n →
      v.aImp_vals.length = n → v.wProp_vals.length = n →
      p + rest.length < 4 * n →
      (processValues (n : Int) rest ((p : Int) + 1) ((p / 4 : Nat) : Int) v).1 =
        (((p + rest.length) / 4 : Nat) : Int) ∧
      (processValues (n : Int) rest ((p : Int) + 1) ((p / 4 : Nat) : Int)
        v).2.k_vals.length = n ∧
      (processValues (n : Int) rest ((p : Int) + 1) ((p / 4 : Nat) : Int)
        v).2.v_to_h_vals.length = n ∧
      (processValues (n : Int) rest ((p : Int) + 1) ((p / 4 : Nat) : Int)
        v).2.aImp_vals.length = n ∧
      (processValues (n : Int) rest ((p : Int) + 1) ((p / 4 : Nat) : Int)
        v).2.wProp_vals.length = n ∧
      ∀ i : Nat,
        (processValues (n : Int) rest ((p : Int) + 1) ((p / 4 : Nat) : Int)
            v).2.v_to_h_vals[i]? =
          (if p ≤ 4 * i + 0 ∧ 4 * i + 0 < p + rest.length then
            rest[4 * i + 0 - p]? else v.v_to_h_vals[i]?) ∧
        (processValues (n : Int) rest ((p : Int) + 1) ((p / 4 : Nat) : Int)
            v).2.k_vals[i]? =
          (if p ≤ 4 * i + 1 ∧ 4 * i + 1 < p + rest.length then
            rest[4 * i + 1 - p]? else v.k_vals[i]?) ∧
        (processValues (n : Int) rest ((p : Int) + 1) ((p / 4 : Nat) : Int)
            v).2.aImp_vals[i]? =
          (if p ≤ 4 * i + 2 ∧ 4 * i + 2 < p + rest.length then
            rest[4 * i + 2 - p]? else v.aImp_vals[i]?) ∧
        (processValues (n : Int) rest ((p : Int) + 1) ((p / 4 : Nat) : Int)
            v).2.wProp_vals[i]? =
          (if p ≤ 4 * i + 3 ∧ 4 * i + 3 < p + rest.length then
            rest[4 * i + 3 - p]? else v.wProp_vals[i]?) := by
  have hpos : (n : Int) > 0 := by exact_mod_cast hn
  induction rest with
  | nil =>
    intro p v hk hv ha hw _
    simp only [processValues, List.length_nil, Nat.add_zero]
    refine ⟨trivial, hk, hv, ha, hw, fun i => ?_⟩
    refine ⟨?_, ?_, ?_, ?_⟩ <;> rw [if_neg (by omega)]
  | cons value rest ih =>
    intro p v hk hv ha hw hlen
    simp only [List.length_cons] at hlen
    have hj : (p : Int) + 1 + 1 = ((p + 1 : Nat) : Int) + 1 := by
      push_cast
      rfl
    have hq : p / 4 < n := by omega
    have hsum : p + 1 + rest.length = p + (rest.length + 1) := by omega
    have hcases : p % 4 = 0 ∨ p % 4 = 1 ∨ p % 4 = 2 ∨ p % 4 = 3 := by omega
    rcases hcases with hm | hm | hm | hm
    · have t1 : Int.tmod ((p : Int) + 1) 4 = 1 := by
        rw [Int.tmod_eq_emod (by omega) (by omega)]
        omega
      have hk4 : p / 4 = (p + 1) / 4 := by omega
      rw [processValues, if_pos t1, if_pos hpos, hj, Int.toNat_natCast]
      rw [List.length_cons, ← hsum]
      have := ih (p + 1)
        { v with v_to_h_vals := v.v_to_h_vals.set (p / 4) value }
        hk (by simp [hv]) ha hw (by omega)
      rw [← hk4] at this
      obtain ⟨r1, r2, r3, r4, r5, r6⟩ := this
      refine ⟨r1, r2, r3, r4, r5, fun i => ?_⟩
      obtain ⟨e0, e1, e2, e3⟩ := r6 i
      have c0 := cons_entry value rest v.v_to_h_vals p 0 i (by omega)
        (by omega)
      have c1 := cons_entry value rest v.k_vals p 1 i (by omega) (by omega)
      have c2 := cons_entry value rest v.aImp_vals p 2 i (by omega) (by omega)
      have c3 := cons_entry value rest v.wProp_vals p 3 i (by omega) (by omega)
      simp only [hm, if_true, if_false, OfNat.zero_ne_ofNat, OfNat.ofNat_ne_zero,
        Nat.reduceEqDiff, OfNat.ofNat_ne_one, OfNat.one_ne_ofNat] at c0 c1 c2 c3
      rw [hsum] at c0 c1 c2 c3
      rw [hsum] at e0 e1 e2 e3
      rw [hsum]
      exact ⟨e0.trans c0, e1.trans c1, e2.trans c2, e3.trans c3⟩
    · have t1 : Int.tmod ((p : Int) + 1) 4 = 2 := by
        rw [Int.tmod_eq_emod (by omega) (by omega)]
        omega
      have hk4 : p / 4 = (p + 1) / 4 := by omega
      rw [processValues, if_neg (by rw [t1]; decide), if_pos t1, if_pos hpos, hj, Int.toNat_natCast]
      rw [List.length_cons, ← hsum]
      have := ih (p + 1)
        { v with k_vals := v.k_vals.set (p / 4) value }
        (by simp [hk]) hv ha hw (by omega)
      rw [← hk4] at this
      obtain ⟨r1, r2, r3, r4, r5, r6⟩ := this
      refine ⟨r1, r2, r3, r4, r5, fun i => ?_⟩
      obtain ⟨e0, e1, e2, e3⟩ := r6 i
      have c0 := cons_entry value rest v.v_to_h_vals p 0 i (by omega)
        (by omega)
      have c1 := cons_entry value rest v.k_vals p 1 i (by omega) (by omega)
      have c2 := cons_entry value rest v.aImp_vals p 2 i (by omega) (by omega)
      have c3 := cons_entry value rest v.wProp_vals p 3 i (by omega) (by omega)
      simp only [hm, if_true, if_false, OfNat.zero_ne_ofNat, OfNat.ofNat_ne_zero,
        Nat.reduceEqDiff, OfNat.ofNat_ne_one, OfNat.one_ne_ofNat] at c0 c1 c2 c3
      rw [hsum] at c0 c1 c2 c3
      rw [hsum] at e0 e1 e2 e3
      rw [hsum]
      exact ⟨e0.trans c0, e1.trans c1, e2.trans c2, e3.trans c3⟩
    · have t1 : Int.tmod ((p : Int) + 1) 4 = 3 := by
        rw [Int.tmod_eq_emod (by omega) (by omega)]
        omega
      have hk4 : p / 4 = (p + 1) / 4 := by omega
      rw [processValues, if_neg (by rw [t1]; decide), if_neg (by rw [t1]; decide), if_pos t1, if_pos hpos, hj, Int.toNat_natCast]
      rw [List.length_cons, ← hsum]
      have := ih (p + 1)
        { v with aImp_vals := v.aImp_vals.set (p / 4) value }
        hk hv (by simp [ha]) hw (by omega)
      rw [← hk4] at this
      obtain ⟨r1, r2, r3, r4, r5, r6⟩ := this
      refine ⟨r1, r2, r3, r4, r5, fun i => ?_⟩
      obtain ⟨e0, e1, e2, e3⟩ := r6 i
      have c0 := cons_entry value rest v.v_to_h_vals p 0 i (by omega)
        (by omega)
      have c1 := cons_entry value rest v.k_vals p 1 i (by omega) (by omega)
      have c2 := cons_entry value rest v.aImp_vals p 2 i (by omega) (by omega)
      have c3 := cons_entry value rest v.wProp_vals p 3 i (by omega) (by omega)
      simp only [hm, if_true, if_false, OfNat.zero_ne_ofNat, OfNat.ofNat_ne_zero,
        Nat.reduceEqDiff, OfNat.ofNat_ne_one, OfNat.one_ne_ofNat] at c0 c1 c2 c3
      rw [hsum] at c0 c1 c2 c3
      rw [hsum] at e0 e1 e2 e3
      rw [hsum]
      exact ⟨e0.trans c0, e1.trans c1, e2.trans c2, e3.trans c3⟩
    · have t1 : Int.tmod ((p : Int) + 1) 4 = 0 := by
        rw [Int.tmod_eq_emod (by omega) (by omega)]
        omega
      have hk4 : ((p / 4 : Nat) : Int) + 1 = (((p + 1) / 4 : Nat) : Int) := by
        have : (p + 1) / 4 = p / 4 + 1 := by omega
        rw [this]
        push_cast
        rfl
      rw [processValues, if_neg (by rw [t1]; decide), if_neg (by rw [t1]; decide), if_neg (by rw [t1]; decide), if_pos t1, if_pos hpos, hj, Int.toNat_natCast, hk4]
      rw [List.length_cons, ← hsum]
      have := ih (p + 1)
        { v with wProp_vals := v.wProp_vals.set (p / 4) value }
        hk hv ha (by simp [hw]) (by omega)
      obtain ⟨r1, r2, r3, r4, r5, r6⟩ := this
      refine ⟨r1, r2, r3, r4, r5, fun i => ?_⟩
      obtain ⟨e0, e1, e2, e3⟩ := r6 i
      have c0 := cons_entry value rest v.v_to_h_vals p 0 i (by omega)
        (by omega)
      have c1 := cons_entry value rest v.k_vals p 1 i (by omega) (by omega)
      have c2 := cons_entry value rest v.aImp_vals p 2 i (by omega) (by omega)
      have c3 := cons_entry value rest v.wProp_vals p 3 i (by omega) (by omega)
      simp only [hm, if_true, if_false, OfNat.zero_ne_ofNat, OfNat.ofNat_ne_zero,
        Nat.reduceEqDiff, OfNat.ofNat_ne_one, OfNat.one_ne_ofNat] at c0 c1 c2 c3
      rw [hsum] at c0 c1 c2 c3
      rw [hsum] at e0 e1 e2 e3
      rw [hsum]
      exact ⟨e0.trans c0, e1.trans c1, e2.trans c2, e3.trans c3⟩

end Transfil

namespace Transfil

/-- Claim C27.  When the four vectors hold `n > 0` entries each and the line
holds fewer than `4n` values, `ProcessLine` returns (the `exit(1)` after
the diagnostic is commented out) with the diagnostic printed; the four
lengths are still `n`; entry `i` of a vector is the value of the line at
its position (`4i` for `v_to_h`, `4i + 1` for `k`, `4i + 2` for `aImp`,
`4i + 3` for `wProp`) when the line has a value there, and its previous
value otherwise. -/
theorem ProcessLine_short_line (xs : List ℚ) (v : ParamVectors) (n : Nat)
    (hn : 0 < n) (hk : v.k_vals.length = n) (hv : v.v_to_h_vals.length = n)
    (ha : v.aImp_vals.length = n) (hw : v.wProp_vals.length = n)
    (hshort : xs.length < 4 * n) :
    (ProcessLine xs v).2 = true ∧
    (ProcessLine xs v).1.k_vals.length = n ∧
    (ProcessLine xs v).1.v_to_h_vals.length = n ∧
    (ProcessLine xs v).1.aImp_vals.length = n ∧
    (ProcessLine xs v).1.wProp_vals.length = n ∧
    ∀ i : Nat,
      (ProcessLine xs v).1.v_to_h_vals[i]? =
        (if 4 * i < xs.length then xs[4 * i]? else v.v_to_h_vals[i]?) ∧
      (ProcessLine xs v).1.k_vals[i]? =
        (if 4 * i + 1 < xs.length then xs[4 * i + 1]? else v.k_vals[i]?) ∧
      (ProcessLine xs v).1.aImp_vals[i]? =
        (if 4 * i + 2 < xs.length then xs[4 * i + 2]?
          else v.aImp_vals[i]?) ∧
      (ProcessLine xs v).1.wProp_vals[i]? =
        (if 4 * i + 3 < xs.length then xs[4 * i + 3]?
          else v.wProp_vals[i]?) := by
  have h := processValues_short n hn xs 0 v hk hv ha hw (by omega)
  simp only [Nat.cast_zero, zero_add, Nat.zero_div, Nat.zero_le, true_and,
    Nat.sub_zero, Nat.add_zero] at h
  obtain ⟨r1, r2, r3, r4, r5, r6⟩ := h
  unfold ProcessLine
  simp only [hk]
  refine ⟨?_, r2, r3, r4, r5, r6⟩
  rw [r1]
  have hlt : xs.length / 4 < n := by omega
  have hne : ((xs.length / 4 : Nat) : Int) ≠ (n : Int) := by
    intro he
    have : xs.length / 4 = n := by exact_mod_cast he
    omega
  exact decide_eq_true hne

/-- Claim C27, worked example: a line of five values on vectors of two
entries each. -/
theorem ProcessLine_short_line_witness :
    (ProcessLine [10, 20, 30, 40, 50] staleVectors).2 = true ∧
    (ProcessLine [10, 20, 30, 40, 50] staleVectors).1.k_vals.length = 2 ∧
    (ProcessLine [10, 20, 30, 40, 50] staleVectors).1.v_to_h_vals.length = 2 ∧
    (ProcessLine [10, 20, 30, 40, 50] staleVectors).1.aImp_vals.length = 2 ∧
    (ProcessLine [10, 20, 30, 40, 50] staleVectors).1.wProp_vals.length = 2 ∧
    ∀ i : Nat,
      (ProcessLine [10, 20, 30, 40, 50] staleVectors).1.v_to_h_vals[i]? =
        (if 4 * i < ([10, 20, 30, 40, 50] : List ℚ).length then
          ([10, 20, 30, 40, 50] : List ℚ)[4 * i]?
          else staleVectors.v_to_h_vals[i]?) ∧
      (ProcessLine [10, 20, 30, 40, 50] staleVectors).1.k_vals[i]? =
        (if 4 * i + 1 < ([10, 20, 30, 40, 50] : List ℚ).length then
          ([10, 20, 30, 40, 50] : List ℚ)[4 * i + 1]?
          else staleVectors.k_vals[i]?) ∧
      (ProcessLine [10, 20, 30, 40, 50] staleVectors).1.aImp_vals[i]? =
        (if 4 * i + 2 < ([10, 20, 30, 40, 50] : List ℚ).length then
          ([10, 20, 30, 40, 50] : List ℚ)[4 * i + 2]?
          else staleVectors.aImp_vals[i]?) ∧
      (ProcessLine [10, 20, 30, 40, 50] staleVectors).1.wProp_vals[i]? =
        (if 4 * i + 3 < ([10, 20, 30, 40, 50] : List ℚ).length then
          ([10, 20, 30, 40, 50] : List ℚ)[4 * i + 3]?
          else staleVectors.wProp_vals[i]?) :=
  ProcessLine_short_line [10, 20, 30, 40, 50] staleVectors 2 (by decide) rfl
    rfl rfl rfl (by decide)

end Transfil

namespace Transfil

/-! ### Due months in the past and the surveys that were run -/

end Transfil
